import Mathlib

/-! # Bolt launcher core: query decoder, response stream, runtime resolver, launch orchestrators

A shallow embedding of `src/browser/window_launcher_posix.cxx` and
`src/browser/handler/request_handler.cxx`.

* C strings and `std::string_view` are lists of characters (`Str`); a `const char*`
  that walks a string is the remaining suffix.
* `size_t` arithmetic is on `Nat` modulo `2^64`; `int` and `int64` values are `Int`,
  with the conversions written out.
* Loops carry a fuel argument; running out of fuel is the fault `Fault.out_of_fuel`
  (or `none`), so every result that is reported is a result the loop really reaches.
* A run that does not return ends with a `Fault`: behaviour the language leaves undefined,
  or an exception of `std::filesystem` that nothing catches.
-/

namespace Bolt

/-- A byte string: the contents of a C string or of a `std::string_view`. -/
abbrev Str := List Char

/-! ## `ParseQuery` (window_launcher_posix.cxx, lines 44-62) -/

/-- The call `std::string_view::find(ch, pos)`: the first index at or after `pos` holding `ch`;
`none` stands for `npos`. -/
def find (s : Str) (ch : Char) (pos : Nat) : Option Nat :=
  if ch ∈ s.drop pos then some (pos + (s.drop pos).indexOf ch) else none

/-- The view `std::string_view(query.begin() + a, query.begin() + b)`. -/
def substr (s : Str) (a b : Nat) : Str := (s.drop a).take (b - a)

/-- The `while (true)` loop of `ParseQuery`, the visitor threaded as a state transformer.
`none` means the fuel ran out before the loop left. -/
def ParseQueryLoop {σ : Type} (query : Str) (callback : Str → Str → σ → σ) :
    Nat → Nat → σ → Option σ
  | 0, _, _ => none
  | fuel + 1, pos, st =>
    let next_and := find query '&' pos
    let next_eq := find query '=' pos
    match next_eq with
    | none => some st
    | some eq =>
      match next_and with
      | some amp =>
        if eq > amp then ParseQueryLoop query callback fuel (amp + 1) st
        else
          ParseQueryLoop query callback fuel (amp + 1)
            (callback (substr query pos eq) (substr query (eq + 1) amp) st)
      | none => some (callback (substr query pos eq) (substr query (eq + 1) query.length) st)

/-- The function `ParseQuery(query, callback)`: `pos` starts at 0. Each turn of the loop that
does not leave moves `pos` past an `&`, so `query.length + 1` turns are enough. -/
def ParseQuery {σ : Type} (query : Str) (callback : Str → Str → σ → σ) (st : σ) : Option σ :=
  ParseQueryLoop query callback (query.length + 1) 0 st

/-- The visitor that only records its calls, in order. -/
def record (key val : Str) (calls : List (Str × Str)) : List (Str × Str) :=
  calls ++ [(key, val)]

/-- The calls `ParseQuery` makes to its visitor on `query`, in order. -/
def visits (query : Str) : Option (List (Str × Str)) := ParseQuery query record []

/-- The text `k=v` of one pair. -/
def pairText (p : Str × Str) : Str := p.1 ++ '=' :: p.2

/-- The query `k_1=v_1&k_2=v_2&...&k_n=v_n`. -/
def queryOfPairs (pairs : List (Str × Str)) : Str :=
  List.intercalate ['&'] (pairs.map pairText)

/-- A pair `k=v` with `k` non-empty and free of `&` and `=`, and `v` free of `&`. -/
def WellFormedPair (p : Str × Str) : Prop :=
  p.1 ≠ [] ∧ '&' ∉ p.1 ∧ '=' ∉ p.1 ∧ '&' ∉ p.2

instance (p : Str × Str) : Decidable (WellFormedPair p) := by
  unfold WellFormedPair; infer_instance

/-- One `&`-separated segment of a query: a pair `k=v`, or text without `=`. -/
inductive Segment where
  | pair (k v : Str)
  | junk (t : Str)

/-- The text of a segment. -/
def Segment.text : Segment → Str
  | .pair k v => pairText (k, v)
  | .junk t => t

/-- A pair is well formed as in `WellFormedPair`; junk text has neither `=` nor `&`
(it may be empty). -/
def Segment.WellFormed : Segment → Prop
  | .pair k v => WellFormedPair (k, v)
  | .junk t => '=' ∉ t ∧ '&' ∉ t

instance (s : Segment) : Decidable s.WellFormed := by
  cases s <;> unfold Segment.WellFormed <;> infer_instance

/-- The pairs among a list of segments, in order. -/
def pairsOf : List Segment → List (Str × Str)
  | [] => []
  | .pair k v :: rest => (k, v) :: pairsOf rest
  | .junk _ :: rest => pairsOf rest

/-- The segments joined with `&`. -/
def queryOfSegments (segs : List Segment) : Str :=
  List.intercalate ['&'] (segs.map Segment.text)

/-- The visitor applied to a list of calls, in order. -/
def applyCalls {σ : Type} (callback : Str → Str → σ → σ) (st : σ) (calls : List (Str × Str)) : σ :=
  calls.foldl (fun s kv => callback kv.1 kv.2 s) st

/-! ## Ways a run ends without returning -/

/-- What ends a run other than a `return`: the fuel of a loop of the model running out,
behaviour the language leaves undefined (a null or released pointer handed to a library, an
access outside a buffer, a negative array length), and the exception `filesystem_error` that
the throwing overloads of `std::filesystem` raise and that no function of the two files
catches. -/
inductive Fault where
  | out_of_fuel
  | null_pointer
  | use_after_free
  | out_of_bounds
  | bad_array_new_length
  | filesystem_error
  deriving DecidableEq, Repr

/-! ## `ResourceHandler` (request_handler.cxx, lines 9-66) -/

/-- Conversion of an integer value to `size_t`: reduction modulo `2^64`. -/
def to_size_t (x : Int) : Nat := (x % 2 ^ 64).toNat

/-- Conversion of an integer value to `int` (32 bits, two's complement). -/
def to_int (x : Int) : Int := (x + 2 ^ 31) % 2 ^ 32 - 2 ^ 31

/-- Conversion of an integer value to `int64` (64 bits, two's complement). -/
def to_int64 (x : Int) : Int := (x + 2 ^ 63) % 2 ^ 64 - 2 ^ 63

/-- The fields of `struct ResourceHandler`: `data` is the C string's contents, `data_len`
and `cursor` are `size_t`. -/
structure ResourceHandler where
  data : Str
  data_len : Nat
  cursor : Nat
  deriving DecidableEq, Repr

/-- The constructor `ResourceHandler(const char* data)`: `data_len(strlen(data))`, `cursor(0)`. -/
def ResourceHandler.create (data : Str) : ResourceHandler :=
  { data := data, data_len := data.length, cursor := 0 }

/-- A call `memcpy(data_out, this->data + offset, count)`, `count` already converted to
`size_t`. -/
structure Memcpy where
  offset : Nat
  count : Nat
  deriving DecidableEq, Repr

/-- The bytes a `memcpy` delivers out of `data`; `none` when its source range is not inside
`data[0 .. data.length)`. -/
def Memcpy.bytes (m : Memcpy) (data : Str) : Option Str :=
  if m.offset + m.count ≤ data.length then some ((data.drop m.offset).take m.count) else none

/-- The fault of a `memcpy` out of a buffer of `data_len` bytes: its source range has to lie
inside `data[0 .. data_len)`. -/
def Memcpy.fault (m : Memcpy) (data_len : Nat) : Option Fault :=
  if m.offset + m.count ≤ data_len then none else some .out_of_bounds

/-- What one call on the handler gives back: the return value, the count stored through the
reference parameter (`bytes_read` or `bytes_skipped`), the `memcpy` made if any, and the
handler afterwards. When `fault` is set the call does not return: the `memcpy` it has asked
for leaves the buffer, `handler` is the handler at that point and `ret` is not reached. -/
structure CallResult where
  ret : Bool
  count : Int
  copy : Option Memcpy
  handler : ResourceHandler
  fault : Option Fault := none
  deriving DecidableEq, Repr

/-- The method `ResourceHandler::Read(data_out, bytes_to_read, bytes_read, callback)`. The
count stored in `bytes_read` is an `int`; `memcpy` takes it converted to `size_t`, and the
cursor is moved after the `memcpy` (lines 32-33, 37-38). -/
def ResourceHandler.Read (h : ResourceHandler) (bytes_to_read : Int) : CallResult :=
  if h.cursor = h.data_len then
    { ret := false, count := 0, copy := none, handler := h }
  else if to_size_t (h.cursor + bytes_to_read) ≤ h.data_len then
    let m : Memcpy := { offset := h.cursor, count := to_size_t bytes_to_read }
    match m.fault h.data_len with
    | some f => { ret := true, count := bytes_to_read, copy := some m, handler := h,
                  fault := some f }
    | none =>
      { ret := true, count := bytes_to_read, copy := some m,
        handler := { h with cursor := to_size_t (h.cursor + bytes_to_read) } }
  else
    let m : Memcpy :=
      { offset := h.cursor, count := to_size_t (to_int (to_size_t (h.data_len - h.cursor))) }
    match m.fault h.data_len with
    | some f => { ret := true, count := to_int (to_size_t (h.data_len - h.cursor)),
                  copy := some m, handler := h, fault := some f }
    | none =>
      { ret := true, count := to_int (to_size_t (h.data_len - h.cursor)), copy := some m,
        handler := { h with cursor := h.data_len } }

/-- The method `ResourceHandler::Skip(bytes_to_skip, bytes_skipped, callback)`. -/
def ResourceHandler.Skip (h : ResourceHandler) (bytes_to_skip : Int) : CallResult :=
  if to_size_t (h.cursor + bytes_to_skip) ≤ h.data_len then
    { ret := true, count := bytes_to_skip, copy := none,
      handler := { h with cursor := to_size_t (h.cursor + bytes_to_skip) } }
  else
    { ret := true, count := to_int64 (to_size_t (h.data_len - h.cursor)), copy := none,
      handler := { h with cursor := h.data_len } }

/-- The method `ResourceHandler::Cancel()`. -/
def ResourceHandler.Cancel (h : ResourceHandler) : ResourceHandler :=
  { h with cursor := h.data_len }

/-- A call the embedding layer makes on the stream. -/
inductive Call where
  | Read (bytes_to_read : Int)
  | Skip (bytes_to_skip : Int)
  | Cancel
  deriving DecidableEq, Repr

/-- The argument is a value of the parameter's type: `int` for `Read`, `int64` for `Skip`. -/
def Call.InRange : Call → Prop
  | .Read n => -2 ^ 31 ≤ n ∧ n < 2 ^ 31
  | .Skip n => -2 ^ 63 ≤ n ∧ n < 2 ^ 63
  | .Cancel => True

instance (c : Call) : Decidable c.InRange := by
  cases c <;> unfold Call.InRange <;> infer_instance

/-- A `Read` or `Skip` whose size is a non-negative value of the parameter's type. -/
def Call.NonNegSize : Call → Prop
  | .Read n => 0 ≤ n ∧ n < 2 ^ 31
  | .Skip n => 0 ≤ n ∧ n < 2 ^ 63
  | .Cancel => False

instance (c : Call) : Decidable c.NonNegSize := by
  cases c <;> unfold Call.NonNegSize <;> infer_instance

/-- The size a call asks for (`Cancel` asks for none). -/
def Call.requested : Call → Int
  | .Read n => n
  | .Skip n => n
  | .Cancel => 0

/-- One call applied to the handler. `Cancel` returns nothing; its result only carries the
handler. -/
def ResourceHandler.call (h : ResourceHandler) : Call → CallResult
  | .Read n => h.Read n
  | .Skip n => h.Skip n
  | .Cancel => { ret := true, count := 0, copy := none, handler := h.Cancel }

/-- One entry of the history of a handler: the handler before a call, and the call's result. -/
structure Event where
  before : ResourceHandler
  call : Call
  result : CallResult
  deriving DecidableEq, Repr

/-- The history of a sequence of calls made one after the other on `h`. A call that faults
is the last entry: no call comes after it. -/
def ResourceHandler.history (h : ResourceHandler) : List Call → List Event
  | [] => []
  | c :: rest =>
    { before := h, call := c, result := h.call c } ::
      (match (h.call c).fault with
       | none => (h.call c).handler.history rest
       | some _ => [])

/-- The handler after a sequence of calls; the sequence ends at a call that faults. -/
def ResourceHandler.after (h : ResourceHandler) : List Call → ResourceHandler
  | [] => h
  | c :: rest =>
    match (h.call c).fault with
    | none => (h.call c).handler.after rest
    | some _ => (h.call c).handler

/-- The sum of the counts reported by the calls of a history. -/
def delivered (events : List Event) : Int := (events.map fun e => e.result.count).sum

/-- The invariants of a handler made by the constructor: `data_len` is the length of `data`,
the cursor is inside, and the string fits the address space (`strlen` of an object in memory
is below `PTRDIFF_MAX = 2^63 - 1`). -/
structure ResourceHandler.Valid (h : ResourceHandler) : Prop where
  len : h.data_len = h.data.length
  cur : h.cursor ≤ h.data_len
  fits : h.data_len < 2 ^ 63

/-! ## `FindJava` (window_launcher_posix.cxx, lines 17-42) -/

/-- The call `std::filesystem::path::append` on a POSIX system, on the native strings: an
absolute argument replaces the path; otherwise a separator is added when the path has a
filename (it is non-empty and does not end in `/`), and the argument is appended. -/
def path_append (p s : Str) : Str :=
  if s.head? = some '/' then s
  else if p ≠ [] ∧ p.getLast? ≠ some '/' then p ++ '/' :: s
  else p ++ s

/-- The call `strchr(s, c)` as an offset into `s`; `none` is the null pointer. -/
def strchr : Str → Char → Option Nat
  | [], _ => none
  | x :: xs, c => if x = c then some 0 else (strchr xs c).map (· + 1)

/-- The outcome of `FindJava`: the return value, the string assigned to `out` (if any), and
the paths handed to `std::filesystem::exists`, in order. -/
structure Found where
  ret : Bool
  out : Option Str
  probes : List Str
  deriving DecidableEq, Repr

/-- The `while (true)` loop of `FindJava` over the value of `PATH`; `path` is the suffix that
the pointer `path` points at, `probes` the existence checks made so far. `fs_exists` is the
throwing overload `std::filesystem::exists(p)`: `none` stands for a `filesystem_error`, which
`FindJava` does not catch. -/
def FindJavaLoop (fs_exists : Str → Option Bool) : Nat → Str → List Str → Except Fault Found
  | 0, _, _ => .error .out_of_fuel
  | fuel + 1, path, probes =>
    let next_colon := strchr path ':'
    let path_item := match next_colon with
      | none => path
      | some i => path.take i
    let java := path_append path_item "java".toList
    match fs_exists java with
    | none => .error .filesystem_error
    | some true => .ok { ret := true, out := some java, probes := probes ++ [java] }
    | some false =>
      match next_colon with
      | none => .ok { ret := false, out := none, probes := probes ++ [java] }
      | some i => FindJavaLoop fs_exists fuel (path.drop (i + 1)) (probes ++ [java])

/-- The part of `FindJava` after the home hint: `getenv("PATH")` and the loop. A null `PATH`
is handed to `strchr`. Each turn of the loop that goes on drops a `:`, so
`path.length + 1` turns are enough. -/
def FindJavaInPath (fs_exists : Str → Option Bool) (PATH : Option Str) (probes : List Str) :
    Except Fault Found :=
  match PATH with
  | none => .error .null_pointer
  | some path => FindJavaLoop fs_exists (path.length + 1) path probes

/-- The function `FindJava(java_home, out)`. `fs_exists` is `std::filesystem::exists` on the
file system of the moment (`none`: it throws), `PATH` the value of `getenv("PATH")`. -/
def FindJava (fs_exists : Str → Option Bool) (java_home : Option Str) (PATH : Option Str) :
    Except Fault Found :=
  match java_home with
  | some home =>
    let java := path_append (path_append home "bin".toList) "java".toList
    match fs_exists java with
    | none => .error .filesystem_error
    | some true => .ok { ret := true, out := some java, probes := [java] }
    | some false => FindJavaInPath fs_exists PATH [java]
  | none => FindJavaInPath fs_exists PATH []

/-- The request as far as the orchestrators look at it: `GetPostData()` is null (`none`) or
holds a vector of elements, each with its bytes. -/
structure Request where
  post_data : Option (List Str)

/-- The fields of `Browser::Launcher` the orchestrators use, as native path strings. The class
is declared in `window_launcher.hxx`, which is not among the sources; the fields are the ones
the three functions read through `this`. -/
structure Launcher where
  data_dir : Str
  rs3_path : Str
  rs3_hash_path : Str
  runelite_path : Str
  runelite_id_path : Str
  hdos_path : Str
  hdos_version_path : Str

/-- The arguments of `new ResourceHandler(data, strlen(data), status, mime)`, the response an
orchestrator returns. This constructor belongs to `resource_handler.hxx`, which is not among
the sources; a response is kept as the three values handed to it. -/
structure Response where
  status : Nat
  mime : Str
  body : Str
  deriving DecidableEq, Repr

/-- One call of `archive_read_data(a, buf, n)`: the count it returns and the bytes it stores at
`buf`. -/
structure ReadData where
  ret : Int
  bytes : Str
  deriving DecidableEq, Repr

/-- An entry as libarchive presents it: `archive_entry_pathname`, `archive_entry_size`, and
what the `k`-th call of `archive_read_data` on this entry answers when asked for `n` bytes
(`read_data k n`). -/
structure Entry where
  pathname : Str
  size : Int
  read_data : Nat → Nat → ReadData

/-- One answer of `archive_read_next_header`: `ARCHIVE_OK` with an entry, or a code that is
neither `ARCHIVE_OK` nor `ARCHIVE_EOF`. -/
inductive NextHeader where
  | ok (entry : Entry)
  | failed (r : Int)

/-- An opened archive: the answers of the successive `archive_read_next_header` calls; after
the last one the answer is `ARCHIVE_EOF`. -/
abbrev Archive := List NextHeader

/-- What the libraries and the operating system answer. -/
structure World where
  /-- The call `CefURIDecode(val, true, pqrule)`. -/
  decode : Str → Str
  /-- The archive libarchive sees in a memory buffer with `archive_read_support_format_ar`. -/
  ar_open : Str → Archive
  /-- The same with `archive_read_support_format_tar` and `archive_read_support_filter_xz`. -/
  tar_xz_open : Str → Archive
  /-- The call `getenv("JAVA_HOME")`. -/
  java_home : Option Str
  /-- The call `getenv("PATH")`. -/
  PATH : Option Str
  /-- The call `std::filesystem::exists(p)`; `none` when it throws `filesystem_error` (the
  status of `p` cannot be read: a component is too long, a directory cannot be searched, a
  loop of links). -/
  fs_exists : Str → Option Bool
  /-- The call `std::filesystem::current_path()`; `none` when it throws. -/
  current_path : Option Str
  /-- Whether `std::filesystem::remove_all(p)` returns (it throws otherwise). -/
  remove_all_ok : Str → Bool
  /-- Whether `std::filesystem::create_directory(p)` returns (it throws otherwise, as when
  the parent of `p` does not exist). -/
  create_directory_ok : Str → Bool
  /-- Whether `open(path, O_WRONLY | O_CREAT | O_TRUNC, mode)` gives a descriptor. -/
  open_ok : Str → Bool
  /-- What the `k`-th `write` on the file opened at `path` returns when given `n` bytes
  (`write_ret path k n`). -/
  write_ret : Str → Nat → Nat → Int
  /-- The return value of `symlink(target, linkpath)`. -/
  symlink_ret : Str → Str → Int
  /-- Whether `fork()` creates a child. -/
  fork_ok : Bool
  /-- Whether `chdir` succeeds in the child. -/
  chdir_ok : Bool
  /-- Whether `execv` replaces the child's program (it returns otherwise). -/
  execv_ok : Bool

/-- The heap objects of the orchestrators: the buffers made with `new[]` and the libarchive
handles made with `archive_read_new`. -/
inductive Obj where
  | deb | tar_xz | game | icon | jar | ar | xz
  deriving DecidableEq, Repr

/-- What the child does after `fork`. `leaves_block` stands for a child whose `execv` has
returned: it leaves the block `if (pid == 0)` and runs the statements after it, the ones the
parent runs (the message, the marker file, the 200 response). -/
inductive ChildAction where
  | setpgrp
  | chdir (dir : Str)
  | print (msg : Str)
  | exit (code : Nat)
  | close_stdin
  | setenv (name value : Str) (overwrite : Bool)
  | execv (path : Str) (argv : List Str)
  | leaves_block
  deriving DecidableEq, Repr

/-- What an orchestrator does to the heap, the file system and the process table. -/
inductive Effect where
  | alloc (o : Obj)
  | free (o : Obj)
  | archive_read_data (handle : Obj) (n : Nat)
  | open_file (path : Str) (mode : Nat) (ok : Bool)
  | write (path : Str) (bytes : Str)
  | close (path : Str)
  | mkdir (path : Str) (mode : Nat)
  | remove_all (path : Str)
  | create_directory (path : Str)
  | symlink (target link : Str)
  | print (msg : Str)
  | fork (child : Option (List ChildAction))
  deriving DecidableEq, Repr

/-- The effects so far, and how the run went on: a fault, or a value. -/
structure Outcome (β : Type) where
  effects : List Effect
  result : Except Fault β

/-- The statement `return new ResourceHandler(data, strlen(data), status, "text/plain")`. -/
def respond (effects : List Effect) (status : Nat) (data : String) : Outcome Response :=
  { effects := effects,
    result := .ok { status := status, mime := "text/plain".toList, body := data.toList } }

/-- The effect leaves the file system and the process table as they are: it only touches the
heap, reads an archive or prints. -/
def Effect.Harmless : Effect → Prop
  | .alloc _ => True
  | .free _ => True
  | .archive_read_data _ _ => True
  | .print _ => True
  | _ => False

instance (e : Effect) : Decidable e.Harmless := by
  cases e <;> unfold Effect.Harmless <;> infer_instance

/-- The call `std::filesystem::path::parent_path()` on a POSIX path: a path without a
relative part (empty, or separators only) is its own parent; otherwise the path without its
filename and without the separators before it, the root directory staying. -/
def parent_path (p : Str) : Str :=
  let dir := (p.reverse.dropWhile (· ≠ '/')).reverse
  let trimmed := (dir.reverse.dropWhile (· = '/')).reverse
  if trimmed = [] then (if dir = p then p else if dir = [] then [] else ['/']) else trimmed

/-- Bytes stored at offset `off` of a buffer. -/
def store (buf : Str) (off : Nat) (bytes : Str) : Str :=
  buf.take off ++ bytes ++ buf.drop (off + bytes.length)

/-- The loop `while (written < size) written += archive_read_data(a, buf + written,
size - written);` with `long written`. `live` is what the handle answers (`none` when the
handle has been released with `archive_read_free`), `k` counts the calls made on the entry. -/
def read_loop (handle : Obj) (live : Option (Nat → Nat → ReadData)) (size : Int) :
    Nat → Nat → Int → Str → List Effect → Outcome Str
  | 0, _, _, _, eff => { effects := eff, result := .error .out_of_fuel }
  | fuel + 1, k, written, buf, eff =>
    if written < size then
      let n := to_size_t (size - written)
      match live with
      | none =>
        { effects := eff ++ [.archive_read_data handle n], result := .error .use_after_free }
      | some answer =>
        let r := answer k n
        if r.bytes = [] ∨ (0 ≤ written ∧ written + r.bytes.length ≤ buf.length) then
          read_loop handle live size fuel (k + 1) (written + r.ret)
            (store buf written.toNat r.bytes) (eff ++ [.archive_read_data handle n])
        else
          { effects := eff ++ [.archive_read_data handle n], result := .error .out_of_bounds }
    else { effects := eff, result := .ok buf }

/-- The loop `while (written < size) written += write(file, buf + written, size - written);`
with `long written` (the executable and the icons). -/
def write_loop_long (w : World) (path : Str) (buf : Str) (size : Int) :
    Nat → Nat → Int → List Effect → Outcome Unit
  | 0, _, _, eff => { effects := eff, result := .error .out_of_fuel }
  | fuel + 1, k, written, eff =>
    if written < size then
      if written < 0 then { effects := eff, result := .error .out_of_bounds }
      else
        let ret := w.write_ret path k (to_size_t (size - written))
        write_loop_long w path buf size fuel (k + 1) (written + ret)
          (eff ++ [.write path ((buf.drop written.toNat).take ret.toNat)])
    else { effects := eff, result := .ok () }

/-- The same loop with `size_t written` (the jars and the marker files): the sum wraps modulo
`2^64`. -/
def write_loop_size_t (w : World) (path : Str) (buf : Str) (size : Nat) :
    Nat → Nat → Nat → List Effect → Outcome Unit
  | 0, _, _, eff => { effects := eff, result := .error .out_of_fuel }
  | fuel + 1, k, written, eff =>
    if written < size then
      let ret := w.write_ret path k (to_size_t ((size : Int) - written))
      write_loop_size_t w path buf size fuel (k + 1) (to_size_t ((written : Int) + ret))
        (eff ++ [.write path ((buf.drop written).take ret.toNat)])
    else { effects := eff, result := .ok () }

/-- The strings `execv` sees in `argv`: the entries before the first null pointer. -/
def argv_strings : List (Option Str) → List Str
  | some a :: rest => a :: argv_strings rest
  | _ => []

/-- The block `if (pid == 0) { ... }` that the child runs: `setpgrp`, `chdir(data_dir)` (on
failure a message and `exit(1)`), `close(STDIN_FILENO)`, the `setenv` calls and
`execv(*argv, argv)`; when `execv` returns the child leaves the block. -/
def child_actions (w : World) (data_dir : Str) (env : List (Str × Str × Bool))
    (argv : List (Option Str)) : List ChildAction :=
  if w.chdir_ok then
    [.setpgrp, .chdir data_dir, .close_stdin] ++
      env.map (fun e => ChildAction.setenv e.1 e.2.1 e.2.2) ++
      .execv ((argv_strings argv).headD []) (argv_strings argv) ::
        (if w.execv_ok then [] else [.leaves_block])
  else
    [.setpgrp, .chdir data_dir, .print "[B] new process was unable to chdir: \x7b\x7d\n".toList,
      .exit 1]

/-- The call `fork()` followed by the child's block and the parent's message. -/
def spawn (w : World) (data_dir : Str) (env : List (Str × Str × Bool))
    (argv : List (Option Str)) (eff : List Effect) : List Effect :=
  eff ++ [.fork (if w.fork_ok then some (child_actions w data_dir env argv) else none),
    .print "[B] Successfully spawned game process with pid \x7b\x7d\n".toList]

/-- The tail shared by the three orchestrators: when the update parameter was present, the
marker file is opened and written; the response is 200. -/
def save_marker (w : World) (fuel : Nat) (has_marker : Bool) (marker_path value : Str)
    (failed : String) (eff : List Effect) : Outcome Response :=
  if has_marker then
    if w.open_ok marker_path then
      let o := write_loop_size_t w marker_path value value.length fuel 0 0
        (eff ++ [.open_file marker_path 0o644 true])
      match o.result with
      | .error f => { effects := o.effects, result := .error f }
      | .ok _ => respond (o.effects ++ [.close marker_path]) 200 "OK\n"
    else respond (eff ++ [.open_file marker_path 0o644 false]) 200 failed
  else respond eff 200 "OK\n"

/-! ## `LaunchRs3Deb` (window_launcher_posix.cxx, lines 66-293) -/

/-- The locals that `ParseQuery`'s visitor fills in `LaunchRs3Deb`. -/
structure Rs3Query where
  hash : Str := []
  has_hash : Bool := false
  config_uri : Str := []
  has_config_uri : Bool := false
  jx_session_id : Str := []
  has_jx_session_id : Bool := false
  jx_character_id : Str := []
  has_jx_character_id : Bool := false
  jx_display_name : Str := []
  has_jx_display_name : Bool := false
  deriving DecidableEq, Repr

/-- The visitor of `LaunchRs3Deb`: the five `PQCHECK` lines, each storing the decoded value
and returning. -/
def Rs3Query.visit (decode : Str → Str) (key val : Str) (q : Rs3Query) : Rs3Query :=
  if key = "hash".toList then { q with has_hash := true, hash := decode val }
  else if key = "config_uri".toList then
    { q with has_config_uri := true, config_uri := decode val }
  else if key = "jx_session_id".toList then
    { q with has_jx_session_id := true, jx_session_id := decode val }
  else if key = "jx_character_id".toList then
    { q with has_jx_character_id := true, jx_character_id := decode val }
  else if key = "jx_display_name".toList then
    { q with has_jx_display_name := true, jx_display_name := decode val }
  else q

/-- The array `env_pulse_prop_override`, without its terminator. -/
def env_pulse_prop_override : Str :=
  [97, 112, 112, 108, 105, 99, 97, 116, 105, 111, 110, 46, 110,
   97, 109, 101, 61, 39, 82, 117, 110, 101, 83, 99, 97, 112, 101, 39, 32,
   97, 112, 112, 108, 105, 99, 97, 116, 105, 111, 110, 46, 105, 99, 111, 110,
   95, 110, 97, 109, 101, 61, 39, 114, 117, 110, 101, 115, 99, 97, 112, 101,
   39, 32, 109, 101, 100, 105, 97, 46, 114, 111, 108, 101, 61, 39, 103, 97,
   109, 101, 39].map Char.ofNat

/-- The array `env_wmclass`, without its terminator. -/
def env_wmclass : Str := [82, 117, 110, 101, 83, 99, 97, 112, 101].map Char.ofNat

/-- The array `tar_xz_inner_path`, without its terminator. -/
def tar_xz_inner_path : Str :=
  [46, 47, 117, 115, 114, 47, 115, 104, 97, 114, 101, 47, 103, 97, 109, 101,
   115, 47, 114, 117, 110, 101, 115, 99, 97, 112, 101, 45, 108, 97, 117,
   110, 99, 104, 101, 114, 47, 114, 117, 110, 101, 115, 99, 97, 112, 101].map Char.ofNat

/-- The constant `tar_xz_icons_path`. -/
def tar_xz_icons_path : Str := "./usr/share/icons/".toList

/-- How the loop over the outer archive (lines 132-147) ends. -/
inductive OuterScan where
  | malformed
  | missing
  | found (entry : Entry)

/-- The loop over the headers of the `.deb` (lines 132-147): it stops at the first header that
is not `ARCHIVE_OK`, at the first entry named `data.tar.xz`, or at `ARCHIVE_EOF`. -/
def scan_deb : Archive → OuterScan
  | [] => .missing
  | .failed _ :: _ => .malformed
  | .ok entry :: rest =>
    if entry.pathname = "data.tar.xz".toList then .found entry else scan_deb rest

/-- How the loop over the inner archive (lines 173-239) ends: with a `return`, or at
`ARCHIVE_EOF` with the flag `entry_found`. -/
inductive InnerScan where
  | returned (response : Response)
  | finished (entry_found : Bool)

/-- The body of the loop for the entry of the game binary (lines 188-208). The data is read
with `archive_read_data(ar, ...)`, and `ar` was released at line 164. -/
def save_game (L : Launcher) (w : World) (fuel : Nat) (entry : Entry) (eff : List Effect) :
    Outcome (Option Response) :=
  if entry.size < 0 then { effects := eff, result := .error .bad_array_new_length }
  else
    let rd := read_loop .ar none entry.size fuel 0 0
      (List.replicate entry.size.toNat '\x00') (eff ++ [.alloc .game])
    match rd.result with
    | .error f => { effects := rd.effects, result := .error f }
    | .ok game =>
      if w.open_ok L.rs3_path then
        let wr := write_loop_long w L.rs3_path game entry.size fuel 0 0
          (rd.effects ++ [.open_file L.rs3_path 0o755 true])
        match wr.result with
        | .error f => { effects := wr.effects, result := .error f }
        | .ok _ =>
          { effects := wr.effects ++ [.close L.rs3_path, .free .game], result := .ok none }
      else
        { effects := rd.effects ++ [.open_file L.rs3_path 0o755 false, .free .game],
          result := .ok (some
            { status := 500, mime := "text/plain".toList,
              body := ("Failed to save executable; if the game is already running, " ++
                "close it and try again\n").toList }) }

/-- The body of the loop for an entry under the icons prefix (lines 210-237). -/
def save_icon (w : World) (fuel : Nat) (icons_dir : Str) (entry : Entry)
    (eff : List Effect) : Outcome Unit :=
  let icon_path := path_append icons_dir (entry.pathname.drop tar_xz_icons_path.length)
  if entry.pathname.getLast? = some '/' then
    { effects := eff ++ [.mkdir icon_path 0o755], result := .ok () }
  else if entry.size < 0 then { effects := eff, result := .error .bad_array_new_length }
  else
    let rd := read_loop .ar none entry.size fuel 0 0
      (List.replicate entry.size.toNat '\x00') (eff ++ [.alloc .icon])
    match rd.result with
    | .error f => { effects := rd.effects, result := .error f }
    | .ok icon =>
      if w.open_ok icon_path then
        let wr := write_loop_long w icon_path icon entry.size fuel 0 0
          (rd.effects ++ [.open_file icon_path 0o755 true])
        match wr.result with
        | .error f => { effects := wr.effects, result := .error f }
        | .ok _ => { effects := wr.effects ++ [.close icon_path, .free .icon], result := .ok () }
      else
        { effects := rd.effects ++ [.open_file icon_path 0o755 false,
            .print "[B] [warning] failed to save an icon: \x7b\x7d\n".toList],
          result := .ok () }

/-- The loop over the headers of `data.tar.xz` (lines 173-239). -/
def scan_tar_xz (L : Launcher) (w : World) (fuel : Nat) (icons_dir : Str) :
    Archive → Bool → List Effect → Outcome InnerScan
  | [], entry_found, eff => { effects := eff, result := .ok (.finished entry_found) }
  | .failed _ :: _, _, eff =>
    { effects := eff ++ [.free .xz, .free .tar_xz],
      result := .ok (.returned { status := 400, mime := "text/plain".toList,
                                 body := "Malformed .tar.xz file\n".toList }) }
  | .ok entry :: rest, entry_found, eff =>
    if entry.pathname = tar_xz_inner_path then
      let o := save_game L w fuel entry eff
      match o.result with
      | .error f => { effects := o.effects, result := .error f }
      | .ok (some response) => { effects := o.effects, result := .ok (.returned response) }
      | .ok none => scan_tar_xz L w fuel icons_dir rest true o.effects
    else if tar_xz_icons_path.isPrefixOf entry.pathname then
      let o := save_icon w fuel icons_dir entry eff
      match o.result with
      | .error f => { effects := o.effects, result := .error f }
      | .ok _ => scan_tar_xz L w fuel icons_dir rest entry_found o.effects
    else scan_tar_xz L w fuel icons_dir rest entry_found eff

/-- Lines 252-292 of `LaunchRs3Deb`: `argv`, `fork`, the child's block, the hash file and the
200 response. -/
def launch_rs3 (L : Launcher) (w : World) (fuel : Nat) (q : Rs3Query) (eff : List Effect) :
    Outcome Response :=
  let argv : List (Option Str) :=
    [some L.rs3_path,
     if q.has_config_uri then some "--configURI".toList else none,
     if q.has_config_uri then some q.config_uri else none,
     none]
  let env : List (Str × Str × Bool) :=
    [("HOME".toList, L.data_dir, true),
     ("PULSE_PROP_OVERRIDE".toList, env_pulse_prop_override, false),
     ("SDL_VIDEO_X11_WMCLASS".toList, env_wmclass, false)] ++
    (if q.has_jx_session_id then [("JX_SESSION_ID".toList, q.jx_session_id, true)] else []) ++
    (if q.has_jx_character_id then [("JX_CHARACTER_ID".toList, q.jx_character_id, true)]
      else []) ++
    (if q.has_jx_display_name then [("JX_DISPLAY_NAME".toList, q.jx_display_name, true)]
      else [])
  save_marker w fuel q.has_hash L.rs3_hash_path q.hash "OK, but unable to save hash file\n"
    (spawn w L.data_dir env argv eff)

/-- Lines 118-249 of `LaunchRs3Deb`: the extraction out of the single payload element `deb`.
`none` means that the block ran through and the launch goes on. -/
def extract_deb (L : Launcher) (w : World) (fuel : Nat) (deb : Str) :
    Outcome (Option Response) :=
  let icons_dir := path_append (parent_path L.data_dir) "icons".toList
  let eff : List Effect := [.alloc .deb, .alloc .ar]
  match scan_deb (w.ar_open deb) with
  | .malformed =>
    { effects := eff ++ [.free .ar, .free .deb],
      result := .ok (some { status := 400, mime := "text/plain".toList,
                            body := "Malformed .deb file\n".toList }) }
  | .missing =>
    { effects := eff ++ [.free .ar, .free .deb],
      result := .ok (some { status := 400, mime := "text/plain".toList,
                            body := "No data in .deb file\n".toList }) }
  | .found entry =>
    if entry.size < 0 then { effects := eff, result := .error .bad_array_new_length }
    else
      let rd := read_loop .ar (some entry.read_data) entry.size fuel 0 0
        (List.replicate entry.size.toNat '\x00') (eff ++ [.alloc .tar_xz])
      match rd.result with
      | .error f => { effects := rd.effects, result := .error f }
      | .ok tar_xz =>
        let sc := scan_tar_xz L w fuel icons_dir (w.tar_xz_open tar_xz) false
          (rd.effects ++ [.free .ar, .free .deb, .alloc .xz])
        match sc.result with
        | .error f => { effects := sc.effects, result := .error f }
        | .ok (.returned response) => { effects := sc.effects, result := .ok (some response) }
        | .ok (.finished entry_found) =>
          if entry_found then
            { effects := sc.effects ++ [.free .xz, .free .tar_xz], result := .ok none }
          else
            { effects := sc.effects ++ [.free .xz, .free .tar_xz],
              result := .ok (some { status := 400, mime := "text/plain".toList,
                                    body := "No target executable in .tar.xz file\n".toList }) }

/-- The function `Browser::Launcher::LaunchRs3Deb(request, query)`. `fuel` bounds each of the
read and write loops. -/
def LaunchRs3Deb (L : Launcher) (w : World) (fuel : Nat) (request : Request) (query : Str) :
    Outcome Response :=
  match ParseQuery query (Rs3Query.visit w.decode) {} with
  | none => { effects := [], result := .error .out_of_fuel }
  | some q =>
    if q.has_hash then
      match request.post_data with
      | some [deb] =>
        let ex := extract_deb L w fuel deb
        match ex.result with
        | .error f => { effects := ex.effects, result := .error f }
        | .ok (some response) => { effects := ex.effects, result := .ok response }
        | .ok none => launch_rs3 L w fuel q ex.effects
      | _ => respond [] 400 "Bad Request"
    else launch_rs3 L w fuel q []

/-! ## `LaunchRuneliteJar` (window_launcher_posix.cxx, lines 295-410) -/

/-- The locals that `ParseQuery`'s visitor fills in `LaunchRuneliteJar`. -/
structure RuneliteQuery where
  rl_path : Str := []
  has_rl_path : Bool := false
  id : Str := []
  has_id : Bool := false
  jx_session_id : Str := []
  has_jx_session_id : Bool := false
  jx_character_id : Str := []
  has_jx_character_id : Bool := false
  jx_display_name : Str := []
  has_jx_display_name : Bool := false
  deriving DecidableEq, Repr

/-- The visitor of `LaunchRuneliteJar`: the five `PQCHECK` lines. -/
def RuneliteQuery.visit (decode : Str → Str) (key val : Str) (q : RuneliteQuery) :
    RuneliteQuery :=
  if key = "rl_path".toList then { q with has_rl_path := true, rl_path := decode val }
  else if key = "id".toList then { q with has_id := true, id := decode val }
  else if key = "jx_session_id".toList then
    { q with has_jx_session_id := true, jx_session_id := decode val }
  else if key = "jx_character_id".toList then
    { q with has_jx_character_id := true, jx_character_id := decode val }
  else if key = "jx_display_name".toList then
    { q with has_jx_display_name := true, jx_display_name := decode val }
  else q

/-- The block that saves a posted jar (lines 337-355 and 485-503): the payload is copied,
the file opened with mode 0755 and written. `none` means that the launch goes on. -/
def save_jar (w : World) (fuel : Nat) (jar_path jar : Str) (eff : List Effect) :
    Outcome (Option Response) :=
  if w.open_ok jar_path then
    let wr := write_loop_size_t w jar_path jar jar.length fuel 0 0
      (eff ++ [.alloc .jar, .open_file jar_path 0o755 true])
    match wr.result with
    | .error f => { effects := wr.effects, result := .error f }
    | .ok _ => { effects := wr.effects ++ [.close jar_path, .free .jar], result := .ok none }
  else
    { effects := eff ++ [.alloc .jar, .open_file jar_path 0o755 false, .free .jar],
      result := .ok (some
        { status := 500, mime := "text/plain".toList,
          body := ("Failed to save JAR; if the game is already running, " ++
            "close it and try again\n").toList }) }

/-- The body of the 500 response when `FindJava` fails. -/
def no_java_message : String :=
  "Couldn't find Java: JAVA_HOME is either unset or does not point to a Java binary, " ++
  "and no binary named \"java\" exists in PATH.\n"

/-- Lines 359-409 of `LaunchRuneliteJar`: `FindJava`, `argv`, `fork`, the child's block, the
id file and the 200 response. -/
def launch_runelite (L : Launcher) (w : World) (fuel : Nat) (configure : Bool)
    (q : RuneliteQuery) (jar_path : Str) (eff : List Effect) : Outcome Response :=
  match FindJava w.fs_exists w.java_home w.PATH with
  | .error f => { effects := eff, result := .error f }
  | .ok found =>
    if found.ret = false then respond eff 500 no_java_message
    else
      let java := found.out.getD []
      let arg_home := "-Duser.home=".toList ++ L.data_dir
      let arg_jvm_argument_home := "-J".toList ++ arg_home
      let argv : List (Option Str) :=
        [some java, some arg_home, some "-jar".toList, some jar_path,
         some arg_jvm_argument_home,
         if configure then some "--configure".toList else none,
         none]
      let env : List (Str × Str × Bool) :=
        [("HOME".toList, L.data_dir, true)] ++
        (if q.has_jx_session_id then [("JX_SESSION_ID".toList, q.jx_session_id, true)]
          else []) ++
        (if q.has_jx_character_id then [("JX_CHARACTER_ID".toList, q.jx_character_id, true)]
          else []) ++
        (if q.has_jx_display_name then [("JX_DISPLAY_NAME".toList, q.jx_display_name, true)]
          else [])
      save_marker w fuel q.has_id L.runelite_id_path q.id "OK, but unable to save id file\n"
        (spawn w L.data_dir env argv eff)

/-- The function `Browser::Launcher::LaunchRuneliteJar(request, query, configure)`. -/
def LaunchRuneliteJar (L : Launcher) (w : World) (fuel : Nat) (request : Request)
    (query : Str) (configure : Bool) : Outcome Response :=
  match ParseQuery query (RuneliteQuery.visit w.decode) {} with
  | none => { effects := [], result := .error .out_of_fuel }
  | some q =>
    if q.has_rl_path then launch_runelite L w fuel configure q q.rl_path []
    else if q.has_id then
      match request.post_data with
      | some [jar] =>
        let sv := save_jar w fuel L.runelite_path jar []
        match sv.result with
        | .error f => { effects := sv.effects, result := .error f }
        | .ok (some response) => { effects := sv.effects, result := .ok response }
        | .ok none => launch_runelite L w fuel configure q L.runelite_path sv.effects
      | _ => respond [] 400 "Bad Request"
    else launch_runelite L w fuel configure q L.runelite_path []

/-! ## `LaunchHdosJar` (window_launcher_posix.cxx, lines 412-551) -/

/-- The locals that `ParseQuery`'s visitor fills in `LaunchHdosJar`. -/
structure HdosQuery where
  version : Str := []
  has_version : Bool := false
  jx_session_id : Str := []
  has_jx_session_id : Bool := false
  jx_character_id : Str := []
  has_jx_character_id : Bool := false
  jx_display_name : Str := []
  has_jx_display_name : Bool := false
  deriving DecidableEq, Repr

/-- The visitor of `LaunchHdosJar`: the four `PQCHECK` lines. -/
def HdosQuery.visit (decode : Str → Str) (key val : Str) (q : HdosQuery) : HdosQuery :=
  if key = "version".toList then { q with has_version := true, version := decode val }
  else if key = "jx_session_id".toList then
    { q with has_jx_session_id := true, jx_session_id := decode val }
  else if key = "jx_character_id".toList then
    { q with has_jx_character_id := true, jx_character_id := decode val }
  else if key = "jx_display_name".toList then
    { q with has_jx_display_name := true, jx_display_name := decode val }
  else q

/-- The calls of the rebuilding of `data_dir/java-proxy` (lines 435-454), when each of them
returns: the directory is removed and made again with its `bin`, and the three symbolic links
are made. `cwd` is what `current_path()` gave. -/
def java_proxy_effects (L : Launcher) (cwd java_home : Str) : List Effect :=
  let java_proxy_bin_path := path_append cwd "java-proxy".toList
  let java_proxy_data_dir_path := path_append L.data_dir "java-proxy".toList
  let java_proxy_lib_path := path_append java_proxy_data_dir_path "lib".toList
  let java_proxy_conf_path := path_append java_proxy_data_dir_path "conf".toList
  let java_proxy_bin_dir := path_append java_proxy_data_dir_path "bin".toList
  let java_proxy_java_path := path_append java_proxy_bin_dir "java".toList
  [.remove_all java_proxy_data_dir_path,
   .create_directory java_proxy_data_dir_path,
   .create_directory java_proxy_bin_dir,
   .symlink (java_home ++ "/lib".toList) java_proxy_lib_path,
   .symlink (java_home ++ "/conf".toList) java_proxy_conf_path,
   .symlink java_proxy_bin_path java_proxy_java_path]

/-- The value of `err` after the three `err |= symlink(...)` lines is non-zero. -/
def symlink_err (L : Launcher) (w : World) (cwd java_home : Str) : Bool :=
  let java_proxy_bin_path := path_append cwd "java-proxy".toList
  let java_proxy_data_dir_path := path_append L.data_dir "java-proxy".toList
  let java_proxy_java_path :=
    path_append (path_append java_proxy_data_dir_path "bin".toList) "java".toList
  w.symlink_ret (java_home ++ "/lib".toList)
      (path_append java_proxy_data_dir_path "lib".toList) ≠ 0 ∨
  w.symlink_ret (java_home ++ "/conf".toList)
      (path_append java_proxy_data_dir_path "conf".toList) ≠ 0 ∨
  w.symlink_ret java_proxy_bin_path java_proxy_java_path ≠ 0

/-- Lines 435-454 of `LaunchHdosJar`; the value is whether `err` is non-zero at line 455.
`current_path`, `remove_all` and the two `create_directory` calls are the throwing overloads
and nothing catches: when one of them throws, the function is left with the calls made so
far (the failing one included). -/
def java_proxy (L : Launcher) (w : World) (java_home : Str) : Outcome Bool :=
  match w.current_path with
  | none => { effects := [], result := .error .filesystem_error }
  | some cwd =>
    let java_proxy_data_dir_path := path_append L.data_dir "java-proxy".toList
    let java_proxy_bin_dir := path_append java_proxy_data_dir_path "bin".toList
    if w.remove_all_ok java_proxy_data_dir_path = false then
      { effects := (java_proxy_effects L cwd java_home).take 1,
        result := .error .filesystem_error }
    else if w.create_directory_ok java_proxy_data_dir_path = false then
      { effects := (java_proxy_effects L cwd java_home).take 2,
        result := .error .filesystem_error }
    else if w.create_directory_ok java_proxy_bin_dir = false then
      { effects := (java_proxy_effects L cwd java_home).take 3,
        result := .error .filesystem_error }
    else
      { effects := java_proxy_effects L cwd java_home,
        result := .ok (symlink_err L w cwd java_home) }

/-- Lines 506-550 of `LaunchHdosJar`: `argv`, `fork`, the child's block, the version file and
the 200 response. -/
def launch_hdos (L : Launcher) (w : World) (fuel : Nat) (q : HdosQuery) (java : Str)
    (eff : List Effect) : Outcome Response :=
  let arg_user_home := "-Duser.home=".toList ++ L.data_dir
  let arg_app_user_home := "-Dapp.user.home=".toList ++ L.data_dir
  let arg_java_home := "-Djava.home=".toList ++ path_append L.data_dir "java-proxy".toList
  let argv : List (Option Str) :=
    [some java, some arg_user_home, some arg_app_user_home, some arg_java_home,
     some "-jar".toList, some L.hdos_path, none]
  let env : List (Str × Str × Bool) :=
    [("HOME".toList, L.data_dir, true), ("BOLT_JAVA_PATH".toList, java, true)] ++
    (if q.has_jx_session_id then [("JX_SESSION_ID".toList, q.jx_session_id, true)]
      else []) ++
    (if q.has_jx_character_id then [("JX_CHARACTER_ID".toList, q.jx_character_id, true)]
      else []) ++
    (if q.has_jx_display_name then [("JX_DISPLAY_NAME".toList, q.jx_display_name, true)]
      else [])
  save_marker w fuel q.has_version L.hdos_version_path q.version
    "OK, but unable to save version file\n" (spawn w L.data_dir env argv eff)

/-- The function `Browser::Launcher::LaunchHdosJar(request, query)`. -/
def LaunchHdosJar (L : Launcher) (w : World) (fuel : Nat) (request : Request) (query : Str) :
    Outcome Response :=
  match w.java_home with
  | none => respond [] 400 "JAVA_HOME environment variable is required to run HDOS\n"
  | some java_home =>
    match FindJava w.fs_exists (some java_home) w.PATH with
    | .error f => { effects := [], result := .error f }
    | .ok found =>
      if found.ret = false then respond [] 500 no_java_message
      else
        let px := java_proxy L w java_home
        match px.result with
        | .error f => { effects := px.effects, result := .error f }
        | .ok err =>
          let eff := px.effects
          if err then respond eff 500 "Unable to create symlinks\n"
          else
            match ParseQuery query (HdosQuery.visit w.decode) {} with
            | none => { effects := eff, result := .error .out_of_fuel }
            | some q =>
              if q.has_version then
                match request.post_data with
                | some [jar] =>
                  let sv := save_jar w fuel L.hdos_path jar eff
                  match sv.result with
                  | .error f => { effects := sv.effects, result := .error f }
                  | .ok (some response) => { effects := sv.effects, result := .ok response }
                  | .ok none => launch_hdos L w fuel q (found.out.getD []) sv.effects
                | _ => respond eff 400 "Bad Request"
              else launch_hdos L w fuel q (found.out.getD []) eff

/-! ## Vocabulary of the statements about the orchestrators -/

/-- The query has the parameter `name`: `ParseQuery` calls its visitor with that key. -/
def HasParam (query name : Str) : Prop :=
  match visits query with
  | some calls => name ∈ calls.map Prod.fst
  | none => False

instance (query name : Str) : Decidable (HasParam query name) := by
  unfold HasParam; split <;> infer_instance

/-- The post data is absent or its element count is not 1. -/
def Request.PayloadMissing (request : Request) : Prop :=
  match request.post_data with
  | none => True
  | some elements => elements.length ≠ 1

instance (request : Request) : Decidable request.PayloadMissing := by
  unfold Request.PayloadMissing; split <;> infer_instance

/-- A launcher configuration for the examples. -/
def sampleLauncher : Launcher :=
  { data_dir := "/home/u/.local/share/bolt".toList,
    rs3_path := "/home/u/.local/share/bolt/rs3linux".toList,
    rs3_hash_path := "/home/u/.local/share/bolt/rs3linux.sha256".toList,
    runelite_path := "/home/u/.local/share/bolt/runelite.jar".toList,
    runelite_id_path := "/home/u/.local/share/bolt/runelite_id.bin".toList,
    hdos_path := "/home/u/.local/share/bolt/hdos.jar".toList,
    hdos_version_path := "/home/u/.local/share/bolt/hdos_version.bin".toList }

/-- A world for the examples: `JAVA_HOME=/jdk` with `/jdk/bin/java` present, no file system
call throwing, every `open`, `write`, `symlink`, `fork`, `chdir` and `execv` succeeding, values
left undecoded, and the posted
`.deb` holding `data.tar.xz` (3 bytes, read in one call) whose only entry is the game binary
of 2 bytes. -/
def sampleWorld : World :=
  { decode := fun v => v,
    ar_open := fun _ =>
      [.ok { pathname := "debian-binary".toList, size := 4,
             read_data := fun _ n => { ret := min 4 n, bytes := "2.0\n".toList.take n } },
       .ok { pathname := "data.tar.xz".toList, size := 3,
             read_data := fun _ n => { ret := min 3 n, bytes := "xz!".toList.take n } }],
    tar_xz_open := fun _ =>
      [.ok { pathname := tar_xz_inner_path, size := 2,
             read_data := fun _ n => { ret := min 2 n, bytes := "go".toList.take n } }],
    java_home := some "/jdk".toList,
    PATH := some "/usr/bin".toList,
    fs_exists := fun p => some (p == "/jdk/bin/java".toList),
    current_path := some "/opt/bolt".toList,
    remove_all_ok := fun _ => true,
    create_directory_ok := fun _ => true,
    open_ok := fun _ => true,
    write_ret := fun _ _ n => n,
    symlink_ret := fun _ _ => 0,
    fork_ok := true,
    chdir_ok := true,
    execv_ok := true }

/-- The effect is a `fork`. -/
def Effect.isFork : Effect → Bool
  | .fork _ => true
  | _ => false

/-- The effect changes the file system: a file is opened for writing or written, a directory
or a symbolic link is made, a tree is removed. -/
def Effect.touchesFiles : Effect → Bool
  | .open_file _ _ _ => true
  | .write _ _ => true
  | .mkdir _ _ => true
  | .remove_all _ => true
  | .create_directory _ => true
  | .symlink _ _ => true
  | _ => false

/-- The world of the examples with a posted `.deb` that only holds `debian-binary`. -/
def sampleWorldNoData : World :=
  { sampleWorld with
    ar_open := fun _ =>
      [.ok { pathname := "debian-binary".toList, size := 4,
             read_data := fun _ n => { ret := min 4 n, bytes := "2.0\n".toList.take n } }] }

/-- The value of a hexadecimal digit: its place among `0123456789abcdef`, letters of either
case. -/
def hexDigit (c : Char) : Option Nat :=
  let place := "0123456789abcdef".toList.indexOf c.toLower
  if place < 16 then some place else none

/-- A decoder for the examples, standing in for CEF's `CefURIDecode`: `%XX` gives the byte
`XX` and `+` a space. The orchestrators take the decoder from the `World`. -/
def sample_decode : Str → Str
  | [] => []
  | '%' :: a :: b :: rest =>
    match hexDigit a, hexDigit b with
    | some x, some y => Char.ofNat (16 * x + y) :: sample_decode rest
    | _, _ => '%' :: a :: b :: sample_decode rest
  | c :: rest => (if c = '+' then ' ' else c) :: sample_decode rest

/-! ## Allocations, and worlds for the failing runs -/

/-- The objects that are allocated and not yet released after a list of effects, starting
from `live`. -/
def live_after (live : List Obj) : List Effect → List Obj
  | [] => live
  | .alloc o :: rest => live_after (live ++ [o]) rest
  | .free o :: rest => live_after (live.erase o) rest
  | _ :: rest => live_after live rest

/-- The world of the examples with a truncated `.deb`: `data.tar.xz` declares 3 bytes and
every `archive_read_data` on it returns 0. -/
def sampleWorldTruncated : World :=
  { sampleWorld with
    ar_open := fun _ =>
      [.ok { pathname := "data.tar.xz".toList, size := 3,
             read_data := fun _ _ => { ret := 0, bytes := [] } }] }

/-- The world of the examples with an unreadable `.deb`: `data.tar.xz` declares 3 bytes and
every `archive_read_data` on it returns the error code -30 (`ARCHIVE_FATAL`). -/
def sampleWorldUnreadable : World :=
  { sampleWorld with
    ar_open := fun _ =>
      [.ok { pathname := "data.tar.xz".toList, size := 3,
             read_data := fun _ _ => { ret := -30, bytes := [] } }] }

/-- The world of the examples with an inner archive of three icon entries and no game binary:
a directory whose remainder is absolute, an empty file whose remainder is absolute, and a
directory whose remainder climbs with `..`. -/
def sampleWorldIcons : World :=
  { sampleWorld with
    tar_xz_open := fun _ =>
      [.ok { pathname := "./usr/share/icons//tmp/evil/".toList, size := 0,
             read_data := fun _ _ => { ret := 0, bytes := [] } },
       .ok { pathname := "./usr/share/icons//tmp/evil/a.png".toList, size := 0,
             read_data := fun _ _ => { ret := 0, bytes := [] } },
       .ok { pathname := "./usr/share/icons/../../x/".toList, size := 0,
             read_data := fun _ _ => { ret := 0, bytes := [] } }] }

/-- The world of the examples with an inner archive holding one empty icon file and an empty
game binary, where `open` fails on every path in `busy`. -/
def sampleWorldBusy (busy : List Str) : World :=
  { sampleWorld with
    tar_xz_open := fun _ =>
      [.ok { pathname := "./usr/share/icons/hicolor/a.png".toList, size := 0,
             read_data := fun _ _ => { ret := 0, bytes := [] } },
       .ok { pathname := tar_xz_inner_path, size := 0,
             read_data := fun _ _ => { ret := 0, bytes := [] } }],
    open_ok := fun p => !(busy.contains p) }

/-! ## Vocabulary of the statements about the spawn and the marker files -/

/-- The value of the last pair with key `name` among the visitor's calls. -/
def last_value (name : Str) : List (Str × Str) → Option Str
  | [] => none
  | kv :: rest =>
    match last_value name rest with
    | some v => some v
    | none => if kv.1 = name then some kv.2 else none

/-- The decoded value of the parameter `name` of the query: `none` when `ParseQuery` never
calls its visitor with that key, otherwise the decoded value of the last call with it. -/
def paramValue (decode : Str → Str) (query name : Str) : Option Str :=
  match visits query with
  | some calls => (last_value name calls).map decode
  | none => none

/-- The effect is an `open` of the file at `path`, whatever the mode and the outcome. -/
def Effect.opens (path : Str) : Effect → Bool
  | .open_file p _ _ => p == path
  | _ => false

/-- The effect is an `open` of some file. -/
def Effect.isOpen : Effect → Bool
  | .open_file _ _ _ => true
  | _ => false

/-- The effect is neither a `fork` nor an `open` of the file at `marker`. -/
def Effect.beforeSpawn (marker : Str) (e : Effect) : Bool := !e.isFork && !e.opens marker

/-- The `setenv` calls of the child for the variable `name`: value and overwrite flag, in
order. -/
def setenv_of (name : Str) (actions : List ChildAction) : List (Str × Bool) :=
  actions.filterMap fun a =>
    match a with
    | .setenv n v o => if n = name then some (v, o) else none
    | _ => none

/-- The `execv` calls of the child: program and argument strings. -/
def execv_of (actions : List ChildAction) : List (Str × List Str) :=
  actions.filterMap fun a =>
    match a with
    | .execv path argv => some (path, argv)
    | _ => none

/-- The child's actions before its first `execv`. -/
def before_execv : List ChildAction → List ChildAction
  | [] => []
  | .execv _ _ :: _ => []
  | a :: rest => a :: before_execv rest

/-- Before its `execv` the child sets the variable `var` if and only if the query has the
parameter `param`, and then once, to the decoded value of the last occurrence of `param`,
replacing an inherited value. -/
def SetFromParam (w : World) (query : Str) (c : List ChildAction) (var param : Str) : Prop :=
  (setenv_of var (before_execv c) ≠ [] ↔ HasParam query param) ∧
  setenv_of var (before_execv c) =
    (paramValue w.decode query param).toList.map fun v => (v, true)

/-- The environment overlay of a child: `HOME` is set to `data_dir`, replacing an inherited
value, and each of the three `JX_` variables follows its query parameter. -/
def EnvOverlay (L : Launcher) (w : World) (query : Str) (c : List ChildAction) : Prop :=
  setenv_of "HOME".toList (before_execv c) = [(L.data_dir, true)] ∧
  SetFromParam w query c "JX_SESSION_ID".toList "jx_session_id".toList ∧
  SetFromParam w query c "JX_CHARACTER_ID".toList "jx_character_id".toList ∧
  SetFromParam w query c "JX_DISPLAY_NAME".toList "jx_display_name".toList

/-- What the statement on the child's environment says of one run: every child the run
forks either has the overlay when it reaches its `execv`, or makes no `execv` and ends with
`exit(1)` (its `chdir` failed); and a run that answers 200 has forked: when `fork` gives a
child, the child is in the effects, and it reaches its `execv` when its `chdir` succeeds. -/
def ChildRule (L : Launcher) (w : World) (query : Str) (run : Outcome Response) : Prop :=
  (∀ c, Effect.fork (some c) ∈ run.effects →
    (execv_of c ≠ [] → EnvOverlay L w query c) ∧
    (execv_of c = [] → c.getLast? = some (.exit 1))) ∧
  (∀ r, run.result = .ok r → r.status = 200 → w.fork_ok = true →
    ∃ c, Effect.fork (some c) ∈ run.effects ∧ (w.chdir_ok = true → execv_of c ≠ []))

/-- The world of the examples with the decoder `sample_decode`. -/
def sampleWorldDecoding : World := { sampleWorld with decode := sample_decode }

/-- The child of `LaunchRs3Deb` in the example of the environment overlay. -/
def sampleChildRs3 : List ChildAction :=
  [.setpgrp, .chdir sampleLauncher.data_dir, .close_stdin,
   .setenv "HOME".toList sampleLauncher.data_dir true,
   .setenv "PULSE_PROP_OVERRIDE".toList env_pulse_prop_override false,
   .setenv "SDL_VIDEO_X11_WMCLASS".toList env_wmclass false,
   .setenv "JX_SESSION_ID".toList "t u".toList true,
   .setenv "JX_DISPLAY_NAME".toList "a b".toList true,
   .execv sampleLauncher.rs3_path [sampleLauncher.rs3_path]]

/-- The child of `LaunchRs3Deb` in the example of the argument vector. -/
def sampleChildConfigURI : List ChildAction :=
  [.setpgrp, .chdir sampleLauncher.data_dir, .close_stdin,
   .setenv "HOME".toList sampleLauncher.data_dir true,
   .setenv "PULSE_PROP_OVERRIDE".toList env_pulse_prop_override false,
   .setenv "SDL_VIDEO_X11_WMCLASS".toList env_wmclass false,
   .execv sampleLauncher.rs3_path
     [sampleLauncher.rs3_path, "--configURI".toList, "http://x".toList]]

/-- The effect is one of the calls of the rebuilding of `data_dir/java-proxy`: `remove_all`,
`create_directory` or `symlink`. -/
def Effect.isRebuild : Effect → Bool
  | .remove_all _ => true
  | .create_directory _ => true
  | .symlink _ _ => true
  | _ => false

/-- The predicate `p` accepts every effect that is neither a `fork` nor an `open`. -/
def AcceptsOthers (p : Effect → Bool) : Prop :=
  ∀ e, e.isFork = false → e.isOpen = false → p e = true

/-- The run ends before the spawn: `p` accepts every effect of it, and a status it returns is
400 or 500. -/
def Outcome.EndsEarly (p : Effect → Bool) (run : Outcome Response) : Prop :=
  run.effects.all p = true ∧ ∀ r, run.result = .ok r → r.status = 400 ∨ r.status = 500

theorem find_none_at (q pre rest : Str) (c : Char) (pos : Nat)
    (hq : q = pre ++ rest) (hpos : pos = pre.length) (h : c ∉ rest) : find q c pos = none := by
  subst hq hpos
  simp [find, h]

theorem find_some_at (q pre a b : Str) (c : Char) (pos : Nat)
    (hq : q = pre ++ (a ++ c :: b)) (hpos : pos = pre.length) (h : c ∉ a) :
    find q c pos = some (pre.length + a.length) := by
  subst hq hpos
  simp [find, List.indexOf_append_of_not_mem h]

theorem substr_at (q pre m post : Str) (a b : Nat)
    (hq : q = pre ++ (m ++ post)) (ha : a = pre.length) (hb : b = pre.length + m.length) :
    substr q a b = m := by
  subst hq ha hb
  simp [substr]

theorem intercalate_single (sep x : Str) : List.intercalate sep [x] = x := by
  simp [List.intercalate]

theorem intercalate_cons_cons (sep x y : Str) (ys : List Str) :
    List.intercalate sep (x :: y :: ys) = x ++ sep ++ List.intercalate sep (y :: ys) := by
  simp [List.intercalate]

theorem queryOfSegments_nil : queryOfSegments [] = [] := rfl

theorem queryOfSegments_single (s : Segment) : queryOfSegments [s] = s.text := by
  simp [queryOfSegments, intercalate_single]

theorem queryOfSegments_cons_cons (s s2 : Segment) (rest : List Segment) :
    queryOfSegments (s :: s2 :: rest) = s.text ++ '&' :: queryOfSegments (s2 :: rest) := by
  simp [queryOfSegments, intercalate_cons_cons]

theorem length_queryOfSegments (segs : List Segment) :
    segs.length ≤ (queryOfSegments segs).length + 1 := by
  induction segs with
  | nil => simp
  | cons s rest ih =>
    cases rest with
    | nil => simp
    | cons s2 rest2 =>
      rw [queryOfSegments_cons_cons]
      simp only [List.length_append, List.length_cons] at ih ⊢
      omega

theorem pairsOf_nil_of_no_eq (segs : List Segment) (h : '=' ∉ queryOfSegments segs) :
    pairsOf segs = [] := by
  induction segs with
  | nil => rfl
  | cons s rest ih =>
    cases rest with
    | nil =>
      cases s with
      | pair k v => simp [queryOfSegments_single, Segment.text, pairText] at h
      | junk t => rfl
    | cons s2 rest2 =>
      rw [queryOfSegments_cons_cons] at h
      cases s with
      | pair k v => simp [Segment.text, pairText] at h
      | junk t =>
        simp only [pairsOf]
        apply ih
        simp only [List.mem_append, List.mem_cons, not_or] at h
        exact h.2.2

theorem ParseQueryLoop_succ {σ : Type} (query : Str) (callback : Str → Str → σ → σ)
    (fuel pos : Nat) (st : σ) :
    ParseQueryLoop query callback (fuel + 1) pos st =
      match find query '=' pos with
      | none => some st
      | some eq =>
        match find query '&' pos with
        | some amp =>
          if eq > amp then ParseQueryLoop query callback fuel (amp + 1) st
          else
            ParseQueryLoop query callback fuel (amp + 1)
              (callback (substr query pos eq) (substr query (eq + 1) amp) st)
        | none => some (callback (substr query pos eq) (substr query (eq + 1) query.length) st) :=
  rfl

theorem ParseQueryLoop_segments {σ : Type} (callback : Str → Str → σ → σ) (segs : List Segment) :
    (∀ s ∈ segs, s.WellFormed) → ∀ (q pre : Str) (pos fuel : Nat) (st : σ),
      q = pre ++ queryOfSegments segs → pos = pre.length →
      1 ≤ fuel → segs.length ≤ fuel →
      ParseQueryLoop q callback fuel pos st = some (applyCalls callback st (pairsOf segs)) := by
  induction segs with
  | nil =>
    intro _ q pre pos fuel st hq hpos h1 _
    obtain ⟨f, rfl⟩ : ∃ f, fuel = f + 1 := ⟨fuel - 1, by omega⟩
    rw [ParseQueryLoop_succ, find_none_at q pre [] '=' pos (by simpa [queryOfSegments_nil] using hq) hpos (by simp)]
    rfl
  | cons s rest ih =>
    intro hwf q pre pos fuel st hq hpos h1 hlen
    obtain ⟨f, rfl⟩ : ∃ f, fuel = f + 1 := ⟨fuel - 1, by omega⟩
    have hs : s.WellFormed := hwf s (by simp)
    have hrest : ∀ s ∈ rest, s.WellFormed := fun x hx => hwf x (by simp [hx])
    rw [ParseQueryLoop_succ]
    cases rest with
    | nil =>
      rw [queryOfSegments_single] at hq
      cases s with
      | pair k v =>
        obtain ⟨_, hka, hke, hva⟩ := hs
        simp only at hka hke hva
        simp only [Segment.text, pairText] at hq
        rw [find_some_at q pre k v '=' pos hq hpos hke,
          find_none_at q pre (k ++ '=' :: v) '&' pos hq hpos (by simp [hka, hva])]
        simp only []
        rw [substr_at q pre k ('=' :: v) _ _ hq hpos rfl,
          substr_at q (pre ++ k ++ ['=']) v [] _ _ (by simp [hq]) (by simp; omega)
            (by simp [hq]; omega)]
        rfl
      | junk t =>
        rw [find_none_at q pre t '=' pos hq hpos hs.1]
        rfl
    | cons s2 rest2 =>
      rw [queryOfSegments_cons_cons] at hq
      cases s with
      | pair k v =>
        obtain ⟨_, hka, hke, hva⟩ := hs
        simp only at hka hke hva
        simp only [Segment.text, pairText] at hq
        rw [find_some_at q pre k (v ++ '&' :: queryOfSegments (s2 :: rest2)) '=' pos
            (by simp [hq]) hpos hke,
          find_some_at q pre (k ++ '=' :: v) (queryOfSegments (s2 :: rest2)) '&' pos
            (by simp [hq]) hpos (by simp [hka, hva])]
        simp only []
        rw [if_neg (by simp),
          substr_at q pre k ('=' :: v ++ '&' :: queryOfSegments (s2 :: rest2)) _ _
            (by simp [hq]) hpos rfl,
          substr_at q (pre ++ k ++ ['=']) v ('&' :: queryOfSegments (s2 :: rest2)) _ _
            (by simp [hq]) (by simp; omega) (by simp; omega)]
        rw [ih hrest q (pre ++ (k ++ '=' :: v) ++ ['&']) _ f (callback k v st) (by simp [hq])
          (by simp; omega) (by simp at hlen; omega) (by simp at hlen ⊢; omega)]
        rfl
      | junk t =>
        obtain ⟨hte, hta⟩ := hs
        simp only [Segment.text] at hq
        have hamp := find_some_at q pre t (queryOfSegments (s2 :: rest2)) '&' pos hq hpos hta
        have hnext := ih hrest q (pre ++ t ++ ['&']) (pre.length + t.length + 1) f st
          (by simp [hq]) (by simp; omega) (by simp at hlen; omega) (by simp at hlen ⊢; omega)
        by_cases hmem : '=' ∈ queryOfSegments (s2 :: rest2)
        · have heq : find q '=' pos = some (pos + (t.length + 1 +
              (queryOfSegments (s2 :: rest2)).indexOf '=')) := by
            subst hq hpos
            have h1 : '=' ∉ t ++ ['&'] := by simp [hte]
            have : List.indexOf '=' ((t ++ ['&']) ++ queryOfSegments (s2 :: rest2)) =
                (t ++ ['&']).length + List.indexOf '=' (queryOfSegments (s2 :: rest2)) :=
              List.indexOf_append_of_not_mem h1
            simp only [List.append_assoc, List.singleton_append, List.length_append,
              List.length_cons, List.length_nil] at this
            simp [find, hmem, this]
          rw [heq, hamp]
          simp only []
          rw [if_pos (by omega), hnext]
          rfl
        · rw [find_none_at q pre (t ++ '&' :: queryOfSegments (s2 :: rest2)) '=' pos hq hpos
            (by simp [hte, hmem])]
          simp only [pairsOf]
          rw [pairsOf_nil_of_no_eq _ hmem]
          rfl

theorem find_bounds (s : Str) (c : Char) (pos i : Nat) (h : find s c pos = some i) :
    pos ≤ i ∧ i < s.length := by
  unfold find at h
  split at h
  · rename_i hmem
    simp only [Option.some.injEq] at h
    have := List.indexOf_lt_length.mpr hmem
    simp only [List.length_drop] at this
    omega
  · simp at h

theorem ParseQueryLoop_total {σ : Type} (query : Str) (callback : Str → Str → σ → σ) :
    ∀ (fuel pos : Nat) (st : σ), pos ≤ query.length → query.length + 1 ≤ fuel + pos →
      ∃ r, ParseQueryLoop query callback fuel pos st = some r := by
  intro fuel
  induction fuel with
  | zero =>
    intro pos st hp h
    omega
  | succ f ih =>
    intro pos st hp h
    rw [ParseQueryLoop_succ]
    cases heq : find query '=' pos with
    | none => exact ⟨_, rfl⟩
    | some eq =>
      cases hamp : find query '&' pos with
      | none => exact ⟨_, rfl⟩
      | some amp =>
        have hb := find_bounds _ _ _ _ hamp
        simp only []
        split
        · exact ih _ _ (by omega) (by omega)
        · exact ih _ _ (by omega) (by omega)


theorem ParseQuery_total {σ : Type} (query : Str) (callback : Str → Str → σ → σ) (st : σ) :
    ∃ r, ParseQuery query callback st = some r :=
  ParseQueryLoop_total query callback _ 0 st (by omega) (by omega)

theorem ParseQuery_segments {σ : Type} (callback : Str → Str → σ → σ) (segs : List Segment)
    (hwf : ∀ s ∈ segs, s.WellFormed) (st : σ) :
    ParseQuery (queryOfSegments segs) callback st
      = some (applyCalls callback st (pairsOf segs)) :=
  ParseQueryLoop_segments callback segs hwf _ [] 0 _ st (by simp) rfl (by omega)
    (length_queryOfSegments segs)

theorem queryOfPairs_eq (pairs : List (Str × Str)) :
    queryOfPairs pairs = queryOfSegments (pairs.map fun p => Segment.pair p.1 p.2) := by
  simp [queryOfPairs, queryOfSegments, List.map_map, Function.comp_def, Segment.text]

theorem pairsOf_map_pair (pairs : List (Str × Str)) :
    pairsOf (pairs.map fun p => Segment.pair p.1 p.2) = pairs := by
  induction pairs with
  | nil => rfl
  | cons p rest ih => simp [pairsOf, ih]

/-- C1: on a query `k_1=v_1&...&k_n=v_n` of well-formed pairs, `ParseQuery` calls its visitor
exactly once per pair, in order, the i-th call with key `k_i` and raw value `v_i`; on the
empty query it makes no call. The first part is for the recording visitor, the second for
every visitor (in particular the orchestrators' `PQCHECK` visitors, which store the decoded
value). -/
theorem ParseQuery_visits_pairs (pairs : List (Str × Str))
    (hwf : ∀ p ∈ pairs, WellFormedPair p) :
    visits (queryOfPairs pairs) = some pairs ∧
    visits [] = some [] ∧
    ∀ (σ : Type) (callback : Str → Str → σ → σ) (st : σ),
      ParseQuery (queryOfPairs pairs) callback st = some (applyCalls callback st pairs) := by
  have hsegs : ∀ s ∈ pairs.map (fun p => Segment.pair p.1 p.2), s.WellFormed := by
    intro s hs
    obtain ⟨p, hp, rfl⟩ := List.mem_map.mp hs
    exact hwf p hp
  have key : ∀ (σ : Type) (callback : Str → Str → σ → σ) (st : σ),
      ParseQuery (queryOfPairs pairs) callback st = some (applyCalls callback st pairs) := by
    intro σ callback st
    rw [queryOfPairs_eq, ParseQuery_segments callback _ hsegs, pairsOf_map_pair]
  refine ⟨?_, rfl, key⟩
  have := key _ record []
  have hrec : ∀ (l acc : List (Str × Str)), applyCalls record acc l = acc ++ l := by
    intro l
    induction l with
    | nil => intro acc; simp [applyCalls]
    | cons p rest ih =>
      intro acc
      simp only [applyCalls, List.foldl_cons] at ih ⊢
      rw [ih]
      simp [record]
  rw [hrec] at this
  simpa [visits] using this

/-! ## Theorems: `ResourceHandler` -/

theorem to_size_t_cast (x : Nat) (hx : x < 2 ^ 64) : to_size_t (x : Int) = x := by
  unfold to_size_t
  omega

theorem to_size_t_add_cast (c m : Nat) (hx : c + m < 2 ^ 64) :
    to_size_t ((c : Int) + (m : Int)) = c + m := by
  unfold to_size_t
  omega

theorem to_size_t_sub_cast (L c : Nat) (hc : c ≤ L) (hL : L < 2 ^ 64) :
    to_size_t ((L : Int) - (c : Int)) = L - c := by
  unfold to_size_t
  omega

theorem to_int_cast (x : Nat) (hx : x < 2 ^ 31) : to_int (x : Int) = x := by
  unfold to_int
  omega

theorem to_int64_cast (x : Nat) (hx : x < 2 ^ 63) : to_int64 (x : Int) = x := by
  unfold to_int64
  omega

theorem Memcpy_fault_none (offset count data_len : Nat) (h : offset + count ≤ data_len) :
    Memcpy.fault { offset := offset, count := count } data_len = none := by
  unfold Memcpy.fault
  rw [if_pos h]

theorem Memcpy_fault_some (offset count data_len : Nat) (h : ¬ offset + count ≤ data_len) :
    Memcpy.fault { offset := offset, count := count } data_len = some .out_of_bounds := by
  unfold Memcpy.fault
  rw [if_neg h]

/-- `Read` with a non-negative `int` size, in closed form: no fault. -/
theorem Read_nat (h : ResourceHandler) (m : Nat) (hc : h.cursor ≤ h.data_len)
    (hf : h.data_len < 2 ^ 63) (hm : m < 2 ^ 31) :
    h.Read (m : Int) =
      if h.cursor = h.data_len then { ret := false, count := 0, copy := none, handler := h }
      else
        { ret := true, count := ((min m (h.data_len - h.cursor) : Nat) : Int),
          copy := some { offset := h.cursor, count := min m (h.data_len - h.cursor) },
          handler := { h with cursor := h.cursor + min m (h.data_len - h.cursor) } } := by
  unfold ResourceHandler.Read
  by_cases he : h.cursor = h.data_len
  · rw [if_pos he, if_pos he]
  · rw [if_neg he, if_neg he]
    have h1 : h.cursor + m < 2 ^ 64 := by omega
    have h2 : m < 2 ^ 64 := by omega
    have h3 : h.data_len < 2 ^ 64 := by omega
    rw [to_size_t_add_cast _ _ h1, to_size_t_cast _ h2, to_size_t_sub_cast _ _ hc h3]
    by_cases hin : h.cursor + m ≤ h.data_len
    · rw [if_pos hin]
      have hmin : min m (h.data_len - h.cursor) = m := by omega
      rw [hmin]
      simp only [Memcpy_fault_none _ _ _ hin]
    · rw [if_neg hin]
      have hmin : min m (h.data_len - h.cursor) = h.data_len - h.cursor := by omega
      have h4 : h.data_len - h.cursor < 2 ^ 31 := by omega
      have h5 : h.data_len - h.cursor < 2 ^ 64 := by omega
      have h6 : h.cursor + (h.data_len - h.cursor) = h.data_len := by omega
      rw [hmin, to_int_cast _ h4, to_size_t_cast _ h5, h6]
      simp only [Memcpy_fault_none _ _ _ (le_of_eq h6)]

/-- `Skip` with a non-negative `int64` size, in closed form. -/
theorem Skip_nat (h : ResourceHandler) (m : Nat) (hc : h.cursor ≤ h.data_len)
    (hf : h.data_len < 2 ^ 63) (hm : m < 2 ^ 63) :
    h.Skip (m : Int) =
      { ret := true, count := ((min m (h.data_len - h.cursor) : Nat) : Int), copy := none,
        handler := { h with cursor := h.cursor + min m (h.data_len - h.cursor) } } := by
  unfold ResourceHandler.Skip
  have h1 : h.cursor + m < 2 ^ 64 := by omega
  have h3 : h.data_len < 2 ^ 64 := by omega
  rw [to_size_t_add_cast _ _ h1, to_size_t_sub_cast _ _ hc h3]
  by_cases hin : h.cursor + m ≤ h.data_len
  · rw [if_pos hin]
    have hmin : min m (h.data_len - h.cursor) = m := by omega
    rw [hmin]
  · rw [if_neg hin]
    have hmin : min m (h.data_len - h.cursor) = h.data_len - h.cursor := by omega
    have h4 : h.data_len - h.cursor < 2 ^ 63 := by omega
    have h6 : h.cursor + (h.data_len - h.cursor) = h.data_len := by omega
    rw [hmin, to_int64_cast _ h4, h6]
theorem call_nonneg (h : ResourceHandler) (c : Call) (hc : h.cursor ≤ h.data_len)
    (hf : h.data_len < 2 ^ 63) (hn : c.NonNegSize) :
    (h.call c).handler = { h with cursor := min (h.cursor + c.requested.toNat) h.data_len } ∧
    (h.call c).count = ((min (h.cursor + c.requested.toNat) h.data_len - h.cursor : Nat) : Int) ∧
    (h.call c).fault = none := by
  cases c with
  | Read n =>
    obtain ⟨h0, h1⟩ := hn
    obtain ⟨m, rfl⟩ := Int.eq_ofNat_of_zero_le h0
    have hm : m < 2 ^ 31 := by omega
    simp only [ResourceHandler.call, Call.requested, Int.toNat_ofNat]
    rw [Read_nat h m hc hf hm]
    by_cases he : h.cursor = h.data_len
    · rw [if_pos he]
      have e1 : min (h.cursor + m) h.data_len = h.cursor := by omega
      rw [e1]
      simp
    · rw [if_neg he]
      have e1 : min (h.cursor + m) h.data_len = h.cursor + min m (h.data_len - h.cursor) := by
        omega
      rw [e1]
      simp
  | Skip n =>
    obtain ⟨h0, h1⟩ := hn
    obtain ⟨m, rfl⟩ := Int.eq_ofNat_of_zero_le h0
    have hm : m < 2 ^ 63 := by omega
    simp only [ResourceHandler.call, Call.requested, Int.toNat_ofNat]
    rw [Skip_nat h m hc hf hm]
    have e1 : min (h.cursor + m) h.data_len = h.cursor + min m (h.data_len - h.cursor) := by
      omega
    rw [e1]
    simp
  | Cancel => exact absurd hn (by simp [Call.NonNegSize])

theorem history_cons_of_no_fault (h : ResourceHandler) (c : Call) (rest : List Call)
    (hnf : (h.call c).fault = none) :
    h.history (c :: rest) =
      { before := h, call := c, result := h.call c } :: (h.call c).handler.history rest := by
  show _ :: (match (h.call c).fault with
    | none => (h.call c).handler.history rest
    | some _ => []) = _
  rw [hnf]

theorem after_cons_of_no_fault (h : ResourceHandler) (c : Call) (rest : List Call)
    (hnf : (h.call c).fault = none) :
    h.after (c :: rest) = (h.call c).handler.after rest := by
  show (match (h.call c).fault with
    | none => (h.call c).handler.after rest
    | some _ => (h.call c).handler) = _
  rw [hnf]

theorem history_nonneg (calls : List Call) :
    ∀ (h : ResourceHandler), h.cursor ≤ h.data_len → h.data_len < 2 ^ 63 →
      (∀ c ∈ calls, c.NonNegSize) →
      (h.after calls) =
        { h with cursor := min (h.cursor + ((calls.map Call.requested).sum).toNat) h.data_len } ∧
      delivered (h.history calls) = ((h.after calls).cursor : Int) - h.cursor ∧
      0 ≤ (calls.map Call.requested).sum ∧
      (h.history calls).map (fun e => e.call) = calls ∧
      ∀ e ∈ h.history calls, e.result.fault = none := by
  induction calls with
  | nil =>
    intro h hc hf _
    refine ⟨?_, ?_, le_refl _, rfl, fun e he => by simp [ResourceHandler.history] at he⟩
    · simp only [ResourceHandler.after, List.map_nil, List.sum_nil, Int.toNat_zero,
        Nat.add_zero, Nat.min_eq_left hc]
    · simp only [ResourceHandler.after, ResourceHandler.history, delivered, List.map_nil,
        List.sum_nil, sub_self]
  | cons c rest ih =>
    intro h hc hf hall
    have hcn : c.NonNegSize := hall c (by simp)
    obtain ⟨e1, e2, e3⟩ := call_nonneg h c hc hf hcn
    have hreq : 0 ≤ c.requested := by
      cases c with
      | Read n => exact hcn.1
      | Skip n => exact hcn.1
      | Cancel => exact le_refl _
    obtain ⟨i1, i2, i3, i4, i5⟩ := ih (h.call c).handler (by rw [e1]; simp)
      (by rw [e1]; exact hf) (fun x hx => hall x (by simp [hx]))
    rw [history_cons_of_no_fault h c rest e3, after_cons_of_no_fault h c rest e3]
    refine ⟨?_, ?_, ?_, by rw [List.map_cons, i4], ?_⟩
    · rw [i1, e1]
      simp only [List.map_cons, List.sum_cons]
      congr 1
      omega
    · simp only [delivered, List.map_cons, List.sum_cons]
      simp only [delivered] at i2
      rw [i2, i1, e2, e1]
      simp only
      omega
    · simp only [List.map_cons, List.sum_cons]
      omega
    · intro e he
      rw [List.mem_cons] at he
      rcases he with rfl | he
      · exact e3
      · exact i5 e he

/-- C2: on a freshly constructed handler over a buffer of length `L` (a string in memory, so
`L < 2^63`), after any finite sequence of `Read`/`Skip` calls with non-negative sizes the sum of
the reported `bytes_read`/`bytes_skipped` equals `min (sum of the sizes) L` and equals the
final cursor; when the sizes sum to at least `L`, exactly `L` bytes are delivered. Every call
of the sequence is made and none faults. -/
theorem byte_accounting (data : Str) (calls : List Call) (hfit : data.length < 2 ^ 63)
    (hcalls : ∀ c ∈ calls, c.NonNegSize) :
    delivered ((ResourceHandler.create data).history calls)
        = min ((calls.map Call.requested).sum) data.length ∧
    delivered ((ResourceHandler.create data).history calls)
        = (((ResourceHandler.create data).after calls).cursor : Int) ∧
    ((data.length : Int) ≤ (calls.map Call.requested).sum →
      delivered ((ResourceHandler.create data).history calls) = data.length) ∧
    ((ResourceHandler.create data).history calls).map (fun e => e.call) = calls ∧
    (∀ e ∈ (ResourceHandler.create data).history calls, e.result.fault = none) := by
  obtain ⟨h1, h2, h3, h4, h5⟩ := history_nonneg calls (ResourceHandler.create data)
    (Nat.zero_le _) hfit hcalls
  refine ⟨?_, ?_, ?_, h4, h5⟩
  · rw [h2, h1]
    simp only [ResourceHandler.create, Nat.zero_add, Nat.cast_zero, sub_zero]
    omega
  · rw [h2]
    simp only [ResourceHandler.create, Nat.cast_zero, sub_zero]
  · intro hge
    rw [h2, h1]
    simp only [ResourceHandler.create, Nat.zero_add, Nat.cast_zero, sub_zero]
    omega

/-- C8: `Read` on a valid state with a non-negative `int` size `n`: at the end of the data it
stores 0, returns false and changes nothing; otherwise it stores
`min n (data_len - cursor)`, copies exactly `data[cursor .. cursor + bytes_read)`, advances the
cursor by `bytes_read` and returns true. In both cases the call returns (no fault). -/
theorem Read_semantics (h : ResourceHandler) (n : Int) (hv : h.Valid) (h0 : 0 ≤ n)
    (h1 : n < 2 ^ 31) :
    (h.cursor = h.data_len →
      (h.Read n).count = 0 ∧ (h.Read n).ret = false ∧ (h.Read n).copy = none ∧
      (h.Read n).handler = h ∧ (h.Read n).fault = none) ∧
    (h.cursor ≠ h.data_len →
      (h.Read n).count = min n ((h.data_len : Int) - h.cursor) ∧
      (∃ m, (h.Read n).copy = some m ∧
        m.bytes h.data = some ((h.data.drop h.cursor).take (h.Read n).count.toNat)) ∧
      ((h.Read n).handler.cursor : Int) = h.cursor + (h.Read n).count ∧
      (h.Read n).handler.data = h.data ∧ (h.Read n).handler.data_len = h.data_len ∧
      (h.Read n).ret = true ∧ (h.Read n).fault = none) := by
  obtain ⟨hl, hc, hf⟩ := hv
  obtain ⟨m, rfl⟩ := Int.eq_ofNat_of_zero_le h0
  have hm : m < 2 ^ 31 := by omega
  rw [Read_nat h m hc hf hm]
  constructor
  · intro he
    rw [if_pos he]
    exact ⟨rfl, rfl, rfl, rfl, rfl⟩
  · intro he
    rw [if_neg he]
    refine ⟨?_, ⟨_, rfl, ?_⟩, ?_, rfl, rfl, rfl, rfl⟩
    · show ((min m (h.data_len - h.cursor) : Nat) : Int) = _
      omega
    · show Memcpy.bytes _ h.data = some (List.take (Int.toNat ((min m (h.data_len - h.cursor) : Nat) : Int))
          (List.drop h.cursor h.data))
      unfold Memcpy.bytes
      rw [if_pos (by show h.cursor + min m (h.data_len - h.cursor) ≤ h.data.length; omega)]
      simp
      omega
    · show ((h.cursor + min m (h.data_len - h.cursor) : Nat) : Int) = _
      push_cast
      rfl

/-- The witness of `Read_semantics`: a read of 3 bytes at cursor 1 of `hello` stores 3 and
moves the cursor to 4. -/
theorem Read_semantics_witness :
    ({ data := "hello".toList, data_len := 5, cursor := 1 } : ResourceHandler).Valid ∧
    (({ data := "hello".toList, data_len := 5, cursor := 1 } : ResourceHandler).Read 3).count
      = 3 ∧
    ((({ data := "hello".toList, data_len := 5, cursor := 1 } : ResourceHandler).Read 3).handler.cursor
      : Int) = 4 :=
  ⟨⟨by decide, by decide, by decide⟩,
   ((Read_semantics { data := "hello".toList, data_len := 5, cursor := 1 } 3
      ⟨by decide, by decide, by decide⟩ (by decide) (by decide)).2 (by decide)).1.trans
     (by decide),
   ((Read_semantics { data := "hello".toList, data_len := 5, cursor := 1 } 3
      ⟨by decide, by decide, by decide⟩ (by decide) (by decide)).2 (by decide)).2.2.1.trans
     (by decide)⟩

theorem call_monotone (h : ResourceHandler) (c : Call) (hc : h.cursor ≤ h.data_len)
    (hf : h.data_len < 2 ^ 63) (hr : c.InRange) (h0 : 0 ≤ c.requested) :
    (h.call c).fault = none ∧
    (h.call c).handler.cursor ≤ h.data_len ∧ (h.call c).handler.data_len = h.data_len ∧
    h.cursor ≤ (h.call c).handler.cursor ∧
    ∀ m ∈ (h.call c).copy, m.offset + m.count ≤ h.data_len := by
  cases c with
  | Read n =>
    simp only [Call.requested] at h0
    obtain ⟨m, rfl⟩ := Int.eq_ofNat_of_zero_le h0
    have hm : m < 2 ^ 31 := by have := hr.2; omega
    simp only [ResourceHandler.call]
    rw [Read_nat h m hc hf hm]
    by_cases he : h.cursor = h.data_len
    · rw [if_pos he]
      exact ⟨rfl, hc, rfl, le_refl _, by simp⟩
    · rw [if_neg he]
      refine ⟨rfl, ?_, rfl, Nat.le_add_right _ _, ?_⟩
      · show h.cursor + min m (h.data_len - h.cursor) ≤ h.data_len
        omega
      · intro x hx
        simp only [Option.mem_def, Option.some.injEq] at hx
        subst hx
        show h.cursor + min m (h.data_len - h.cursor) ≤ h.data_len
        omega
  | Skip n =>
    simp only [Call.requested] at h0
    obtain ⟨m, rfl⟩ := Int.eq_ofNat_of_zero_le h0
    have hm : m < 2 ^ 63 := by have := hr.2; omega
    simp only [ResourceHandler.call]
    rw [Skip_nat h m hc hf hm]
    refine ⟨rfl, ?_, rfl, Nat.le_add_right _ _, by simp⟩
    show h.cursor + min m (h.data_len - h.cursor) ≤ h.data_len
    omega
  | Cancel => exact ⟨rfl, le_refl _, rfl, hc, by simp [ResourceHandler.call]⟩

theorem history_monotone (calls : List Call) :
    ∀ (h : ResourceHandler), h.cursor ≤ h.data_len → h.data_len < 2 ^ 63 →
      (∀ c ∈ calls, c.InRange ∧ 0 ≤ c.requested) →
      (h.history calls).map (fun e => e.call) = calls ∧
      ∀ e ∈ h.history calls, e.result.fault = none ∧
        e.result.handler.cursor ≤ h.data_len ∧
        e.before.cursor ≤ e.result.handler.cursor ∧
        ∀ m ∈ e.result.copy, m.offset + m.count ≤ h.data_len := by
  induction calls with
  | nil => intro h _ _ _; exact ⟨rfl, fun e he => by simp [ResourceHandler.history] at he⟩
  | cons c rest ih =>
    intro h hc hf hall
    obtain ⟨hr, h0⟩ := hall c (by simp)
    obtain ⟨b0, b1, b2, b3, b4⟩ := call_monotone h c hc hf hr h0
    obtain ⟨i1, i2⟩ := ih (h.call c).handler (by rw [b2]; exact b1) (by rw [b2]; exact hf)
      (fun x hx => hall x (by simp [hx]))
    rw [history_cons_of_no_fault h c rest b0]
    refine ⟨by rw [List.map_cons, i1], ?_⟩
    intro e he
    rw [List.mem_cons] at he
    rcases he with rfl | he
    · exact ⟨b0, b1, b3, b4⟩
    · have := i2 e he
      rwa [b2] at this

/-- C9 as stated fails. On the buffer `ab`, after `Skip(1)` the call `Skip(-1)` (a value of
`int64`) takes the in-bounds branch and moves the cursor back from 1 to 0; both calls return.
And at cursor 1 the call `Read(-1)` (a value of `int`) takes the in-bounds branch and asks
`memcpy` for `2^64 - 1` bytes from offset 1, which leaves the buffer. -/
theorem cursor_invariant_counterexample :
    (∀ c ∈ [Call.Skip 1, Call.Skip (-1), Call.Read (-1)], c.InRange) ∧
    ((ResourceHandler.create "ab".toList).history [Call.Skip 1, Call.Skip (-1)]).map
        (fun e => (e.before.cursor, e.result.handler.cursor, e.result.fault))
      = [(0, 1, none), (1, 0, none)] ∧
    ¬ (∀ e ∈ (ResourceHandler.create "ab".toList).history [Call.Skip 1, Call.Skip (-1)],
        e.before.cursor ≤ e.result.handler.cursor) ∧
    (({ data := "ab".toList, data_len := 2, cursor := 1 } : ResourceHandler).Read (-1)).copy
      = some { offset := 1, count := 2 ^ 64 - 1 } ∧
    (({ data := "ab".toList, data_len := 2, cursor := 1 } : ResourceHandler).Read (-1)).fault
      = some .out_of_bounds := by
  decide

/-- C9, amended: from a freshly constructed handler (buffer length below `2^63`), on any
sequence of `Read`, `Skip` and `Cancel` calls whose sizes are non-negative values of their
parameter types, every call is made and returns, after every call the cursor is at most
`data_len`, no call moves the cursor back, and every `Read` copies only bytes inside
`data[0 .. data_len)`. -/
theorem cursor_invariant (data : Str) (calls : List Call) (hfit : data.length < 2 ^ 63)
    (hcalls : ∀ c ∈ calls, c.InRange ∧ 0 ≤ c.requested) :
    ((ResourceHandler.create data).history calls).map (fun e => e.call) = calls ∧
    ∀ e ∈ (ResourceHandler.create data).history calls,
      e.result.fault = none ∧
      e.result.handler.cursor ≤ data.length ∧
      e.before.cursor ≤ e.result.handler.cursor ∧
      ∀ m ∈ e.result.copy, m.offset + m.count ≤ data.length :=
  history_monotone calls (ResourceHandler.create data) (Nat.zero_le _) hfit hcalls

/-! ## Theorems: `FindJava` -/

/-- C5: when the home hint `h` is given and `h/bin/java` exists, `FindJava` returns true with
`out = h/bin/java`, whatever `PATH` is (unset included), and the only existence check it
makes is the one on `h/bin/java`: no `PATH` segment is looked at. -/
theorem FindJava_home_first (fs_exists : Str → Option Bool) (h : Str) (PATH : Option Str)
    (hex : fs_exists (path_append (path_append h "bin".toList) "java".toList) = some true) :
    FindJava fs_exists (some h) PATH =
      .ok { ret := true,
            out := some (path_append (path_append h "bin".toList) "java".toList),
            probes := [path_append (path_append h "bin".toList) "java".toList] } := by
  simp only [FindJava, hex]

theorem applyCalls_record (l acc : List (Str × Str)) : applyCalls record acc l = acc ++ l := by
  induction l generalizing acc with
  | nil => simp [applyCalls]
  | cons p rest ih =>
    simp only [applyCalls, List.foldl_cons] at ih ⊢
    rw [ih]
    simp [record]

theorem ParseQueryLoop_record {σ : Type} (query : Str) (callback : Str → Str → σ → σ) :
    ∀ (fuel pos : Nat) (st : σ) (acc : List (Str × Str)),
      ParseQueryLoop query callback fuel pos (applyCalls callback st acc) =
        (ParseQueryLoop query record fuel pos acc).map (applyCalls callback st) := by
  intro fuel
  induction fuel with
  | zero => intro pos st acc; rfl
  | succ f ih =>
    intro pos st acc
    rw [ParseQueryLoop_succ, ParseQueryLoop_succ]
    cases find query '=' pos with
    | none => rfl
    | some eq =>
      cases find query '&' pos with
      | none =>
        simp only [Option.map_some', record, applyCalls, List.foldl_append, List.foldl_cons,
          List.foldl_nil]
      | some amp =>
        simp only []
        split
        · exact ih _ _ _
        · have := ih (amp + 1) st (record (substr query pos eq) (substr query (eq + 1) amp) acc)
          rw [← this]
          simp only [record, applyCalls, List.foldl_append, List.foldl_cons, List.foldl_nil]

theorem ParseQuery_eq_visits {σ : Type} (query : Str) (callback : Str → Str → σ → σ) (st : σ) :
    ParseQuery query callback st = (visits query).map (applyCalls callback st) :=
  ParseQueryLoop_record query callback _ 0 st []

theorem visits_total (query : Str) : ∃ calls, visits query = some calls :=
  ParseQuery_total query record []

theorem any_key_iff (query : Str) (calls : List (Str × Str)) (name : Str)
    (hc : visits query = some calls) :
    (false || calls.any fun kv => kv.1 = name) = true ↔ HasParam query name := by
  simp only [Bool.false_or, List.any_eq_true, decide_eq_true_eq, HasParam, hc, List.mem_map]

theorem Rs3Query_has_hash (decode : Str → Str) (calls : List (Str × Str)) :
    ∀ q : Rs3Query, (applyCalls (Rs3Query.visit decode) q calls).has_hash =
      (q.has_hash || calls.any fun kv => kv.1 = "hash".toList) := by
  induction calls with
  | nil => intro q; simp [applyCalls]
  | cons kv rest ih =>
    intro q
    simp only [applyCalls, List.foldl_cons, List.any_cons] at ih ⊢
    rw [ih]
    unfold Rs3Query.visit
    by_cases h : kv.1 = "hash".toList
    · simp [h]
    · simp only [h, if_false, decide_False, Bool.false_or]
      split_ifs <;> rfl

theorem Rs3Query_parse (decode : Str → Str) (query : Str) :
    ∃ q, ParseQuery query (Rs3Query.visit decode) {} = some q ∧
      (q.has_hash = true ↔ HasParam query "hash".toList) := by
  obtain ⟨calls, hc⟩ := visits_total query
  refine ⟨applyCalls (Rs3Query.visit decode) {} calls, ?_, ?_⟩
  · rw [ParseQuery_eq_visits, hc]; rfl
  · rw [Rs3Query_has_hash]
    exact any_key_iff query calls _ hc

theorem RuneliteQuery_flags (decode : Str → Str) (calls : List (Str × Str)) :
    ∀ q : RuneliteQuery,
      (applyCalls (RuneliteQuery.visit decode) q calls).has_id =
        (q.has_id || calls.any fun kv => kv.1 = "id".toList) ∧
      (applyCalls (RuneliteQuery.visit decode) q calls).has_rl_path =
        (q.has_rl_path || calls.any fun kv => kv.1 = "rl_path".toList) := by
  induction calls with
  | nil => intro q; simp [applyCalls]
  | cons kv rest ih =>
    intro q
    simp only [applyCalls, List.foldl_cons, List.any_cons] at ih ⊢
    rw [(ih _).1, (ih _).2]
    have hne : "id".toList ≠ "rl_path".toList := by decide
    unfold RuneliteQuery.visit
    by_cases h1 : kv.1 = "rl_path".toList
    · have h2 : kv.1 ≠ "id".toList := fun e => hne (e.symm.trans h1)
      simp [h1, hne.symm]
    · by_cases h2 : kv.1 = "id".toList
      · simp [h2, hne]
      · simp only [h1, h2, if_false, decide_False, Bool.false_or]
        split_ifs <;> exact ⟨rfl, rfl⟩

theorem RuneliteQuery_parse (decode : Str → Str) (query : Str) :
    ∃ q, ParseQuery query (RuneliteQuery.visit decode) {} = some q ∧
      (q.has_id = true ↔ HasParam query "id".toList) ∧
      (q.has_rl_path = true ↔ HasParam query "rl_path".toList) := by
  obtain ⟨calls, hc⟩ := visits_total query
  refine ⟨applyCalls (RuneliteQuery.visit decode) {} calls, ?_, ?_, ?_⟩
  · rw [ParseQuery_eq_visits, hc]; rfl
  · rw [(RuneliteQuery_flags decode calls _).1]
    exact any_key_iff query calls _ hc
  · rw [(RuneliteQuery_flags decode calls _).2]
    exact any_key_iff query calls _ hc

theorem HdosQuery_has_version (decode : Str → Str) (calls : List (Str × Str)) :
    ∀ q : HdosQuery, (applyCalls (HdosQuery.visit decode) q calls).has_version =
      (q.has_version || calls.any fun kv => kv.1 = "version".toList) := by
  induction calls with
  | nil => intro q; simp [applyCalls]
  | cons kv rest ih =>
    intro q
    simp only [applyCalls, List.foldl_cons, List.any_cons] at ih ⊢
    rw [ih]
    unfold HdosQuery.visit
    by_cases h : kv.1 = "version".toList
    · simp [h]
    · simp only [h, if_false, decide_False, Bool.false_or]
      split_ifs <;> rfl

theorem HdosQuery_parse (decode : Str → Str) (query : Str) :
    ∃ q, ParseQuery query (HdosQuery.visit decode) {} = some q ∧
      (q.has_version = true ↔ HasParam query "version".toList) := by
  obtain ⟨calls, hc⟩ := visits_total query
  refine ⟨applyCalls (HdosQuery.visit decode) {} calls, ?_, ?_⟩
  · rw [ParseQuery_eq_visits, hc]; rfl
  · rw [HdosQuery_has_version]
    exact any_key_iff query calls _ hc

theorem payload_match {β : Type} (request : Request) (hbad : request.PayloadMissing)
    (f : Str → β) (g : β) :
    (match request.post_data with
      | some [x] => f x
      | _ => g) = g := by
  unfold Request.PayloadMissing at hbad
  cases hp : request.post_data with
  | none => rfl
  | some v =>
    rw [hp] at hbad
    match v, hbad with
    | [], _ => rfl
    | [_], h => exact absurd rfl h
    | _ :: _ :: _, _ => rfl

theorem LaunchRs3Deb_bad_payload (L : Launcher) (w : World) (fuel : Nat) (request : Request)
    (query : Str) (hbad : request.PayloadMissing) (hhash : HasParam query "hash".toList) :
    LaunchRs3Deb L w fuel request query = respond [] 400 "Bad Request" := by
  obtain ⟨q, hq, hiff⟩ := Rs3Query_parse w.decode query
  have hh : q.has_hash = true := hiff.mpr hhash
  unfold LaunchRs3Deb
  rw [hq]
  simp only [hh, if_true]
  exact payload_match request hbad _ _

theorem LaunchRuneliteJar_bad_payload (L : Launcher) (w : World) (fuel : Nat)
    (request : Request) (query : Str) (configure : Bool) (hbad : request.PayloadMissing)
    (hid : HasParam query "id".toList) (hrl : ¬ HasParam query "rl_path".toList) :
    LaunchRuneliteJar L w fuel request query configure = respond [] 400 "Bad Request" := by
  obtain ⟨q, hq, hiff, hiff2⟩ := RuneliteQuery_parse w.decode query
  have hh : q.has_id = true := hiff.mpr hid
  have hr : q.has_rl_path = false := by
    cases h : q.has_rl_path with
    | false => rfl
    | true => exact absurd (hiff2.mp h) hrl
  unfold LaunchRuneliteJar
  rw [hq]
  simp only [hh, hr, if_true, Bool.false_eq_true, if_false]
  exact payload_match request hbad _ _

theorem java_proxy_rebuild (L : Launcher) (w : World) (home : Str) :
    (java_proxy L w home).effects.all Effect.isRebuild = true ∧
    (∀ err, (java_proxy L w home).result = .ok err →
      ∃ cwd, w.current_path = some cwd ∧
        (java_proxy L w home).effects = java_proxy_effects L cwd home ∧
        err = symlink_err L w cwd home) ∧
    (∀ f, (java_proxy L w home).result = .error f → f = .filesystem_error) := by
  unfold java_proxy
  cases hcwd : w.current_path with
  | none => exact ⟨rfl, fun err h => (by cases h), fun f h => (Except.error.inj h).symm⟩
  | some cwd =>
    simp only []
    split
    · exact ⟨rfl, fun err h => (by cases h), fun f h => (Except.error.inj h).symm⟩
    · split
      · exact ⟨rfl, fun err h => (by cases h), fun f h => (Except.error.inj h).symm⟩
      · split
        · exact ⟨rfl, fun err h => (by cases h), fun f h => (Except.error.inj h).symm⟩
        · exact ⟨rfl, fun err h => ⟨cwd, rfl, rfl, (Except.ok.inj h).symm⟩,
            fun f h => (by cases h)⟩

theorem LaunchHdosJar_bad_payload (L : Launcher) (w : World) (fuel : Nat) (request : Request)
    (query : Str) (hbad : request.PayloadMissing) (hver : HasParam query "version".toList) :
    (w.java_home = none → LaunchHdosJar L w fuel request query =
        respond [] 400 "JAVA_HOME environment variable is required to run HDOS\n") ∧
    (∀ home f, w.java_home = some home →
      FindJava w.fs_exists (some home) w.PATH = .error f →
      LaunchHdosJar L w fuel request query = { effects := [], result := .error f }) ∧
    (∀ home found, w.java_home = some home →
      FindJava w.fs_exists (some home) w.PATH = .ok found → found.ret = false →
      LaunchHdosJar L w fuel request query = respond [] 500 no_java_message) ∧
    (∀ home found, w.java_home = some home →
      FindJava w.fs_exists (some home) w.PATH = .ok found → found.ret = true →
      LaunchHdosJar L w fuel request query =
        match (java_proxy L w home).result with
        | .error f => { effects := (java_proxy L w home).effects, result := .error f }
        | .ok err =>
          if err then
            respond (java_proxy L w home).effects 500 "Unable to create symlinks\n"
          else respond (java_proxy L w home).effects 400 "Bad Request") ∧
    (LaunchHdosJar L w fuel request query).effects.all Effect.isRebuild = true ∧
    (∀ r, (LaunchHdosJar L w fuel request query).result = .ok r →
      r.status = 400 ∨ r.status = 500) := by
  obtain ⟨q, hq, hiff⟩ := HdosQuery_parse w.decode query
  have hh : q.has_version = true := hiff.mpr hver
  have hnone : w.java_home = none → LaunchHdosJar L w fuel request query =
      respond [] 400 "JAVA_HOME environment variable is required to run HDOS\n" := by
    intro hj
    unfold LaunchHdosJar
    simp only [hj]
  have herr : ∀ home f, w.java_home = some home →
      FindJava w.fs_exists (some home) w.PATH = .error f →
      LaunchHdosJar L w fuel request query = { effects := [], result := .error f } := by
    intro home f hj hf
    unfold LaunchHdosJar
    simp only [hj, hf]
  have hnot : ∀ home found, w.java_home = some home →
      FindJava w.fs_exists (some home) w.PATH = .ok found → found.ret = false →
      LaunchHdosJar L w fuel request query = respond [] 500 no_java_message := by
    intro home found hj hf hr
    unfold LaunchHdosJar
    simp only [hj, hf, hr, if_true]
  have hfound : ∀ home found, w.java_home = some home →
      FindJava w.fs_exists (some home) w.PATH = .ok found → found.ret = true →
      LaunchHdosJar L w fuel request query =
        match (java_proxy L w home).result with
        | .error f => { effects := (java_proxy L w home).effects, result := .error f }
        | .ok err =>
          if err then
            respond (java_proxy L w home).effects 500 "Unable to create symlinks\n"
          else respond (java_proxy L w home).effects 400 "Bad Request" := by
    intro home found hj hf hr
    unfold LaunchHdosJar
    simp only [hj, hf, hr, Bool.true_eq_false, if_false]
    cases (java_proxy L w home).result with
    | error f => rfl
    | ok err =>
      cases err with
      | true => rfl
      | false =>
        simp only [Bool.false_eq_true, if_false, hq, hh, if_true]
        exact payload_match request hbad _ _
  have hcases : ∀ (P : Outcome Response → Prop),
      P (respond [] 400 "JAVA_HOME environment variable is required to run HDOS\n") →
      (∀ f, P { effects := [], result := .error f }) →
      P (respond [] 500 no_java_message) →
      (∀ home f, P { effects := (java_proxy L w home).effects, result := .error f }) →
      (∀ home, P (respond (java_proxy L w home).effects 500 "Unable to create symlinks\n")) →
      (∀ home, P (respond (java_proxy L w home).effects 400 "Bad Request")) →
      P (LaunchHdosJar L w fuel request query) := by
    intro P p1 p2 p3 p4 p5 p6
    cases hj : w.java_home with
    | none => rw [hnone hj]; exact p1
    | some home =>
      cases hf : FindJava w.fs_exists (some home) w.PATH with
      | error f => rw [herr home f hj hf]; exact p2 f
      | ok found =>
        cases hr : found.ret with
        | false => rw [hnot home found hj hf hr]; exact p3
        | true =>
          rw [hfound home found hj hf hr]
          cases (java_proxy L w home).result with
          | error f => exact p4 home f
          | ok err =>
            cases err with
            | true => exact p5 home
            | false => exact p6 home
  refine ⟨hnone, herr, hnot, hfound, ?_, ?_⟩
  · exact hcases (fun run => run.effects.all Effect.isRebuild = true) rfl (fun _ => rfl) rfl
      (fun home _ => (java_proxy_rebuild L w home).1)
      (fun home => (java_proxy_rebuild L w home).1)
      (fun home => (java_proxy_rebuild L w home).1)
  · exact hcases (fun run => ∀ r, run.result = .ok r → r.status = 400 ∨ r.status = 500)
      (fun r h => Or.inl (by rw [← Except.ok.inj h]))
      (fun f r h => by cases h)
      (fun r h => Or.inr (by rw [← Except.ok.inj h]))
      (fun home f r h => by cases h)
      (fun home r h => Or.inr (by rw [← Except.ok.inj h]))
      (fun home r h => Or.inl (by rw [← Except.ok.inj h]))

/-- C3 as stated fails. With `rl_path` in the query, `LaunchRuneliteJar` does not look at the
payload: on `rl_path=/x/rl.jar&id=7` without post data it forks and answers 200. And
`LaunchHdosJar` rebuilds `data_dir/java-proxy` before it parses the query: on `version=3`
without post data it has removed and made directories and links when it answers 400. -/
theorem payload_validation_counterexample :
    ({ post_data := none } : Request).PayloadMissing ∧
    HasParam "rl_path=/x/rl.jar&id=7".toList "id".toList ∧
    (LaunchRuneliteJar sampleLauncher sampleWorld 10 { post_data := none }
        "rl_path=/x/rl.jar&id=7".toList false).result
      = .ok { status := 200, mime := "text/plain".toList, body := "OK\n".toList } ∧
    (LaunchRuneliteJar sampleLauncher sampleWorld 10 { post_data := none }
        "rl_path=/x/rl.jar&id=7".toList false).effects.any Effect.isFork = true ∧
    HasParam "version=3".toList "version".toList ∧
    (LaunchHdosJar sampleLauncher sampleWorld 10 { post_data := none }
        "version=3".toList).result
      = .ok { status := 400, mime := "text/plain".toList, body := "Bad Request".toList } ∧
    (LaunchHdosJar sampleLauncher sampleWorld 10 { post_data := none }
        "version=3".toList).effects.any Effect.touchesFiles = true :=
  ⟨trivial,
   by decide,
   rfl, rfl,
   by decide,
   rfl, rfl⟩

/-- C3, amended: with the update parameter in the query and the post data absent or not of
exactly one element, `LaunchRs3Deb` answers 400 "Bad Request" with no effect at all;
`LaunchRuneliteJar` does the same when the query has no `rl_path`; `LaunchHdosJar` checks
`JAVA_HOME`, resolves `java` and rebuilds `data_dir/java-proxy` before it parses the query.
It answers 400 with no effect when `JAVA_HOME` is unset, is left with no effect when
`FindJava` does not return (`exists` throws, `PATH` is null), and answers 500 with no effect
when no `java` is found. When `java` is found the rebuilding runs: if `current_path`,
`remove_all` or `create_directory` throws, the function is left by that exception after the
calls made so far; otherwise it answers 400 "Bad Request" (500 when a `symlink` failed) after
the whole rebuilding. In every case its effects are calls of the rebuilding only (no file is
written, nothing is extracted, no process is spawned) and a status it returns is 400 or
500. -/
theorem payload_validation (L : Launcher) (w : World) (fuel : Nat) (request : Request)
    (query : Str) (configure : Bool) (hbad : request.PayloadMissing) :
    (HasParam query "hash".toList →
      LaunchRs3Deb L w fuel request query = respond [] 400 "Bad Request") ∧
    (HasParam query "id".toList → ¬ HasParam query "rl_path".toList →
      LaunchRuneliteJar L w fuel request query configure = respond [] 400 "Bad Request") ∧
    (HasParam query "version".toList →
      (w.java_home = none → LaunchHdosJar L w fuel request query =
          respond [] 400 "JAVA_HOME environment variable is required to run HDOS\n") ∧
      (∀ home f, w.java_home = some home →
        FindJava w.fs_exists (some home) w.PATH = .error f →
        LaunchHdosJar L w fuel request query = { effects := [], result := .error f }) ∧
      (∀ home found, w.java_home = some home →
        FindJava w.fs_exists (some home) w.PATH = .ok found → found.ret = false →
        LaunchHdosJar L w fuel request query = respond [] 500 no_java_message) ∧
      (∀ home found, w.java_home = some home →
        FindJava w.fs_exists (some home) w.PATH = .ok found → found.ret = true →
        LaunchHdosJar L w fuel request query =
          match (java_proxy L w home).result with
          | .error f => { effects := (java_proxy L w home).effects, result := .error f }
          | .ok err =>
            if err then
              respond (java_proxy L w home).effects 500 "Unable to create symlinks\n"
            else respond (java_proxy L w home).effects 400 "Bad Request") ∧
      (LaunchHdosJar L w fuel request query).effects.all Effect.isRebuild = true ∧
      (∀ r, (LaunchHdosJar L w fuel request query).result = .ok r →
        r.status = 400 ∨ r.status = 500)) :=
  ⟨LaunchRs3Deb_bad_payload L w fuel request query hbad,
   LaunchRuneliteJar_bad_payload L w fuel request query configure hbad,
   LaunchHdosJar_bad_payload L w fuel request query hbad⟩

/-- The witness of `payload_validation`: the query `hash=abc` without post data. -/
theorem payload_validation_witness :
    ({ post_data := none } : Request).PayloadMissing ∧
    HasParam "hash=abc".toList "hash".toList ∧
    LaunchRs3Deb sampleLauncher sampleWorld 10 { post_data := none } "hash=abc".toList
      = respond [] 400 "Bad Request" :=
  ⟨trivial,
   (by decide),
   (payload_validation sampleLauncher sampleWorld 10 { post_data := none } "hash=abc".toList
      false trivial).1
     (by decide)⟩

theorem scan_deb_missing (archive : Archive)
    (h : ∀ x ∈ archive, ∃ e, x = .ok e ∧ e.pathname ≠ "data.tar.xz".toList) :
    scan_deb archive = .missing := by
  induction archive with
  | nil => rfl
  | cons x rest ih =>
    obtain ⟨e, rfl, hne⟩ := h x (by simp)
    have hrest := ih (fun y hy => h y (by simp [hy]))
    unfold scan_deb
    rw [if_neg hne]
    exact hrest

/-- C10: in `LaunchRs3Deb`, with `hash` in the query and a single payload element whose
outer archive iterates without error and has no entry named `data.tar.xz`, the response is
400 "No data in .deb file"; the only effects are the allocation and release of the payload
copy and of the archive handle, so no file is made or changed and no process is spawned. -/
theorem missing_inner_archive (L : Launcher) (w : World) (fuel : Nat) (request : Request)
    (query deb : Str) (hhash : HasParam query "hash".toList)
    (hpost : request.post_data = some [deb])
    (hno : ∀ x ∈ w.ar_open deb, ∃ e, x = .ok e ∧ e.pathname ≠ "data.tar.xz".toList) :
    (LaunchRs3Deb L w fuel request query).result =
      .ok { status := 400, mime := "text/plain".toList,
            body := "No data in .deb file\n".toList } ∧
    (LaunchRs3Deb L w fuel request query).effects =
      [.alloc .deb, .alloc .ar, .free .ar, .free .deb] ∧
    (∀ e ∈ (LaunchRs3Deb L w fuel request query).effects, e.Harmless) ∧
    (LaunchRs3Deb L w fuel request query).effects.any Effect.touchesFiles = false ∧
    (LaunchRs3Deb L w fuel request query).effects.any Effect.isFork = false := by
  obtain ⟨q, hq, hiff⟩ := Rs3Query_parse w.decode query
  have hh : q.has_hash = true := hiff.mpr hhash
  have hscan := scan_deb_missing (w.ar_open deb) hno
  have hrun : LaunchRs3Deb L w fuel request query =
      { effects := [.alloc .deb, .alloc .ar, .free .ar, .free .deb],
        result := .ok { status := 400, mime := "text/plain".toList,
                        body := "No data in .deb file\n".toList } } := by
    unfold LaunchRs3Deb
    simp only [hq, hh, if_true, hpost, extract_deb, hscan]
    rfl
  rw [hrun]
  refine ⟨rfl, rfl, ?_, rfl, rfl⟩
  intro e he
  simp only [List.mem_cons, List.mem_singleton, List.not_mem_nil, or_false] at he
  rcases he with rfl | rfl | rfl | rfl <;> exact trivial


/-- The witness of `missing_inner_archive`: a `.deb` that only holds `debian-binary`. -/
theorem missing_inner_archive_witness :
    HasParam "hash=abc".toList "hash".toList ∧
    (LaunchRs3Deb sampleLauncher sampleWorldNoData 10 { post_data := some ["!<arch>".toList] }
        "hash=abc".toList).result =
      .ok { status := 400, mime := "text/plain".toList,
            body := "No data in .deb file\n".toList } :=
  ⟨(by decide),
   (missing_inner_archive sampleLauncher sampleWorldNoData 10
      { post_data := some ["!<arch>".toList] } "hash=abc".toList "!<arch>".toList
      (by decide) rfl
      (by
        intro x hx
        simp only [sampleWorldNoData, List.mem_singleton] at hx
        subst hx
        exact ⟨_, rfl, by decide⟩)).1⟩

theorem save_game_released_handle (L : Launcher) (w : World) (fuel : Nat) (entry : Entry)
    (eff : List Effect) (hsize : 0 < entry.size) :
    (save_game L w (fuel + 1) entry eff).result = .error .use_after_free ∧
    (save_game L w (fuel + 1) entry eff).effects =
      eff ++ [.alloc .game, .archive_read_data .ar (to_size_t entry.size)] := by
  unfold save_game
  rw [if_neg (by omega)]
  unfold read_loop
  rw [if_pos hsize, sub_zero]
  exact ⟨rfl, by simp⟩

/-- C4, the code at a failing input: a `.deb` whose `data.tar.xz` holds the game binary with
2 bytes of content. The bytes of the binary are asked from the handle `ar` (the fifth effect
is its release, the last one the read on it), not from the open handle `xz`; the run ends in
a use after free, and `rs3_path` is never opened or written. -/
theorem LaunchRs3Deb_reads_released_handle :
    (LaunchRs3Deb sampleLauncher sampleWorld 10 { post_data := some ["!<arch>".toList] }
        "hash=abc".toList).result = .error .use_after_free ∧
    (LaunchRs3Deb sampleLauncher sampleWorld 10 { post_data := some ["!<arch>".toList] }
        "hash=abc".toList).effects =
      [.alloc .deb, .alloc .ar, .alloc .tar_xz, .archive_read_data .ar 3, .free .ar,
       .free .deb, .alloc .xz, .alloc .game, .archive_read_data .ar 2] :=
  ⟨rfl, rfl⟩

/-- The witness of `ParseQuery_visits_pairs`: `hash=abc&config_uri=http%3A%2F%2Fx` gives
(`hash`, `abc`) then (`config_uri`, `http%3A%2F%2Fx`), which the visitor of `LaunchRs3Deb`
stores decoded, `http://x` with the decoder of the examples. -/
theorem ParseQuery_visits_pairs_witness :
    (∀ p ∈ [("hash".toList, "abc".toList), ("config_uri".toList, "http%3A%2F%2Fx".toList)],
      WellFormedPair p) ∧
    queryOfPairs [("hash".toList, "abc".toList), ("config_uri".toList, "http%3A%2F%2Fx".toList)]
      = "hash=abc&config_uri=http%3A%2F%2Fx".toList ∧
    visits "hash=abc&config_uri=http%3A%2F%2Fx".toList
      = some [("hash".toList, "abc".toList), ("config_uri".toList, "http%3A%2F%2Fx".toList)] ∧
    (ParseQuery "hash=abc&config_uri=http%3A%2F%2Fx".toList (Rs3Query.visit sample_decode) {}).map
        (fun q => (q.has_hash, q.hash, q.has_config_uri, q.config_uri))
      = some (true, "abc".toList, true, "http://x".toList) :=
  ⟨by decide, by decide,
   (ParseQuery_visits_pairs
      [("hash".toList, "abc".toList), ("config_uri".toList, "http%3A%2F%2Fx".toList)]
      (by decide)).1,
   by decide⟩

/-- C7: on a query made of `&`-joined segments, each a well-formed pair `k=v` or a junk
segment with neither `=` nor `&` (possibly empty), `ParseQuery` returns and calls its visitor
exactly on the well-formed pairs, in order, and on nothing else. -/
theorem ParseQuery_drops_junk (segs : List Segment) (hwf : ∀ s ∈ segs, s.WellFormed) :
    visits (queryOfSegments segs) = some (pairsOf segs) ∧
    ∀ (σ : Type) (callback : Str → Str → σ → σ) (st : σ),
      ParseQuery (queryOfSegments segs) callback st
        = some (applyCalls callback st (pairsOf segs)) := by
  refine ⟨?_, fun σ callback st => ParseQuery_segments callback segs hwf st⟩
  have := ParseQuery_segments record segs hwf []
  rw [applyCalls_record] at this
  simpa [visits] using this

/-- The witness of `ParseQuery_drops_junk`: `a&b=c` visits only (`b`, `c`). -/
theorem ParseQuery_drops_junk_witness :
    (∀ s ∈ [Segment.junk "a".toList, Segment.pair "b".toList "c".toList], s.WellFormed) ∧
    queryOfSegments [Segment.junk "a".toList, Segment.pair "b".toList "c".toList]
      = "a&b=c".toList ∧
    visits "a&b=c".toList = some [("b".toList, "c".toList)] ∧
    visits "y=z&".toList = some [("y".toList, "z".toList)] :=
  ⟨by decide, by decide,
   (ParseQuery_drops_junk [Segment.junk "a".toList, Segment.pair "b".toList "c".toList]
      (by decide)).1,
   by decide⟩

/-- The witness of `byte_accounting`: on `hello`, `Read(2)`, `Skip(1)`, `Read(10)`,
`Read(1)` deliver 2 + 1 + 2 + 0 = 5 bytes. -/
theorem byte_accounting_witness :
    "hello".toList.length < 2 ^ 63 ∧
    (∀ c ∈ [Call.Read 2, Call.Skip 1, Call.Read 10, Call.Read 1], c.NonNegSize) ∧
    delivered ((ResourceHandler.create "hello".toList).history
      [Call.Read 2, Call.Skip 1, Call.Read 10, Call.Read 1]) = 5 :=
  ⟨by decide, by decide,
   ((byte_accounting "hello".toList [Call.Read 2, Call.Skip 1, Call.Read 10, Call.Read 1]
      (by decide) (by decide)).1).trans (by decide)⟩

/-- The witness of `cursor_invariant`: on `hello`, `Read(2)`, `Cancel`, `Skip(1)`. -/
theorem cursor_invariant_witness :
    "hello".toList.length < 2 ^ 63 ∧
    (∀ c ∈ [Call.Read 2, Call.Cancel, Call.Skip 1], c.InRange ∧ 0 ≤ c.requested) ∧
    ((ResourceHandler.create "hello".toList).history
        [Call.Read 2, Call.Cancel, Call.Skip 1]).map (fun e => e.call)
      = [Call.Read 2, Call.Cancel, Call.Skip 1] ∧
    (∀ e ∈ (ResourceHandler.create "hello".toList).history
        [Call.Read 2, Call.Cancel, Call.Skip 1],
      e.result.fault = none ∧
      e.result.handler.cursor ≤ "hello".toList.length ∧
      e.before.cursor ≤ e.result.handler.cursor ∧
      ∀ m ∈ e.result.copy, m.offset + m.count ≤ "hello".toList.length) :=
  ⟨by decide, by decide,
   (cursor_invariant "hello".toList [Call.Read 2, Call.Cancel, Call.Skip 1]
      (by decide) (by decide)).1,
   (cursor_invariant "hello".toList [Call.Read 2, Call.Cancel, Call.Skip 1]
      (by decide) (by decide)).2⟩

/-- The witness of `FindJava_home_first`: `JAVA_HOME=/jdk` holds `bin/java`, and so does the
`PATH` segment `/usr/bin`. -/
theorem FindJava_home_first_witness :
    FindJava (fun p => some (p == "/jdk/bin/java".toList || p == "/usr/bin/java".toList))
        (some "/jdk".toList) (some "/bin:/usr/bin".toList) =
      .ok { ret := true, out := some "/jdk/bin/java".toList,
            probes := ["/jdk/bin/java".toList] } :=
  FindJava_home_first
    (fun p => some (p == "/jdk/bin/java".toList || p == "/usr/bin/java".toList))
    "/jdk".toList (some "/bin:/usr/bin".toList) (by decide)

theorem find_shift (pre rest : Str) (c : Char) (pos : Nat) :
    find (pre ++ rest) c (pre.length + pos) = (find rest c pos).map (pre.length + ·) := by
  unfold find
  rw [List.drop_append]
  split
  · simp [Nat.add_assoc]
  · rfl

theorem substr_shift (pre rest : Str) (a b : Nat) :
    substr (pre ++ rest) (pre.length + a) (pre.length + b) = substr rest a b := by
  unfold substr
  rw [List.drop_append, Nat.add_sub_add_left]

theorem ParseQueryLoop_shift {σ : Type} (pre rest : Str) (callback : Str → Str → σ → σ) :
    ∀ (fuel pos : Nat) (st : σ),
      ParseQueryLoop (pre ++ rest) callback fuel (pre.length + pos) st =
        ParseQueryLoop rest callback fuel pos st := by
  intro fuel
  induction fuel with
  | zero => intro pos st; rfl
  | succ f ih =>
    intro pos st
    rw [ParseQueryLoop_succ, ParseQueryLoop_succ, find_shift, find_shift]
    cases find rest '=' pos with
    | none => rfl
    | some eq =>
      cases find rest '&' pos with
      | none =>
        simp only [Option.map_some', Option.map_none']
        rw [substr_shift, List.length_append, Nat.add_assoc, substr_shift]
      | some amp =>
        simp only [Option.map_some']
        rw [substr_shift, Nat.add_assoc, Nat.add_assoc (List.length pre) eq 1, substr_shift,
          ih, ih]
        simp only [gt_iff_lt, Nat.add_lt_add_iff_left]

theorem ParseQueryLoop_fuel_mono {σ : Type} (query : Str) (callback : Str → Str → σ → σ) :
    ∀ (fuel pos : Nat) (st : σ) (r : σ), ParseQueryLoop query callback fuel pos st = some r →
      ∀ more, ParseQueryLoop query callback (fuel + more) pos st = some r := by
  intro fuel
  induction fuel with
  | zero => intro pos st r h; simp [ParseQueryLoop] at h
  | succ f ih =>
    intro pos st r h more
    rw [show f + 1 + more = (f + more) + 1 by omega, ParseQueryLoop_succ]
    rw [ParseQueryLoop_succ] at h
    cases heq : find query '=' pos with
    | none => rw [heq] at h; exact h
    | some eq =>
      rw [heq] at h
      cases hamp : find query '&' pos with
      | none => rw [hamp] at h; exact h
      | some amp =>
        rw [hamp] at h
        simp only [] at h ⊢
        split
        · rename_i hlt
          rw [if_pos hlt] at h
          exact ih _ _ _ h more
        · rename_i hlt
          rw [if_neg hlt] at h
          exact ih _ _ _ h more

/-- C14: after `Cancel` the cursor equals `data_len`, so a following `Read` of any size
stores 0 in `bytes_read`, returns false, copies nothing, faults on nothing and leaves the
handler as it is; and a second `Cancel` changes nothing. This holds in every state. -/
theorem Cancel_forces_eof (h : ResourceHandler) :
    h.Cancel.cursor = h.data_len ∧ h.Cancel.data_len = h.data_len ∧
    h.Cancel.data = h.data ∧
    (∀ n : Int, (h.Cancel.Read n).count = 0 ∧ (h.Cancel.Read n).ret = false ∧
      (h.Cancel.Read n).copy = none ∧ (h.Cancel.Read n).handler = h.Cancel ∧
      (h.Cancel.Read n).fault = none) ∧
    h.Cancel.Cancel = h.Cancel := by
  refine ⟨rfl, rfl, rfl, ?_, rfl⟩
  intro n
  have hc : h.Cancel.cursor = h.Cancel.data_len := rfl
  unfold ResourceHandler.Read
  rw [if_pos hc]
  exact ⟨rfl, rfl, rfl, rfl, rfl⟩

theorem visits_empty_key (v rest : Str) (hv : '&' ∉ v) :
    visits ('=' :: v ++ '&' :: rest) = (visits rest).map (([], v) :: ·) := by
  obtain ⟨calls, hcalls⟩ := visits_total rest
  have hfind_eq : find ('=' :: v ++ '&' :: rest) '=' 0 = some 0 := by
    simp [find]
  have hfind_amp : find ('=' :: v ++ '&' :: rest) '&' 0 = some (v.length + 1) := by
    have := find_some_at ('=' :: v ++ '&' :: rest) [] ('=' :: v) rest '&' 0 (by simp) rfl
      (by simp [hv])
    simpa using this
  have hkey : substr ('=' :: v ++ '&' :: rest) 0 0 = [] := by simp [substr]
  have hval : substr ('=' :: v ++ '&' :: rest) (0 + 1) (v.length + 1) = v := by
    simp [substr]
  have hshift := ParseQueryLoop_shift ('=' :: v ++ ['&']) rest record
    (('=' :: v ++ '&' :: rest).length) 0 (record [] v [])
  have hlen : ('=' :: v ++ ['&']).length + 0 = v.length + 1 + 1 := by simp
  have happ : '=' :: v ++ ['&'] ++ rest = '=' :: v ++ '&' :: rest := by simp
  rw [hlen, happ] at hshift
  have hrec := ParseQueryLoop_record rest record (('=' :: v ++ '&' :: rest).length) 0
    [([], v)] []
  have hmono := ParseQueryLoop_fuel_mono rest record (rest.length + 1) 0 [] calls hcalls
    (v.length + 1)
  have hfuel : rest.length + 1 + (v.length + 1) = ('=' :: v ++ '&' :: rest).length := by
    simp; omega
  rw [hfuel] at hmono
  unfold visits ParseQuery
  rw [ParseQueryLoop_succ, hfind_eq, hfind_amp]
  simp only []
  rw [if_neg (by omega), hkey, hval, hshift]
  have happly : applyCalls record [([], v)] [] = record [] v [] := rfl
  rw [← happly, hrec, hmono]
  have hcalls2 : ParseQueryLoop rest record (rest.length + 1) 0 [] = some calls := hcalls
  rw [hcalls2]
  simp [applyCalls_record]

/-- C15 as stated fails: on `=x&y=z` the visitor is called with the empty key and the value
`x` before it is called with (`y`, `z`). -/
theorem empty_key_counterexample :
    '&' ∉ "x".toList ∧
    visits "=x&y=z".toList = some [([], "x".toList), ("y".toList, "z".toList)] ∧
    visits "y=z".toList = some [("y".toList, "z".toList)] ∧
    visits "=x&y=z".toList ≠ visits "y=z".toList := by
  decide

/-- C15, amended: on a query `=v&rest` with `v` free of `&`, `ParseQuery` first calls the
visitor with the empty key and the value `v`, and then makes exactly the calls it makes on
`rest`; the visitors of the three orchestrators store nothing for the empty key, so the
parameters they end up with are those of `rest`. -/
theorem empty_key_visited (v rest : Str) (hv : '&' ∉ v) :
    visits ('=' :: v ++ '&' :: rest) = (visits rest).map (([], v) :: ·) ∧
    (∀ (decode : Str → Str) (q : Rs3Query),
      ParseQuery ('=' :: v ++ '&' :: rest) (Rs3Query.visit decode) q =
        ParseQuery rest (Rs3Query.visit decode) q) ∧
    (∀ (decode : Str → Str) (q : RuneliteQuery),
      ParseQuery ('=' :: v ++ '&' :: rest) (RuneliteQuery.visit decode) q =
        ParseQuery rest (RuneliteQuery.visit decode) q) ∧
    (∀ (decode : Str → Str) (q : HdosQuery),
      ParseQuery ('=' :: v ++ '&' :: rest) (HdosQuery.visit decode) q =
        ParseQuery rest (HdosQuery.visit decode) q) := by
  have hvis := visits_empty_key v rest hv
  obtain ⟨calls, hcalls⟩ := visits_total rest
  refine ⟨hvis, ?_, ?_, ?_⟩
  · intro decode q
    rw [ParseQuery_eq_visits, ParseQuery_eq_visits, hvis, hcalls]
    rfl
  · intro decode q
    rw [ParseQuery_eq_visits, ParseQuery_eq_visits, hvis, hcalls]
    rfl
  · intro decode q
    rw [ParseQuery_eq_visits, ParseQuery_eq_visits, hvis, hcalls]
    rfl

/-- The witness of `empty_key_visited`: `=x&y=z` visits (empty key, `x`) and then what `y=z`
gives. -/
theorem empty_key_visited_witness :
    '&' ∉ "x".toList ∧
    visits ('=' :: "x".toList ++ '&' :: "y=z".toList)
      = (visits "y=z".toList).map (([], "x".toList) :: ·) :=
  ⟨by decide, (empty_key_visited "x".toList "y=z".toList (by decide)).1⟩

/-! ## Theorems: failing runs of `LaunchRs3Deb` -/

theorem read_loop_stuck (handle : Obj) (answer : Nat → Nat → ReadData) (size : Int)
    (hans : ∀ k n, (answer k n).ret ≤ 0 ∧ (answer k n).bytes = []) :
    ∀ (fuel k : Nat) (written : Int) (buf : Str) (eff : List Effect), written < size →
      (read_loop handle (some answer) size fuel k written buf eff).result
        = .error .out_of_fuel := by
  intro fuel
  induction fuel with
  | zero => intro k written buf eff _; rfl
  | succ f ih =>
    intro k written buf eff hlt
    unfold read_loop
    rw [if_pos hlt]
    simp only []
    rw [if_pos (Or.inl (hans k _).2)]
    exact ih _ _ _ _ (by have := (hans k (to_size_t (size - written))).1; omega)

theorem LaunchRs3Deb_stuck (L : Launcher) (w : World) (fuel : Nat) (request : Request)
    (query deb : Str) (entry : Entry) (hhash : HasParam query "hash".toList)
    (hpost : request.post_data = some [deb])
    (hscan : scan_deb (w.ar_open deb) = .found entry) (hsize : 0 < entry.size)
    (hans : ∀ k n, (entry.read_data k n).ret ≤ 0 ∧ (entry.read_data k n).bytes = []) :
    (LaunchRs3Deb L w fuel request query).result = .error .out_of_fuel := by
  obtain ⟨q, hq, hiff⟩ := Rs3Query_parse w.decode query
  have hh : q.has_hash = true := hiff.mpr hhash
  have hrd := read_loop_stuck .ar entry.read_data entry.size hans fuel 0 0
    (List.replicate entry.size.toNat '\x00') [.alloc .deb, .alloc .ar, .alloc .tar_xz] hsize
  have hex : (extract_deb L w fuel deb).result = .error .out_of_fuel := by
    unfold extract_deb
    simp only [hscan]
    rw [if_neg (by omega)]
    simp only [List.cons_append, List.nil_append, hrd]
  unfold LaunchRs3Deb
  simp only [hq, hh, if_true, hpost, hex]

/-- C16, the code at two failing inputs: a `.deb` whose `data.tar.xz` declares 3 bytes while
every `archive_read_data` on it returns 0 (premature end of the data), or returns the error
code -30. The loop `while (written < entry_size)` has no exit for either: whatever the fuel,
the run is still inside the loop, no 400 response is made, and with the error code `written`
is -30 after the first turn. -/
theorem LaunchRs3Deb_read_loop_never_leaves :
    (∀ fuel, (LaunchRs3Deb sampleLauncher sampleWorldTruncated fuel
        { post_data := some ["!<arch>".toList] } "hash=abc".toList).result
      = .error .out_of_fuel) ∧
    (∀ fuel, (LaunchRs3Deb sampleLauncher sampleWorldUnreadable fuel
        { post_data := some ["!<arch>".toList] } "hash=abc".toList).result
      = .error .out_of_fuel) ∧
    (∀ (fuel : Nat) (buf : Str) (eff : List Effect),
      read_loop .ar (some fun _ _ => { ret := -30, bytes := [] }) 3 (fuel + 1) 0 0 buf eff =
        read_loop .ar (some fun _ _ => { ret := -30, bytes := [] }) 3 fuel 1 (-30)
          (store buf 0 []) (eff ++ [.archive_read_data .ar 3])) := by
  refine ⟨?_, ?_, ?_⟩
  · intro fuel
    exact LaunchRs3Deb_stuck sampleLauncher sampleWorldTruncated fuel _ _ "!<arch>".toList
      { pathname := "data.tar.xz".toList, size := 3,
        read_data := fun _ _ => { ret := 0, bytes := [] } }
      (by decide) rfl rfl (by decide) (fun _ _ => ⟨le_refl _, rfl⟩)
  · intro fuel
    exact LaunchRs3Deb_stuck sampleLauncher sampleWorldUnreadable fuel _ _ "!<arch>".toList
      { pathname := "data.tar.xz".toList, size := 3,
        read_data := fun _ _ => { ret := -30, bytes := [] } }
      (by decide) rfl rfl (by decide)
      (fun _ _ => ⟨show (-30 : Int) ≤ 0 by decide, rfl⟩)
  · intro fuel buf eff
    rfl

/-- C17, the code at a failing input: an inner archive with the entries
`./usr/share/icons//tmp/evil/`, `./usr/share/icons//tmp/evil/a.png` (empty) and
`./usr/share/icons/../../x/`. The icons directory is `/home/u/.local/share/icons`; the run
calls `mkdir` on `/tmp/evil/`, opens `/tmp/evil/a.png` for writing, and calls `mkdir` on
`/home/u/.local/share/icons/../../x/`, which names `/home/u/.local/x/`. -/
theorem LaunchRs3Deb_icon_leaves_icons_dir :
    path_append (parent_path sampleLauncher.data_dir) "icons".toList
      = "/home/u/.local/share/icons".toList ∧
    Effect.mkdir "/tmp/evil/".toList 0o755 ∈
      (LaunchRs3Deb sampleLauncher sampleWorldIcons 10 { post_data := some ["!<arch>".toList] }
        "hash=abc".toList).effects ∧
    Effect.open_file "/tmp/evil/a.png".toList 0o755 true ∈
      (LaunchRs3Deb sampleLauncher sampleWorldIcons 10 { post_data := some ["!<arch>".toList] }
        "hash=abc".toList).effects ∧
    Effect.mkdir "/home/u/.local/share/icons/../../x/".toList 0o755 ∈
      (LaunchRs3Deb sampleLauncher sampleWorldIcons 10 { post_data := some ["!<arch>".toList] }
        "hash=abc".toList).effects ∧
    "/home/u/.local/share/icons".toList.isPrefixOf "/tmp/evil/".toList = false ∧
    "/home/u/.local/share/icons".toList.isPrefixOf "/tmp/evil/a.png".toList = false := by
  decide

/-- C18, the code at two failing inputs: an inner archive with one empty icon file and an
empty game binary. When `open` fails on `rs3_path`, the run returns 500 with `tar_xz` and `xz`
still allocated; when `open` fails on the icon's path, the run goes on to the 200 response
with `icon` still allocated. With no failing `open` nothing stays allocated. -/
theorem LaunchRs3Deb_leaves_allocations :
    (LaunchRs3Deb sampleLauncher (sampleWorldBusy [sampleLauncher.rs3_path]) 10
        { post_data := some ["!<arch>".toList] } "hash=abc".toList).result
      = .ok { status := 500, mime := "text/plain".toList,
              body := ("Failed to save executable; if the game is already running, " ++
                "close it and try again\n").toList } ∧
    live_after [] (LaunchRs3Deb sampleLauncher (sampleWorldBusy [sampleLauncher.rs3_path]) 10
        { post_data := some ["!<arch>".toList] } "hash=abc".toList).effects
      = [.tar_xz, .xz] ∧
    (LaunchRs3Deb sampleLauncher
        (sampleWorldBusy ["/home/u/.local/share/icons/hicolor/a.png".toList]) 10
        { post_data := some ["!<arch>".toList] } "hash=abc".toList).result
      = .ok { status := 200, mime := "text/plain".toList, body := "OK\n".toList } ∧
    live_after [] (LaunchRs3Deb sampleLauncher
        (sampleWorldBusy ["/home/u/.local/share/icons/hicolor/a.png".toList]) 10
        { post_data := some ["!<arch>".toList] } "hash=abc".toList).effects
      = [.icon] ∧
    live_after [] (LaunchRs3Deb sampleLauncher (sampleWorldBusy []) 10
        { post_data := some ["!<arch>".toList] } "hash=abc".toList).effects = [] :=
  ⟨rfl, rfl, rfl, rfl, rfl⟩

/-! ## Theorems: the spawn and the marker files -/

theorem last_value_cons (name : Str) (kv : Str × Str) (rest : List (Str × Str)) :
    last_value name (kv :: rest) =
      match last_value name rest with
      | some v => some v
      | none => if kv.1 = name then some kv.2 else none :=
  rfl

theorem applyCalls_field {σ : Type} (visit : Str → Str → σ → σ) (g : σ → Option Str)
    (decode : Str → Str) (name : Str)
    (hstep : ∀ key val q, g (visit key val q) = if key = name then some (decode val) else g q)
    (calls : List (Str × Str)) :
    ∀ q, g (applyCalls visit q calls) =
      match last_value name calls with
      | some v => some (decode v)
      | none => g q := by
  induction calls with
  | nil => intro q; rfl
  | cons kv rest ih =>
    intro q
    show g (applyCalls visit (visit kv.1 kv.2 q) rest) = _
    rw [ih, hstep, last_value_cons]
    generalize last_value name rest = lv
    cases lv with
    | some v => rfl
    | none =>
      by_cases h : kv.1 = name
      · simp only [h, if_true]
      · simp only [h, if_false]

theorem parse_field {σ : Type} (visit : Str → Str → σ → σ) (g : σ → Option Str)
    (decode : Str → Str) (name query : Str) (q0 q : σ) (h0 : g q0 = none)
    (hstep : ∀ key val q, g (visit key val q) = if key = name then some (decode val) else g q)
    (hq : ParseQuery query visit q0 = some q) :
    g q = paramValue decode query name := by
  obtain ⟨calls, hc⟩ := visits_total query
  rw [ParseQuery_eq_visits, hc] at hq
  simp only [Option.map_some', Option.some.injEq] at hq
  rw [← hq, applyCalls_field visit g decode name hstep calls q0, h0]
  unfold paramValue
  rw [hc]
  simp only []
  cases last_value name calls <;> rfl

theorem Rs3Query_params (decode : Str → Str) (query : Str) (q : Rs3Query)
    (hq : ParseQuery query (Rs3Query.visit decode) {} = some q) :
    (if q.has_hash then some q.hash else none)
      = paramValue decode query "hash".toList ∧
    (if q.has_config_uri then some q.config_uri else none)
      = paramValue decode query "config_uri".toList ∧
    (if q.has_jx_session_id then some q.jx_session_id else none)
      = paramValue decode query "jx_session_id".toList ∧
    (if q.has_jx_character_id then some q.jx_character_id else none)
      = paramValue decode query "jx_character_id".toList ∧
    (if q.has_jx_display_name then some q.jx_display_name else none)
      = paramValue decode query "jx_display_name".toList := by
  refine ⟨?_, ?_, ?_, ?_, ?_⟩
  · refine parse_field (Rs3Query.visit decode)
      (fun q => if q.has_hash then some q.hash else none) decode _ query {} q
      rfl ?_ hq
    intro key val q
    by_cases h : key = "hash".toList
    · subst h; rfl
    · rw [if_neg h]; unfold Rs3Query.visit; split_ifs <;> rfl
  · refine parse_field (Rs3Query.visit decode)
      (fun q => if q.has_config_uri then some q.config_uri else none) decode _ query {} q
      rfl ?_ hq
    intro key val q
    by_cases h : key = "config_uri".toList
    · subst h; rfl
    · rw [if_neg h]; unfold Rs3Query.visit; split_ifs <;> rfl
  · refine parse_field (Rs3Query.visit decode)
      (fun q => if q.has_jx_session_id then some q.jx_session_id else none) decode _ query {} q
      rfl ?_ hq
    intro key val q
    by_cases h : key = "jx_session_id".toList
    · subst h; rfl
    · rw [if_neg h]; unfold Rs3Query.visit; split_ifs <;> rfl
  · refine parse_field (Rs3Query.visit decode)
      (fun q => if q.has_jx_character_id then some q.jx_character_id else none) decode _ query {} q
      rfl ?_ hq
    intro key val q
    by_cases h : key = "jx_character_id".toList
    · subst h; rfl
    · rw [if_neg h]; unfold Rs3Query.visit; split_ifs <;> rfl
  · refine parse_field (Rs3Query.visit decode)
      (fun q => if q.has_jx_display_name then some q.jx_display_name else none) decode _ query {} q
      rfl ?_ hq
    intro key val q
    by_cases h : key = "jx_display_name".toList
    · subst h; rfl
    · rw [if_neg h]; unfold Rs3Query.visit; split_ifs <;> rfl

theorem RuneliteQuery_params (decode : Str → Str) (query : Str) (q : RuneliteQuery)
    (hq : ParseQuery query (RuneliteQuery.visit decode) {} = some q) :
    (if q.has_rl_path then some q.rl_path else none)
      = paramValue decode query "rl_path".toList ∧
    (if q.has_id then some q.id else none)
      = paramValue decode query "id".toList ∧
    (if q.has_jx_session_id then some q.jx_session_id else none)
      = paramValue decode query "jx_session_id".toList ∧
    (if q.has_jx_character_id then some q.jx_character_id else none)
      = paramValue decode query "jx_character_id".toList ∧
    (if q.has_jx_display_name then some q.jx_display_name else none)
      = paramValue decode query "jx_display_name".toList := by
  refine ⟨?_, ?_, ?_, ?_, ?_⟩
  · refine parse_field (RuneliteQuery.visit decode)
      (fun q => if q.has_rl_path then some q.rl_path else none) decode _ query {} q
      rfl ?_ hq
    intro key val q
    by_cases h : key = "rl_path".toList
    · subst h; rfl
    · rw [if_neg h]; unfold RuneliteQuery.visit; split_ifs <;> rfl
  · refine parse_field (RuneliteQuery.visit decode)
      (fun q => if q.has_id then some q.id else none) decode _ query {} q
      rfl ?_ hq
    intro key val q
    by_cases h : key = "id".toList
    · subst h; rfl
    · rw [if_neg h]; unfold RuneliteQuery.visit; split_ifs <;> rfl
  · refine parse_field (RuneliteQuery.visit decode)
      (fun q => if q.has_jx_session_id then some q.jx_session_id else none) decode _ query {} q
      rfl ?_ hq
    intro key val q
    by_cases h : key = "jx_session_id".toList
    · subst h; rfl
    · rw [if_neg h]; unfold RuneliteQuery.visit; split_ifs <;> rfl
  · refine parse_field (RuneliteQuery.visit decode)
      (fun q => if q.has_jx_character_id then some q.jx_character_id else none) decode _ query {} q
      rfl ?_ hq
    intro key val q
    by_cases h : key = "jx_character_id".toList
    · subst h; rfl
    · rw [if_neg h]; unfold RuneliteQuery.visit; split_ifs <;> rfl
  · refine parse_field (RuneliteQuery.visit decode)
      (fun q => if q.has_jx_display_name then some q.jx_display_name else none) decode _ query {} q
      rfl ?_ hq
    intro key val q
    by_cases h : key = "jx_display_name".toList
    · subst h; rfl
    · rw [if_neg h]; unfold RuneliteQuery.visit; split_ifs <;> rfl

theorem HdosQuery_params (decode : Str → Str) (query : Str) (q : HdosQuery)
    (hq : ParseQuery query (HdosQuery.visit decode) {} = some q) :
    (if q.has_version then some q.version else none)
      = paramValue decode query "version".toList ∧
    (if q.has_jx_session_id then some q.jx_session_id else none)
      = paramValue decode query "jx_session_id".toList ∧
    (if q.has_jx_character_id then some q.jx_character_id else none)
      = paramValue decode query "jx_character_id".toList ∧
    (if q.has_jx_display_name then some q.jx_display_name else none)
      = paramValue decode query "jx_display_name".toList := by
  refine ⟨?_, ?_, ?_, ?_⟩
  · refine parse_field (HdosQuery.visit decode)
      (fun q => if q.has_version then some q.version else none) decode _ query {} q
      rfl ?_ hq
    intro key val q
    by_cases h : key = "version".toList
    · subst h; rfl
    · rw [if_neg h]; unfold HdosQuery.visit; split_ifs <;> rfl
  · refine parse_field (HdosQuery.visit decode)
      (fun q => if q.has_jx_session_id then some q.jx_session_id else none) decode _ query {} q
      rfl ?_ hq
    intro key val q
    by_cases h : key = "jx_session_id".toList
    · subst h; rfl
    · rw [if_neg h]; unfold HdosQuery.visit; split_ifs <;> rfl
  · refine parse_field (HdosQuery.visit decode)
      (fun q => if q.has_jx_character_id then some q.jx_character_id else none) decode _ query {} q
      rfl ?_ hq
    intro key val q
    by_cases h : key = "jx_character_id".toList
    · subst h; rfl
    · rw [if_neg h]; unfold HdosQuery.visit; split_ifs <;> rfl
  · refine parse_field (HdosQuery.visit decode)
      (fun q => if q.has_jx_display_name then some q.jx_display_name else none) decode _ query {} q
      rfl ?_ hq
    intro key val q
    by_cases h : key = "jx_display_name".toList
    · subst h; rfl
    · rw [if_neg h]; unfold HdosQuery.visit; split_ifs <;> rfl


theorem all_snoc (p : Effect → Bool) (eff : List Effect) (e : Effect)
    (h : eff.all p = true) (he : p e = true) : (eff ++ [e]).all p = true := by
  simp [List.all_append, h, he]

theorem all_append_of (p : Effect → Bool) (a b : List Effect)
    (ha : a.all p = true) (hb : b.all p = true) : (a ++ b).all p = true := by
  rw [List.all_append, ha, hb]; rfl

theorem all_pair (p : Effect → Bool) (a b : Effect) (ha : p a = true) (hb : p b = true) :
    [a, b].all p = true := by
  simp [ha, hb]

theorem all_triple (p : Effect → Bool) (a b c : Effect) (ha : p a = true) (hb : p b = true)
    (hc : p c = true) : [a, b, c].all p = true := by
  simp [ha, hb, hc]

theorem acceptsOthers_not_fork : AcceptsOthers (fun e => !e.isFork) := by
  intro e hf _
  show (!e.isFork) = true
  rw [hf]; rfl

theorem read_loop_all (p : Effect → Bool) (handle : Obj)
    (live : Option (Nat → Nat → ReadData)) (size : Int)
    (hp : ∀ n, p (.archive_read_data handle n) = true) :
    ∀ (fuel k : Nat) (written : Int) (buf : Str) (eff : List Effect), eff.all p = true →
      (read_loop handle live size fuel k written buf eff).effects.all p = true := by
  intro fuel
  induction fuel with
  | zero => intro k written buf eff h; exact h
  | succ f ih =>
    intro k written buf eff h
    unfold read_loop
    split
    · cases live with
      | none => exact all_snoc p _ _ h (hp _)
      | some answer =>
        simp only []
        split
        · exact ih _ _ _ _ (all_snoc p _ _ h (hp _))
        · exact all_snoc p _ _ h (hp _)
    · exact h

theorem write_loop_long_all (p : Effect → Bool) (w : World) (path buf : Str) (size : Int)
    (hp : ∀ b, p (.write path b) = true) :
    ∀ (fuel k : Nat) (written : Int) (eff : List Effect), eff.all p = true →
      (write_loop_long w path buf size fuel k written eff).effects.all p = true := by
  intro fuel
  induction fuel with
  | zero => intro k written eff h; exact h
  | succ f ih =>
    intro k written eff h
    unfold write_loop_long
    split
    · split
      · exact h
      · exact ih _ _ _ (all_snoc p _ _ h (hp _))
    · exact h

theorem write_loop_size_t_all (p : Effect → Bool) (w : World) (path buf : Str) (size : Nat)
    (hp : ∀ b, p (.write path b) = true) :
    ∀ (fuel k written : Nat) (eff : List Effect), eff.all p = true →
      (write_loop_size_t w path buf size fuel k written eff).effects.all p = true := by
  intro fuel
  induction fuel with
  | zero => intro k written eff h; exact h
  | succ f ih =>
    intro k written eff h
    unfold write_loop_size_t
    split
    · exact ih _ _ _ (all_snoc p _ _ h (hp _))
    · exact h

theorem save_game_all (p : Effect → Bool) (hq : AcceptsOthers p) (L : Launcher) (w : World)
    (fuel : Nat) (entry : Entry) (eff : List Effect)
    (hopen : ∀ ok, p (.open_file L.rs3_path 0o755 ok) = true) (h : eff.all p = true) :
    (save_game L w fuel entry eff).effects.all p = true ∧
    ∀ r, (save_game L w fuel entry eff).result = .ok (some r) → r.status = 500 := by
  unfold save_game
  split
  · exact ⟨h, fun r hr => by cases hr⟩
  · have hrd := read_loop_all p .ar none entry.size (fun _ => hq _ rfl rfl) fuel 0 0
      (List.replicate entry.size.toNat '\x00') (eff ++ [.alloc .game])
      (all_snoc p eff (.alloc .game) h (hq _ rfl rfl))
    simp only []
    split
    · exact ⟨hrd, fun r hr => by cases hr⟩
    · rename_i game _
      split
      · have hwr := write_loop_long_all p w L.rs3_path game entry.size
          (fun _ => hq _ rfl rfl) fuel 0 0
          ((read_loop .ar none entry.size fuel 0 0 (List.replicate entry.size.toNat '\x00')
            (eff ++ [.alloc .game])).effects ++ [.open_file L.rs3_path 0o755 true])
          (all_snoc _ _ _ hrd (hopen true))
        split
        · exact ⟨hwr, fun r hr => by cases hr⟩
        · exact ⟨all_append_of _ _ _ hwr
            (all_pair p (.close L.rs3_path) (.free .game) (hq _ rfl rfl) (hq _ rfl rfl)),
            fun r hr => by cases hr⟩
      · refine ⟨all_append_of _ _ _ hrd
          (all_pair p (.open_file L.rs3_path 0o755 false) (.free .game) (hopen false)
            (hq _ rfl rfl)), ?_⟩
        intro r hr
        have := Option.some.inj (Except.ok.inj hr)
        rw [← this]

theorem save_icon_all (p : Effect → Bool) (hq : AcceptsOthers p) (w : World) (fuel : Nat)
    (icons_dir : Str) (entry : Entry) (eff : List Effect)
    (hopen : ∀ ok, p (.open_file
      (path_append icons_dir (entry.pathname.drop tar_xz_icons_path.length)) 0o755 ok) = true)
    (h : eff.all p = true) :
    (save_icon w fuel icons_dir entry eff).effects.all p = true := by
  unfold save_icon
  simp only []
  split
  · exact all_snoc _ _ _ h (hq _ rfl rfl)
  · split
    · exact h
    · have hrd := read_loop_all p .ar none entry.size (fun _ => hq _ rfl rfl) fuel 0 0
        (List.replicate entry.size.toNat '\x00') (eff ++ [.alloc .icon])
        (all_snoc p eff (.alloc .icon) h (hq _ rfl rfl))
      split
      · exact hrd
      · rename_i icon _
        split
        · have hwr := write_loop_long_all p w
            (path_append icons_dir (entry.pathname.drop tar_xz_icons_path.length)) icon
            entry.size (fun _ => hq _ rfl rfl) fuel 0 0
            ((read_loop .ar none entry.size fuel 0 0 (List.replicate entry.size.toNat '\x00')
              (eff ++ [.alloc .icon])).effects ++
              [.open_file (path_append icons_dir (entry.pathname.drop tar_xz_icons_path.length))
                0o755 true])
            (all_snoc _ _ _ hrd (hopen true))
          split
          · exact hwr
          · exact all_append_of _ _ _ hwr
              (all_pair p (.close _) (.free .icon) (hq _ rfl rfl) (hq _ rfl rfl))
        · exact all_append_of _ _ _ hrd
            (all_pair p (.open_file _ 0o755 false) (.print _) (hopen false) (hq _ rfl rfl))

theorem scan_tar_xz_all (p : Effect → Bool) (hq : AcceptsOthers p) (L : Launcher) (w : World)
    (fuel : Nat) (icons_dir : Str)
    (hgame : ∀ ok, p (.open_file L.rs3_path 0o755 ok) = true) (archive : Archive) :
    (∀ entry, NextHeader.ok entry ∈ archive →
      tar_xz_icons_path.isPrefixOf entry.pathname = true → ∀ ok, p (.open_file
      (path_append icons_dir (entry.pathname.drop tar_xz_icons_path.length)) 0o755 ok)
        = true) →
    ∀ (entry_found : Bool) (eff : List Effect), eff.all p = true →
      (scan_tar_xz L w fuel icons_dir archive entry_found eff).effects.all p = true ∧
      ∀ r, (scan_tar_xz L w fuel icons_dir archive entry_found eff).result
        = .ok (.returned r) → r.status = 400 ∨ r.status = 500 := by
  induction archive with
  | nil => intro _ entry_found eff h; exact ⟨h, fun r hr => by cases hr⟩
  | cons x rest ih =>
    intro hicons entry_found eff h
    have hrest := ih (fun entry he => hicons entry (List.mem_cons_of_mem _ he))
    cases x with
    | failed r =>
      unfold scan_tar_xz
      refine ⟨all_append_of _ _ _ h
        (all_pair p (.free .xz) (.free .tar_xz) (hq _ rfl rfl) (hq _ rfl rfl)), ?_⟩
      intro r hr
      have := InnerScan.returned.inj (Except.ok.inj hr)
      rw [← this]; exact Or.inl rfl
    | ok entry =>
      unfold scan_tar_xz
      split
      · obtain ⟨hg, hgs⟩ := save_game_all p hq L w fuel entry eff hgame h
        simp only []
        split
        · exact ⟨hg, fun r hr => by cases hr⟩
        · rename_i response hres
          refine ⟨hg, ?_⟩
          intro r hr
          have := InnerScan.returned.inj (Except.ok.inj hr)
          rw [← this]; exact Or.inr (hgs response hres)
        · exact hrest _ _ hg
      · split
        · rename_i hprefix
          have hi := save_icon_all p hq w fuel icons_dir entry eff
            (hicons entry (List.mem_cons_self _ _) hprefix) h
          simp only []
          split
          · exact ⟨hi, fun r hr => by cases hr⟩
          · exact hrest _ _ hi
        · exact hrest _ _ h

theorem extract_deb_all (p : Effect → Bool) (hq : AcceptsOthers p) (L : Launcher) (w : World)
    (fuel : Nat) (deb : Str)
    (hgame : ∀ ok, p (.open_file L.rs3_path 0o755 ok) = true)
    (hicons : ∀ buf entry, NextHeader.ok entry ∈ w.tar_xz_open buf →
      tar_xz_icons_path.isPrefixOf entry.pathname = true → ∀ ok, p (.open_file
      (path_append (path_append (parent_path L.data_dir) "icons".toList)
        (entry.pathname.drop tar_xz_icons_path.length)) 0o755 ok) = true) :
    (extract_deb L w fuel deb).effects.all p = true ∧
    ∀ r, (extract_deb L w fuel deb).result = .ok (some r) →
      r.status = 400 ∨ r.status = 500 := by
  have h2 : [Effect.alloc .deb, Effect.alloc .ar].all p = true :=
    all_pair p _ _ (hq _ rfl rfl) (hq _ rfl rfl)
  have h4 : ([Effect.alloc .deb, Effect.alloc .ar] ++ [Effect.free .ar, Effect.free .deb]).all p
      = true := all_append_of _ _ _ h2 (all_pair p _ _ (hq _ rfl rfl) (hq _ rfl rfl))
  unfold extract_deb
  simp only []
  split
  · refine ⟨h4, ?_⟩
    intro r hr
    have := Option.some.inj (Except.ok.inj hr)
    rw [← this]; exact Or.inl rfl
  · refine ⟨h4, ?_⟩
    intro r hr
    have := Option.some.inj (Except.ok.inj hr)
    rw [← this]; exact Or.inl rfl
  · rename_i entry _
    split
    · exact ⟨h2, fun r hr => by cases hr⟩
    · have hrd := read_loop_all p .ar (some entry.read_data) entry.size
        (fun _ => hq _ rfl rfl) fuel 0 0 (List.replicate entry.size.toNat '\x00')
        ([Effect.alloc .deb, Effect.alloc .ar] ++ [Effect.alloc .tar_xz])
        (all_snoc _ _ _ h2 (hq _ rfl rfl))
      split
      · exact ⟨hrd, fun r hr => by cases hr⟩
      · rename_i tar_xz _
        obtain ⟨hsc, hscs⟩ := scan_tar_xz_all p hq L w fuel
          (path_append (parent_path L.data_dir) "icons".toList) hgame (w.tar_xz_open tar_xz)
          (hicons tar_xz) false
          ((read_loop .ar (some entry.read_data) entry.size fuel 0 0
            (List.replicate entry.size.toNat '\x00')
            ([Effect.alloc .deb, Effect.alloc .ar] ++ [Effect.alloc .tar_xz])).effects ++
            [Effect.free .ar, Effect.free .deb, Effect.alloc .xz])
          (all_append_of _ _ _ hrd
            (all_triple p _ _ _ (hq _ rfl rfl) (hq _ rfl rfl) (hq _ rfl rfl)))
        split
        · exact ⟨hsc, fun r hr => by cases hr⟩
        · rename_i response hres
          refine ⟨hsc, ?_⟩
          intro r hr
          have := Option.some.inj (Except.ok.inj hr)
          rw [← this]; exact hscs response hres
        · split
          · exact ⟨all_append_of _ _ _ hsc
              (all_pair p (.free .xz) (.free .tar_xz) (hq _ rfl rfl) (hq _ rfl rfl)),
              fun r hr => by cases hr⟩
          · refine ⟨all_append_of _ _ _ hsc
              (all_pair p (.free .xz) (.free .tar_xz) (hq _ rfl rfl) (hq _ rfl rfl)), ?_⟩
            intro r hr
            have := Option.some.inj (Except.ok.inj hr)
            rw [← this]; exact Or.inl rfl

theorem save_jar_all (p : Effect → Bool) (hq : AcceptsOthers p) (w : World) (fuel : Nat)
    (jar_path jar : Str) (eff : List Effect)
    (hopen : ∀ ok, p (.open_file jar_path 0o755 ok) = true) (h : eff.all p = true) :
    (save_jar w fuel jar_path jar eff).effects.all p = true ∧
    ∀ r, (save_jar w fuel jar_path jar eff).result = .ok (some r) → r.status = 500 := by
  unfold save_jar
  split
  · have hwr := write_loop_size_t_all p w jar_path jar jar.length
      (fun _ => hq _ rfl rfl) fuel 0 0
      (eff ++ [Effect.alloc .jar, Effect.open_file jar_path 0o755 true])
      (all_append_of _ eff [Effect.alloc .jar, Effect.open_file jar_path 0o755 true] h
        (all_pair p _ _ (hq _ rfl rfl) (hopen true)))
    simp only []
    split
    · exact ⟨hwr, fun r hr => by cases hr⟩
    · exact ⟨all_append_of _ _ _ hwr
        (all_pair p (.close jar_path) (.free .jar) (hq _ rfl rfl) (hq _ rfl rfl)),
        fun r hr => by cases hr⟩
  · refine ⟨all_append_of _ _ _ h
      (all_triple p (.alloc .jar) (.open_file jar_path 0o755 false) (.free .jar)
        (hq _ rfl rfl) (hopen false) (hq _ rfl rfl)), ?_⟩
    intro r hr
    have := Option.some.inj (Except.ok.inj hr)
    rw [← this]

theorem all_of_rebuild (p : Effect → Bool) (hq : AcceptsOthers p) (l : List Effect)
    (h : l.all Effect.isRebuild = true) : l.all p = true := by
  rw [List.all_eq_true] at h ⊢
  intro e he
  have := h e he
  cases e <;> first | exact hq _ rfl rfl | exact absurd this (by simp [Effect.isRebuild])

theorem not_fork_of_beforeSpawn (marker : Str) (l : List Effect)
    (h : l.all (Effect.beforeSpawn marker) = true) : l.all (fun e => !e.isFork) = true := by
  rw [List.all_eq_true] at h ⊢
  intro e he
  have := h e he
  unfold Effect.beforeSpawn at this
  rw [Bool.and_eq_true] at this
  exact this.1

theorem no_fork_of_all (l : List Effect) (h : l.all (fun e => !e.isFork) = true)
    (c : Option (List ChildAction)) : Effect.fork c ∉ l := by
  intro hc
  rw [List.all_eq_true] at h
  have := h _ hc
  simp [Effect.isFork] at this

theorem write_loop_size_t_tail (w : World) (path buf : Str) (size : Nat) :
    ∀ (fuel k written : Nat) (eff : List Effect),
      ∃ writes, (write_loop_size_t w path buf size fuel k written eff).effects = eff ++ writes ∧
        ∀ e ∈ writes, ∃ b, e = Effect.write path b := by
  intro fuel
  induction fuel with
  | zero => intro k written eff; exact ⟨[], by simp [write_loop_size_t], by simp⟩
  | succ f ih =>
    intro k written eff
    unfold write_loop_size_t
    split
    · obtain ⟨writes, h1, h2⟩ := ih (k + 1)
        (to_size_t ((written : Int) + w.write_ret path k (to_size_t ((size : Int) - written))))
        (eff ++ [.write path ((buf.drop written).take
          (w.write_ret path k (to_size_t ((size : Int) - written))).toNat)])
      refine ⟨Effect.write path ((buf.drop written).take
          (w.write_ret path k (to_size_t ((size : Int) - written))).toNat) :: writes, ?_, ?_⟩
      · simp only [h1, List.append_assoc, List.singleton_append]
      · intro e he
        simp only [List.mem_cons] at he
        rcases he with rfl | he
        · exact ⟨_, rfl⟩
        · exact h2 e he
    · exact ⟨[], by simp, by simp⟩

/-- How the tail of an orchestrator ends: no marker, a marker that cannot be opened, or a
marker that is opened and written. -/
theorem save_marker_cases (w : World) (fuel : Nat) (has_marker : Bool)
    (marker value : Str) (failed : String) (eff : List Effect) :
    (has_marker = false ∧
      save_marker w fuel has_marker marker value failed eff = respond eff 200 "OK\n") ∨
    (has_marker = true ∧ w.open_ok marker = false ∧
      save_marker w fuel has_marker marker value failed eff =
        respond (eff ++ [.open_file marker 0o644 false]) 200 failed) ∨
    (has_marker = true ∧ w.open_ok marker = true ∧
      ∃ tail, (save_marker w fuel has_marker marker value failed eff).effects =
        eff ++ Effect.open_file marker 0o644 true :: tail ∧
        ∀ e ∈ tail, (∃ b, e = Effect.write marker b) ∨ e = Effect.close marker) := by
  unfold save_marker
  cases has_marker with
  | false => left; exact ⟨rfl, rfl⟩
  | true =>
    right
    cases hop : w.open_ok marker with
    | false => left; exact ⟨rfl, rfl, by simp⟩
    | true =>
      right
      refine ⟨rfl, rfl, ?_⟩
      obtain ⟨writes, h1, h2⟩ := write_loop_size_t_tail w marker value value.length fuel 0 0
        (eff ++ [.open_file marker 0o644 true])
      simp only [if_true]
      split
      · refine ⟨writes, ?_, fun e he => Or.inl (h2 e he)⟩
        simp only [h1, List.append_assoc, List.singleton_append]
      · refine ⟨writes ++ [.close marker], ?_, ?_⟩
        · simp only [respond, h1, List.append_assoc, List.singleton_append, List.cons_append,
            List.nil_append]
        · intro e he
          simp only [List.mem_append, List.mem_singleton] at he
          rcases he with he | rfl
          · exact Or.inl (h2 e he)
          · exact Or.inr rfl

theorem save_marker_effects (w : World) (fuel : Nat) (has_marker : Bool)
    (marker value : Str) (failed : String) (eff : List Effect) :
    ∃ mtail, (save_marker w fuel has_marker marker value failed eff).effects = eff ++ mtail ∧
      (∀ e ∈ mtail, e.isFork = false) ∧
      (∀ e ∈ mtail, e.isOpen = true →
        has_marker = true ∧ e = Effect.open_file marker 0o644 (w.open_ok marker)) ∧
      (has_marker = true → Effect.open_file marker 0o644 (w.open_ok marker) ∈ mtail) := by
  rcases save_marker_cases w fuel has_marker marker value failed eff with
    ⟨hh, h⟩ | ⟨hh, hop, h⟩ | ⟨hh, hop, tail, h, ht⟩
  · refine ⟨[], by rw [h]; simp [respond], by simp, by simp, ?_⟩
    intro h2; rw [hh] at h2; cases h2
  · refine ⟨[.open_file marker 0o644 false], by rw [h]; rfl, ?_, ?_, ?_⟩
    · intro e he
      rw [List.mem_singleton] at he
      rw [he]; rfl
    · intro e he _
      rw [List.mem_singleton] at he
      rw [he, hop]
      exact ⟨hh, rfl⟩
    · intro _; rw [hop]; exact List.mem_singleton.mpr rfl
  · refine ⟨Effect.open_file marker 0o644 true :: tail, h, ?_, ?_, ?_⟩
    · intro e he
      rw [List.mem_cons] at he
      rcases he with rfl | he
      · rfl
      · rcases ht e he with ⟨b, rfl⟩ | rfl <;> rfl
    · intro e he hm
      rw [List.mem_cons] at he
      rcases he with rfl | he
      · rw [hop]; exact ⟨hh, rfl⟩
      · rcases ht e he with ⟨b, rfl⟩ | rfl <;> exact absurd hm Bool.false_ne_true
    · intro _; rw [hop]; exact List.mem_cons_self _ _

/-- The effects of a run that reaches the spawn: what came before, the `fork`, the parent's
message, and the marker step. -/
theorem spawn_effects (w : World) (fuel : Nat) (has_marker : Bool) (marker value : Str)
    (failed : String) (dir : Str) (env : List (Str × Str × Bool)) (argv : List (Option Str))
    (pre : List Effect) :
    ∃ post, (save_marker w fuel has_marker marker value failed
        (spawn w dir env argv pre)).effects =
        pre ++ Effect.fork (if w.fork_ok then some (child_actions w dir env argv) else none)
          :: post ∧
      (∀ e ∈ post, e.isFork = false) ∧
      (∀ e ∈ post, e.isOpen = true →
        has_marker = true ∧ e = Effect.open_file marker 0o644 (w.open_ok marker)) ∧
      (has_marker = true → Effect.open_file marker 0o644 (w.open_ok marker) ∈ post) := by
  obtain ⟨mtail, h, hf, hm, hin⟩ := save_marker_effects w fuel has_marker marker value failed
    (spawn w dir env argv pre)
  refine ⟨Effect.print "[B] Successfully spawned game process with pid \x7b\x7d\n".toList
    :: mtail, ?_, ?_, ?_, ?_⟩
  · rw [h]; unfold spawn
    simp only [List.append_assoc, List.cons_append, List.nil_append]
  · intro e he
    rw [List.mem_cons] at he
    rcases he with rfl | he
    · rfl
    · exact hf e he
  · intro e he hmk
    rw [List.mem_cons] at he
    rcases he with rfl | he
    · exact absurd hmk Bool.false_ne_true
    · exact hm e he hmk
  · intro hh; exact List.mem_cons_of_mem _ (hin hh)

/-- The only `fork` of a run is the one of `spawn`. -/
theorem fork_of_shape (w : World) (fuel : Nat) (run : Outcome Response) (has_marker : Bool)
    (marker value : Str) (failed : String) (dir : Str) (env : List (Str × Str × Bool))
    (argv : List (Option Str)) (pre : List Effect)
    (hpre : pre.all (fun e => !e.isFork) = true)
    (hrun : run = save_marker w fuel has_marker marker value failed
      (spawn w dir env argv pre))
    (c : Option (List ChildAction)) (hc : Effect.fork c ∈ run.effects) :
    c = if w.fork_ok then some (child_actions w dir env argv) else none := by
  obtain ⟨post, h, hf, _⟩ := spawn_effects w fuel has_marker marker value failed dir env argv pre
  rw [hrun, h, List.mem_append, List.mem_cons] at hc
  rcases hc with hc | hc | hc
  · exact absurd hc (no_fork_of_all pre hpre c)
  · exact Effect.fork.inj hc
  · exact absurd (hf _ hc) (by simp [Effect.isFork])

theorem fork_mem_of_shape (w : World) (fuel : Nat) (run : Outcome Response)
    (has_marker : Bool) (marker value : Str) (failed : String) (dir : Str)
    (env : List (Str × Str × Bool)) (argv : List (Option Str)) (pre : List Effect)
    (hrun : run = save_marker w fuel has_marker marker value failed
      (spawn w dir env argv pre)) :
    Effect.fork (if w.fork_ok then some (child_actions w dir env argv) else none)
      ∈ run.effects := by
  obtain ⟨post, h, _⟩ := spawn_effects w fuel has_marker marker value failed dir env argv pre
  rw [hrun, h]
  exact List.mem_append_right _ (List.mem_cons_self _ _)

theorem endsEarly_respond (p : Effect → Bool) (eff : List Effect) (status : Nat)
    (data : String) (h : eff.all p = true) (hs : status = 400 ∨ status = 500) :
    (respond eff status data).EndsEarly p :=
  ⟨h, fun r hr => by rw [← Except.ok.inj hr]; exact hs⟩

theorem endsEarly_error (p : Effect → Bool) (eff : List Effect) (f : Fault)
    (h : eff.all p = true) :
    Outcome.EndsEarly p ({ effects := eff, result := .error f } : Outcome Response) :=
  ⟨h, fun r hr => by cases hr⟩

theorem LaunchRs3Deb_shape (p : Effect → Bool) (hq : AcceptsOthers p) (L : Launcher)
    (w : World) (fuel : Nat) (request : Request) (query : Str)
    (hgame : ∀ ok, p (.open_file L.rs3_path 0o755 ok) = true)
    (hicons : ∀ buf entry, NextHeader.ok entry ∈ w.tar_xz_open buf →
      tar_xz_icons_path.isPrefixOf entry.pathname = true → ∀ ok, p (.open_file
      (path_append (path_append (parent_path L.data_dir) "icons".toList)
        (entry.pathname.drop tar_xz_icons_path.length)) 0o755 ok) = true) :
    ∃ q, ParseQuery query (Rs3Query.visit w.decode) {} = some q ∧
      ((LaunchRs3Deb L w fuel request query).EndsEarly p ∨
        ∃ pre, pre.all p = true ∧
          LaunchRs3Deb L w fuel request query = launch_rs3 L w fuel q pre) := by
  obtain ⟨q, hpq, _⟩ := Rs3Query_parse w.decode query
  refine ⟨q, hpq, ?_⟩
  unfold LaunchRs3Deb
  rw [hpq]
  simp only []
  cases hh : q.has_hash with
  | false =>
    simp only [Bool.false_eq_true, if_false]
    exact Or.inr ⟨[], rfl, rfl⟩
  | true =>
    simp only [if_true]
    rcases hp : request.post_data with _ | (_ | ⟨deb, _ | _⟩)
    · exact Or.inl (endsEarly_respond p [] 400 _ rfl (Or.inl rfl))
    · exact Or.inl (endsEarly_respond p [] 400 _ rfl (Or.inl rfl))
    · simp only []
      obtain ⟨hall, hst⟩ := extract_deb_all p hq L w fuel deb hgame hicons
      generalize extract_deb L w fuel deb = ex at hall hst
      obtain ⟨effs, res⟩ := ex
      cases res with
      | error f => exact Or.inl (endsEarly_error p effs f hall)
      | ok o =>
        cases o with
        | none => exact Or.inr ⟨effs, hall, rfl⟩
        | some r =>
          exact Or.inl ⟨hall, fun r2 hr => by rw [← Except.ok.inj hr]; exact hst r rfl⟩
    · exact Or.inl (endsEarly_respond p [] 400 _ rfl (Or.inl rfl))

theorem launch_runelite_shape (p : Effect → Bool) (L : Launcher) (w : World) (fuel : Nat)
    (configure : Bool) (q : RuneliteQuery) (jar_path : Str) (eff : List Effect)
    (heff : eff.all p = true) :
    (launch_runelite L w fuel configure q jar_path eff).EndsEarly p ∨
      ∃ argv, launch_runelite L w fuel configure q jar_path eff =
        save_marker w fuel q.has_id L.runelite_id_path q.id "OK, but unable to save id file\n"
          (spawn w L.data_dir
            ([("HOME".toList, L.data_dir, true)] ++
              (if q.has_jx_session_id then [("JX_SESSION_ID".toList, q.jx_session_id, true)]
                else []) ++
              (if q.has_jx_character_id then
                [("JX_CHARACTER_ID".toList, q.jx_character_id, true)] else []) ++
              (if q.has_jx_display_name then
                [("JX_DISPLAY_NAME".toList, q.jx_display_name, true)] else []))
            argv eff) := by
  unfold launch_runelite
  cases FindJava w.fs_exists w.java_home w.PATH with
  | error f => exact Or.inl (endsEarly_error p eff f heff)
  | ok found =>
    simp only []
    cases found.ret with
    | false => exact Or.inl (endsEarly_respond p eff 500 _ heff (Or.inr rfl))
    | true => exact Or.inr ⟨_, rfl⟩

theorem LaunchRuneliteJar_shape (p : Effect → Bool) (hq : AcceptsOthers p) (L : Launcher)
    (w : World) (fuel : Nat) (request : Request) (query : Str) (configure : Bool)
    (hjar : ∀ ok, p (.open_file L.runelite_path 0o755 ok) = true) :
    ∃ q, ParseQuery query (RuneliteQuery.visit w.decode) {} = some q ∧
      ((LaunchRuneliteJar L w fuel request query configure).EndsEarly p ∨
        ∃ pre argv, pre.all p = true ∧
          LaunchRuneliteJar L w fuel request query configure =
            save_marker w fuel q.has_id L.runelite_id_path q.id
              "OK, but unable to save id file\n"
              (spawn w L.data_dir
                ([("HOME".toList, L.data_dir, true)] ++
                  (if q.has_jx_session_id then
                    [("JX_SESSION_ID".toList, q.jx_session_id, true)] else []) ++
                  (if q.has_jx_character_id then
                    [("JX_CHARACTER_ID".toList, q.jx_character_id, true)] else []) ++
                  (if q.has_jx_display_name then
                    [("JX_DISPLAY_NAME".toList, q.jx_display_name, true)] else []))
                argv pre)) := by
  obtain ⟨q, hpq, _⟩ := RuneliteQuery_parse w.decode query
  refine ⟨q, hpq, ?_⟩
  have h : (LaunchRuneliteJar L w fuel request query configure).EndsEarly p ∨
      ∃ jar_path pre, pre.all p = true ∧
        LaunchRuneliteJar L w fuel request query configure =
          launch_runelite L w fuel configure q jar_path pre := by
    unfold LaunchRuneliteJar
    rw [hpq]
    simp only []
    cases h1 : q.has_rl_path with
    | true =>
      simp only [if_true]
      exact Or.inr ⟨_, [], rfl, rfl⟩
    | false =>
      simp only [Bool.false_eq_true, if_false]
      cases h2 : q.has_id with
      | false =>
        simp only [Bool.false_eq_true, if_false]
        exact Or.inr ⟨_, [], rfl, rfl⟩
      | true =>
        simp only [if_true]
        rcases hp : request.post_data with _ | (_ | ⟨jar, _ | _⟩)
        · exact Or.inl (endsEarly_respond p [] 400 _ rfl (Or.inl rfl))
        · exact Or.inl (endsEarly_respond p [] 400 _ rfl (Or.inl rfl))
        · simp only []
          obtain ⟨hall, hst⟩ := save_jar_all p hq w fuel L.runelite_path jar [] hjar rfl
          generalize save_jar w fuel L.runelite_path jar [] = sv at hall hst
          obtain ⟨effs, res⟩ := sv
          cases res with
          | error f => exact Or.inl (endsEarly_error p effs f hall)
          | ok o =>
            cases o with
            | none => exact Or.inr ⟨_, effs, hall, rfl⟩
            | some r =>
              exact Or.inl ⟨hall, fun r2 hr => by
                rw [← Except.ok.inj hr]; exact Or.inr (hst r rfl)⟩
        · exact Or.inl (endsEarly_respond p [] 400 _ rfl (Or.inl rfl))
  rcases h with h | ⟨jar_path, pre, hpre, h⟩
  · exact Or.inl h
  · rcases launch_runelite_shape p L w fuel configure q jar_path pre hpre with h2 | ⟨argv, h2⟩
    · left; rw [h]; exact h2
    · right; exact ⟨pre, argv, hpre, h.trans h2⟩

theorem LaunchHdosJar_shape (p : Effect → Bool) (hq : AcceptsOthers p) (L : Launcher)
    (w : World) (fuel : Nat) (request : Request) (query : Str)
    (hjar : ∀ ok, p (.open_file L.hdos_path 0o755 ok) = true) :
    ∃ q, ParseQuery query (HdosQuery.visit w.decode) {} = some q ∧
      ((LaunchHdosJar L w fuel request query).EndsEarly p ∨
        ∃ pre java, pre.all p = true ∧
          LaunchHdosJar L w fuel request query = launch_hdos L w fuel q java pre) := by
  obtain ⟨q, hpq, _⟩ := HdosQuery_parse w.decode query
  refine ⟨q, hpq, ?_⟩
  unfold LaunchHdosJar
  cases w.java_home with
  | none => exact Or.inl (endsEarly_respond p [] 400 _ rfl (Or.inl rfl))
  | some java_home =>
    simp only []
    cases FindJava w.fs_exists (some java_home) w.PATH with
    | error f => exact Or.inl (endsEarly_error p [] f rfl)
    | ok found =>
      simp only []
      cases found.ret with
      | false => exact Or.inl (endsEarly_respond p [] 500 _ rfl (Or.inr rfl))
      | true =>
        simp only [Bool.true_eq_false, if_false]
        have hpx : (java_proxy L w java_home).effects.all p = true :=
          all_of_rebuild p hq _ (java_proxy_rebuild L w java_home).1
        generalize java_proxy L w java_home = px at hpx
        obtain ⟨peff, pres⟩ := px
        cases pres with
        | error f => exact Or.inl (endsEarly_error p peff f hpx)
        | ok err =>
          simp only []
          cases err with
          | true => exact Or.inl (endsEarly_respond p peff 500 _ hpx (Or.inr rfl))
          | false =>
            simp only [Bool.false_eq_true, if_false, hpq]
            cases h1 : q.has_version with
            | false =>
              simp only [Bool.false_eq_true, if_false]
              exact Or.inr ⟨peff, _, hpx, rfl⟩
            | true =>
              simp only [if_true]
              rcases hp : request.post_data with _ | (_ | ⟨jar, _ | _⟩)
              · exact Or.inl (endsEarly_respond p peff 400 _ hpx (Or.inl rfl))
              · exact Or.inl (endsEarly_respond p peff 400 _ hpx (Or.inl rfl))
              · simp only []
                obtain ⟨hall, hst⟩ := save_jar_all p hq w fuel L.hdos_path jar peff hjar hpx
                generalize save_jar w fuel L.hdos_path jar peff = sv at hall hst
                obtain ⟨effs, res⟩ := sv
                cases res with
                | error f => exact Or.inl (endsEarly_error p effs f hall)
                | ok o =>
                  cases o with
                  | none => exact Or.inr ⟨effs, _, hall, rfl⟩
                  | some r =>
                    exact Or.inl ⟨hall, fun r2 hr => by
                      rw [← Except.ok.inj hr]; exact Or.inr (hst r rfl)⟩
              · exact Or.inl (endsEarly_respond p peff 400 _ hpx (Or.inl rfl))

theorem last_value_none_iff (name : Str) (calls : List (Str × Str)) :
    last_value name calls = none ↔ name ∉ calls.map Prod.fst := by
  induction calls with
  | nil => simp [last_value]
  | cons kv rest ih =>
    rw [last_value_cons]
    cases hl : last_value name rest with
    | some v =>
      have : ¬ name ∉ rest.map Prod.fst := fun h => by
        rw [ih.mpr h] at hl; exact absurd hl (by simp)
      simp only [List.map_cons, List.mem_cons, not_or]
      constructor
      · intro h; exact absurd h (by simp)
      · intro h; exact absurd h.2 this
    | none =>
      have hr : name ∉ rest.map Prod.fst := ih.mp hl
      simp only [List.map_cons, List.mem_cons, not_or]
      by_cases hk : kv.1 = name
      · rw [if_pos hk]
        constructor
        · intro h; exact absurd h (by simp)
        · intro h; exact absurd hk.symm h.1
      · rw [if_neg hk]
        exact ⟨fun _ => ⟨fun h => hk h.symm, hr⟩, fun _ => rfl⟩

theorem paramValue_ne_none_iff (decode : Str → Str) (query name : Str) :
    paramValue decode query name ≠ none ↔ HasParam query name := by
  unfold paramValue HasParam
  cases visits query with
  | none => simp
  | some calls =>
    simp only []
    rw [← not_iff_not, not_not, Option.map_eq_none', last_value_none_iff]

theorem setFromParam_of (w : World) (dir : Str) (query : Str) (env : List (Str × Str × Bool))
    (argv : List (Option Str)) (var param : Str) (has : Bool) (val : Str)
    (hval : (if has then some val else none) = paramValue w.decode query param)
    (henv : setenv_of var (before_execv (child_actions w dir env argv)) =
      if has then [(val, true)] else []) :
    SetFromParam w query (child_actions w dir env argv) var param := by
  unfold SetFromParam
  rw [henv, ← paramValue_ne_none_iff w.decode, ← hval]
  cases has with
  | false => exact ⟨by simp, rfl⟩
  | true => exact ⟨by simp, rfl⟩

theorem overlay_of_env (L : Launcher) (w : World) (query : Str)
    (base : List (Str × Str × Bool)) (java : Str) (argv : List (Option Str))
    (hs hc hd : Bool) (vs vc vd : Str)
    (hbase : base = [("HOME".toList, L.data_dir, true),
        ("PULSE_PROP_OVERRIDE".toList, env_pulse_prop_override, false),
        ("SDL_VIDEO_X11_WMCLASS".toList, env_wmclass, false)] ∨
      base = [("HOME".toList, L.data_dir, true)] ∨
      base = [("HOME".toList, L.data_dir, true), ("BOLT_JAVA_PATH".toList, java, true)])
    (h1 : (if hs then some vs else none) = paramValue w.decode query "jx_session_id".toList)
    (h2 : (if hc then some vc else none) = paramValue w.decode query "jx_character_id".toList)
    (h3 : (if hd then some vd else none) = paramValue w.decode query "jx_display_name".toList)
    (hexec : execv_of (child_actions w L.data_dir
      (base ++ (if hs then [("JX_SESSION_ID".toList, vs, true)] else []) ++
        (if hc then [("JX_CHARACTER_ID".toList, vc, true)] else []) ++
        (if hd then [("JX_DISPLAY_NAME".toList, vd, true)] else [])) argv) ≠ []) :
    EnvOverlay L w query (child_actions w L.data_dir
      (base ++ (if hs then [("JX_SESSION_ID".toList, vs, true)] else []) ++
        (if hc then [("JX_CHARACTER_ID".toList, vc, true)] else []) ++
        (if hd then [("JX_DISPLAY_NAME".toList, vd, true)] else [])) argv) := by
  have hchdir : w.chdir_ok = true := by
    cases h : w.chdir_ok with
    | true => rfl
    | false =>
      exfalso; apply hexec
      unfold child_actions
      rw [h]; rfl
  refine ⟨?_, setFromParam_of w _ query _ argv _ _ hs vs h1 ?_,
    setFromParam_of w _ query _ argv _ _ hc vc h2 ?_,
    setFromParam_of w _ query _ argv _ _ hd vd h3 ?_⟩
  all_goals
    unfold child_actions
    rw [if_pos hchdir]
    rcases hbase with rfl | rfl | rfl <;> cases hs <;> cases hc <;> cases hd <;> rfl


theorem execv_of_setenvs (env : List (Str × Str × Bool)) (rest : List ChildAction) :
    execv_of (env.map (fun e => ChildAction.setenv e.1 e.2.1 e.2.2) ++ rest) = execv_of rest := by
  induction env with
  | nil => rfl
  | cons e env' ih => exact ih

theorem execv_of_child (w : World) (dir : Str) (env : List (Str × Str × Bool))
    (argv : List (Option Str)) :
    execv_of (child_actions w dir env argv) =
      if w.chdir_ok then [((argv_strings argv).headD [], argv_strings argv)] else [] := by
  unfold child_actions
  cases w.chdir_ok with
  | false => rfl
  | true =>
    simp only [if_true, List.append_assoc]
    rw [show ∀ l : List ChildAction, [ChildAction.setpgrp, .chdir dir, .close_stdin] ++ l
      = .setpgrp :: .chdir dir :: .close_stdin :: l from fun _ => rfl]
    show execv_of (List.map _ env ++ _) = _
    rw [execv_of_setenvs]
    cases w.execv_ok <;> rfl

theorem child_exits (w : World) (dir : Str) (env : List (Str × Str × Bool))
    (argv : List (Option Str)) (h : execv_of (child_actions w dir env argv) = []) :
    (child_actions w dir env argv).getLast? = some (.exit 1) := by
  rw [execv_of_child] at h
  cases hcd : w.chdir_ok with
  | true => rw [hcd, if_pos rfl] at h; exact absurd h (by simp)
  | false => unfold child_actions; rw [hcd]; rfl

theorem child_rule_of_early (L : Launcher) (w : World) (query : Str) (run : Outcome Response)
    (h : run.EndsEarly (fun e => !e.isFork)) : ChildRule L w query run := by
  refine ⟨fun c hc => absurd hc (no_fork_of_all _ h.1 _), ?_⟩
  intro r hr h200
  rcases h.2 r hr with h4 | h5
  · rw [h4] at h200; cases h200
  · rw [h5] at h200; cases h200

theorem child_rule_of_shape (L : Launcher) (w : World) (query : Str) (fuel : Nat)
    (run : Outcome Response) (has_marker : Bool) (marker value : Str) (failed : String)
    (base : List (Str × Str × Bool)) (java : Str) (argv : List (Option Str))
    (hs hc hd : Bool) (vs vc vd : Str) (pre : List Effect)
    (hbase : base = [("HOME".toList, L.data_dir, true),
        ("PULSE_PROP_OVERRIDE".toList, env_pulse_prop_override, false),
        ("SDL_VIDEO_X11_WMCLASS".toList, env_wmclass, false)] ∨
      base = [("HOME".toList, L.data_dir, true)] ∨
      base = [("HOME".toList, L.data_dir, true), ("BOLT_JAVA_PATH".toList, java, true)])
    (h1 : (if hs then some vs else none) = paramValue w.decode query "jx_session_id".toList)
    (h2 : (if hc then some vc else none) = paramValue w.decode query "jx_character_id".toList)
    (h3 : (if hd then some vd else none) = paramValue w.decode query "jx_display_name".toList)
    (hpre : pre.all (fun e => !e.isFork) = true)
    (hrun : run = save_marker w fuel has_marker marker value failed
      (spawn w L.data_dir
        (base ++ (if hs then [("JX_SESSION_ID".toList, vs, true)] else []) ++
          (if hc then [("JX_CHARACTER_ID".toList, vc, true)] else []) ++
          (if hd then [("JX_DISPLAY_NAME".toList, vd, true)] else [])) argv pre)) :
    ChildRule L w query run := by
  refine ⟨?_, ?_⟩
  · intro c hcm
    have hfc := fork_of_shape w fuel run has_marker marker value failed L.data_dir _ argv pre
      hpre hrun (some c) hcm
    cases hf : w.fork_ok with
    | false => rw [hf] at hfc; exact absurd hfc (by simp)
    | true =>
      rw [hf, if_pos rfl] at hfc
      have hcc := Option.some.inj hfc
      subst hcc
      exact ⟨fun hexec => overlay_of_env L w query base java argv hs hc hd vs vc vd hbase
        h1 h2 h3 hexec, child_exits w _ _ _⟩
  · intro r _ _ hf
    have hm := fork_mem_of_shape w fuel run has_marker marker value failed L.data_dir _ argv
      pre hrun
    rw [hf, if_pos rfl] at hm
    refine ⟨_, hm, ?_⟩
    intro hcd
    rw [execv_of_child, hcd, if_pos rfl]
    simp

theorem endsEarly_not_fork (marker : Str) (run : Outcome Response)
    (h : run.EndsEarly (Effect.beforeSpawn marker)) : run.EndsEarly (fun e => !e.isFork) :=
  ⟨not_fork_of_beforeSpawn marker _ h.1, h.2⟩

/-! ## Theorems: the child's environment and arguments -/

/-- C11. In each of `LaunchRs3Deb`, `LaunchRuneliteJar` and `LaunchHdosJar` the run follows
`ChildRule`. Every child the run forks, when it gets as far as its `execv`, has before that
set `HOME` to `data_dir` with the overwrite flag, and has set each of `JX_SESSION_ID`,
`JX_CHARACTER_ID` and `JX_DISPLAY_NAME` if and only if `ParseQuery` visited the parameter
`jx_session_id`, `jx_character_id`, `jx_display_name`; the value is then the decoded value of
the last occurrence of the parameter. A child that makes no `execv` is the one whose `chdir`
failed: it ends with `exit(1)`. And every run that answers 200 has reached the spawn: when
`fork` gives a child, that child is among the effects, and it reaches its `execv` when its
`chdir` succeeds. -/
theorem child_environment (L : Launcher) (w : World) (fuel : Nat) (request : Request)
    (query : Str) (configure : Bool) :
    ChildRule L w query (LaunchRs3Deb L w fuel request query) ∧
    ChildRule L w query (LaunchRuneliteJar L w fuel request query configure) ∧
    ChildRule L w query (LaunchHdosJar L w fuel request query) := by
  refine ⟨?_, ?_, ?_⟩
  · obtain ⟨q, hq, hshape⟩ := LaunchRs3Deb_shape (fun e => !e.isFork) acceptsOthers_not_fork
      L w fuel request query (fun _ => rfl) (fun _ _ _ _ _ => rfl)
    obtain ⟨_, _, p1, p2, p3⟩ := Rs3Query_params w.decode query q hq
    rcases hshape with hearly | ⟨pre, hpre, hrun⟩
    · exact child_rule_of_early L w query _ hearly
    · exact child_rule_of_shape L w query fuel _ q.has_hash L.rs3_hash_path q.hash
        "OK, but unable to save hash file\n" _ [] _ _ _ _ _ _ _ pre (Or.inl rfl) p1 p2 p3
        hpre hrun
  · obtain ⟨q, hq, hshape⟩ := LaunchRuneliteJar_shape (fun e => !e.isFork)
      acceptsOthers_not_fork L w fuel request query configure (fun _ => rfl)
    obtain ⟨_, _, p1, p2, p3⟩ := RuneliteQuery_params w.decode query q hq
    rcases hshape with hearly | ⟨pre, argv, hpre, hrun⟩
    · exact child_rule_of_early L w query _ hearly
    · exact child_rule_of_shape L w query fuel _ q.has_id L.runelite_id_path q.id
        "OK, but unable to save id file\n" _ [] argv _ _ _ _ _ _ pre (Or.inr (Or.inl rfl))
        p1 p2 p3 hpre hrun
  · obtain ⟨q, hq, hshape⟩ := LaunchHdosJar_shape (fun e => !e.isFork)
      acceptsOthers_not_fork L w fuel request query (fun _ => rfl)
    obtain ⟨_, p1, p2, p3⟩ := HdosQuery_params w.decode query q hq
    rcases hshape with hearly | ⟨pre, java, hpre, hrun⟩
    · exact child_rule_of_early L w query _ hearly
    · exact child_rule_of_shape L w query fuel _ q.has_version L.hdos_version_path q.version
        "OK, but unable to save version file\n" _ java _ _ _ _ _ _ _ pre
        (Or.inr (Or.inr rfl)) p1 p2 p3 hpre hrun

/-- Instances of `child_environment`. `LaunchRs3Deb` on the query
`jx_session_id=s&jx_display_name=a%20b&jx_session_id=t+u` forks `sampleChildRs3`, whose
`JX_SESSION_ID` is the decoded last occurrence `t u` and which sets no `JX_CHARACTER_ID`;
`LaunchRuneliteJar` on `rl_path=/x/rl.jar` and `LaunchHdosJar` on the empty query answer 200
and have forked a child that reaches its `execv`. -/
theorem child_environment_witness :
    Effect.fork (some sampleChildRs3) ∈
      (LaunchRs3Deb sampleLauncher sampleWorldDecoding 8 { post_data := none }
        "jx_session_id=s&jx_display_name=a%20b&jx_session_id=t+u".toList).effects ∧
    execv_of sampleChildRs3 ≠ [] ∧
    EnvOverlay sampleLauncher sampleWorldDecoding
      "jx_session_id=s&jx_display_name=a%20b&jx_session_id=t+u".toList sampleChildRs3 ∧
    setenv_of "JX_SESSION_ID".toList (before_execv sampleChildRs3) = [("t u".toList, true)] ∧
    setenv_of "JX_CHARACTER_ID".toList (before_execv sampleChildRs3) = [] ∧
    (∃ c, Effect.fork (some c) ∈
        (LaunchRuneliteJar sampleLauncher sampleWorldDecoding 8 { post_data := none }
          "rl_path=/x/rl.jar".toList false).effects ∧
      (sampleWorldDecoding.chdir_ok = true → execv_of c ≠ [])) ∧
    (∃ c, Effect.fork (some c) ∈
        (LaunchHdosJar sampleLauncher sampleWorldDecoding 8 { post_data := none }
          [] ).effects ∧
      (sampleWorldDecoding.chdir_ok = true → execv_of c ≠ [])) :=
  ⟨by decide, by decide,
    ((child_environment sampleLauncher sampleWorldDecoding 8 { post_data := none }
      "jx_session_id=s&jx_display_name=a%20b&jx_session_id=t+u".toList false).1.1
      sampleChildRs3 (by decide)).1 (by decide),
    by decide, by decide,
    (child_environment sampleLauncher sampleWorldDecoding 8 { post_data := none }
      "rl_path=/x/rl.jar".toList false).2.1.2
      { status := 200, mime := "text/plain".toList, body := "OK\n".toList } rfl rfl rfl,
    (child_environment sampleLauncher sampleWorldDecoding 8 { post_data := none }
      [] false).2.2.2
      { status := 200, mime := "text/plain".toList, body := "OK\n".toList } rfl rfl rfl⟩

/-- C12. In `LaunchRs3Deb`, for a query without the `hash` parameter, every `execv` of the
child runs `rs3_path` with one argument vector: `[rs3_path]` when the query has no
`config_uri` parameter, and `[rs3_path, "--configURI", u]` when it has one with the decoded
value `u`. When `fork` and the child's `chdir` succeed the child makes exactly this one
`execv`. -/
theorem rs3_argument_vector (L : Launcher) (w : World) (fuel : Nat) (request : Request)
    (query : Str) (hhash : ¬ HasParam query "hash".toList) :
    ∃ argv : List Str,
      (¬ HasParam query "config_uri".toList → argv = [L.rs3_path]) ∧
      (HasParam query "config_uri".toList →
        ∃ u, paramValue w.decode query "config_uri".toList = some u) ∧
      (∀ u, paramValue w.decode query "config_uri".toList = some u →
        argv = [L.rs3_path, "--configURI".toList, u]) ∧
      (∀ c, Effect.fork (some c) ∈ (LaunchRs3Deb L w fuel request query).effects →
        ∀ x ∈ execv_of c, x = (L.rs3_path, argv)) ∧
      (w.fork_ok = true → w.chdir_ok = true →
        ∃ c, Effect.fork (some c) ∈ (LaunchRs3Deb L w fuel request query).effects ∧
          execv_of c = [(L.rs3_path, argv)]) := by
  obtain ⟨q, hq, hiff⟩ := Rs3Query_parse w.decode query
  obtain ⟨_, pc, _, _, _⟩ := Rs3Query_params w.decode query q hq
  have hh : q.has_hash = false := by
    cases h : q.has_hash with
    | false => rfl
    | true => exact absurd (hiff.mp h) hhash
  have hrun : LaunchRs3Deb L w fuel request query = launch_rs3 L w fuel q [] := by
    unfold LaunchRs3Deb
    rw [hq]
    simp only [hh, Bool.false_eq_true, if_false]
  have hsome : HasParam query "config_uri".toList →
      ∃ u, paramValue w.decode query "config_uri".toList = some u := by
    intro h
    exact Option.ne_none_iff_exists'.mp ((paramValue_ne_none_iff _ _ _).mpr h)
  have hforks : ∀ c, Effect.fork c ∈ (launch_rs3 L w fuel q []).effects →
      c = if w.fork_ok then some (child_actions w L.data_dir _ _) else none :=
    fun c hc => fork_of_shape w fuel _ q.has_hash L.rs3_hash_path q.hash
      "OK, but unable to save hash file\n" L.data_dir _ _ [] rfl rfl c hc
  have hargv : argv_strings [some L.rs3_path,
      if q.has_config_uri then some "--configURI".toList else none,
      if q.has_config_uri then some q.config_uri else none, none] =
      match paramValue w.decode query "config_uri".toList with
      | none => [L.rs3_path]
      | some u => [L.rs3_path, "--configURI".toList, u] := by
    rw [← pc]
    cases q.has_config_uri <;> rfl
  refine ⟨match paramValue w.decode query "config_uri".toList with
      | none => [L.rs3_path]
      | some u => [L.rs3_path, "--configURI".toList, u], ?_, hsome, ?_, ?_, ?_⟩
  · intro hno
    have : paramValue w.decode query "config_uri".toList = none := by
      by_contra h
      exact hno ((paramValue_ne_none_iff _ _ _).mp h)
    rw [this]
  · intro u hu
    rw [hu]
  · intro c hc x hx
    rw [hrun] at hc
    have hfc := hforks _ hc
    cases hf : w.fork_ok with
    | false => rw [hf] at hfc; exact absurd hfc (by simp)
    | true =>
      rw [hf, if_pos rfl] at hfc
      have hcc := Option.some.inj hfc
      subst hcc
      rw [execv_of_child] at hx
      cases hcd : w.chdir_ok with
      | false => rw [hcd] at hx; exact absurd hx (List.not_mem_nil _)
      | true =>
        rw [hcd, if_pos rfl, List.mem_singleton, hargv] at hx
        rw [hx, ← hargv]
        rfl
  · intro hf hcd
    have hm := fork_mem_of_shape w fuel (launch_rs3 L w fuel q []) q.has_hash L.rs3_hash_path
      q.hash "OK, but unable to save hash file\n" L.data_dir _ _ [] rfl
    rw [← hrun, hf, if_pos rfl] at hm
    refine ⟨_, hm, ?_⟩
    rw [execv_of_child, hcd, if_pos rfl, hargv]
    rw [← hargv]
    rfl

/-- An instance of `rs3_argument_vector`: on the query `config_uri=http%3A%2F%2Fx` the child
runs `rs3_path` with the arguments `rs3_path`, `--configURI`, `http://x`. -/
theorem rs3_argument_vector_witness :
    ¬ HasParam "config_uri=http%3A%2F%2Fx".toList "hash".toList ∧
    Effect.fork (some sampleChildConfigURI) ∈
      (LaunchRs3Deb sampleLauncher sampleWorldDecoding 8 { post_data := none }
        "config_uri=http%3A%2F%2Fx".toList).effects ∧
    (∀ x ∈ execv_of sampleChildConfigURI, x = (sampleLauncher.rs3_path,
      [sampleLauncher.rs3_path, "--configURI".toList, "http://x".toList])) ∧
    execv_of sampleChildConfigURI ≠ [] := by
  refine ⟨by decide, by decide, ?_, by decide⟩
  obtain ⟨argv, _, _, h3, h4, _⟩ := rs3_argument_vector sampleLauncher sampleWorldDecoding 8
    { post_data := none } "config_uri=http%3A%2F%2Fx".toList (by decide)
  have h := h3 "http://x".toList (by decide)
  subst h
  exact h4 sampleChildConfigURI (by decide)



/-! ## Theorems: the marker files -/

end Bolt
